import Mathlib

/-!
Verification of the physics/collision core of the VermarineLib repository.

The development is a shallow embedding of the Rust sources
(physics/mod.rs, physics/sat.rs, physics/spatialhash.rs, physics/world.rs).
Machine floating point (f64) is embedded as the real numbers; u64 bitmasks
are embedded as natural numbers (only bitwise-and and zero tests occur).
Fallible code paths (Rust panics: out-of-bounds indexing, Option::unwrap)
are embedded as Option-returning functions where the panic is reachable,
with none modelling the panic.
-/

noncomputable section

namespace Vermarine

/-- A 2-d vector with real components, embedding tetra's Vec2 of f64. -/
structure Vec2 where
  x : ℝ
  y : ℝ

instance : Inhabited Vec2 := ⟨⟨0, 0⟩⟩

instance : Add Vec2 := ⟨fun a b => ⟨a.x + b.x, a.y + b.y⟩⟩

instance : Sub Vec2 := ⟨fun a b => ⟨a.x - b.x, a.y - b.y⟩⟩

instance : Neg Vec2 := ⟨fun a => ⟨-a.x, -a.y⟩⟩

/-- Vector times scalar, embedding vek's impl of Mul by f64. -/
def Vec2.smul (v : Vec2) (s : ℝ) : Vec2 := ⟨v.x * s, v.y * s⟩

/-- Dot product, embedding vek's Vec2::dot. -/
def Vec2.dot (a b : Vec2) : ℝ := a.x * b.x + a.y * b.y

/-- Squared magnitude, embedding vek's magnitude_squared. -/
def Vec2.magnitude_squared (v : Vec2) : ℝ := v.x * v.x + v.y * v.y

/-- Magnitude, embedding vek's magnitude (f64 sqrt embedded as Real.sqrt). -/
def Vec2.magnitude (v : Vec2) : ℝ := Real.sqrt v.magnitude_squared

/-- Normalization, embedding vek's normalized = self / magnitude.
On the zero vector f64 yields NaN components; the real embedding yields
zero (division by zero), which is the convention used throughout. -/
def Vec2.normalized (v : Vec2) : Vec2 := ⟨v.x / v.magnitude, v.y / v.magnitude⟩

@[simp] theorem Vec2.add_x (a b : Vec2) : (a + b).x = a.x + b.x := rfl

@[simp] theorem Vec2.add_y (a b : Vec2) : (a + b).y = a.y + b.y := rfl

@[simp] theorem Vec2.sub_x (a b : Vec2) : (a - b).x = a.x - b.x := rfl

@[simp] theorem Vec2.sub_y (a b : Vec2) : (a - b).y = a.y - b.y := rfl

@[simp] theorem Vec2.neg_x (a : Vec2) : (-a).x = -a.x := rfl

@[simp] theorem Vec2.neg_y (a : Vec2) : (-a).y = -a.y := rfl

@[simp] theorem Vec2.smul_x (a : Vec2) (s : ℝ) : (a.smul s).x = a.x * s := rfl

@[simp] theorem Vec2.smul_y (a : Vec2) (s : ℝ) : (a.smul s).y = a.y * s := rfl

/-- A body's world-space position (components.rs Transform of two f64). -/
structure Transform where
  x : ℝ
  y : ℝ

instance : Inhabited Transform := ⟨⟨0, 0⟩⟩

/-- Entity handle issued by the surrounding ECS: index plus generation. -/
structure EntityId where
  index : Nat
  gen : Nat
deriving DecidableEq

instance : Inhabited EntityId := ⟨⟨0, 0⟩⟩

/-- The uindex accessor of shipyard's EntityId. -/
def EntityId.uindex (e : EntityId) : Nat := e.index

/-- CollisionShape from physics/mod.rs: circle radius or polygon vertices. -/
inductive CollisionShape where
  | Circle (radius : ℝ)
  | Polygon (vertices : List Vec2)

/-- CollisionShape::is_circle. -/
def CollisionShape.is_circle : CollisionShape → Bool
  | .Circle _ => true
  | _ => false

/-!  sat.rs: the geometry / separating-axis-test module.  -/

/-- The normal used by get_axes for an edge vector: Vec2::new(edge.y, -edge.x). -/
def edgeNormal (p1 p2 : Vec2) : Vec2 := ⟨(p1 - p2).y, -(p1 - p2).x⟩

/-- sat.rs get_axes.  For a polygon the source iterates i in 0..(len - 1)
over adjacent vertex pairs (no wrap-around edge); for a circle it returns
the empty list.  The subtraction is Nat subtraction: for an empty vertex
list the source panics on usize underflow; that input is outside the
domain of every theorem below. -/
def get_axes : CollisionShape → List Vec2
  | .Polygon vertices =>
      (List.range (vertices.length - 1)).map (fun i =>
        (edgeNormal (vertices.getD i default) (vertices.getD (i + 1) default)).normalized)
  | .Circle _ => []

/-- The inner helper of get_circle_polygon_axis: vector from a
transform-translated vertex to the circle center. -/
def cpGetAxis (circle_pos : Vec2) (vertex : Vec2) (vertex_pos : Transform) : Vec2 :=
  circle_pos - ⟨vertex.x + vertex_pos.x, vertex.y + vertex_pos.y⟩

/-- The scan of get_circle_polygon_axis over all vertices, keeping the
axis of smallest squared magnitude (strict improvement only). -/
def cpFold (circle_pos : Vec2) (t2 : Transform) :
    List Vec2 → ℝ × Vec2 → ℝ × Vec2
  | [], acc => acc
  | v :: rest, (smallest, axis) =>
      let found := cpGetAxis circle_pos v t2
      if found.magnitude_squared < smallest then
        cpFold circle_pos t2 rest (found.magnitude_squared, found)
      else
        cpFold circle_pos t2 rest (smallest, axis)

/-- sat.rs get_circle_polygon_axis.  none models the panic on mismatched
shape tags and the vertices[0] panic on an empty polygon. -/
def get_circle_polygon_axis (circle : CollisionShape) (t1 : Transform)
    (polygon : CollisionShape) (t2 : Transform) : Option Vec2 :=
  match circle, polygon with
  | .Circle _, .Polygon vertices =>
      match vertices with
      | [] => none
      | v0 :: _ =>
          let circle_pos : Vec2 := ⟨t1.x, t1.y⟩
          let start_axis := cpGetAxis circle_pos v0 t2
          some (cpFold circle_pos t2 vertices
                  (start_axis.magnitude_squared, start_axis)).2.normalized
  | _, _ => none

/-- sat.rs Projection: a scalar interval. -/
structure Projection where
  min : ℝ
  max : ℝ

@[simp] theorem Projection.min_mk (a b : ℝ) : (Projection.mk a b).min = a := rfl

@[simp] theorem Projection.max_mk (a b : ℝ) : (Projection.mk a b).max = b := rfl

/-- Projection::overlaps, literally the three-disjunct test of the source. -/
def Projection.overlaps (self other : Projection) : Prop :=
  (self.min ≥ other.min ∧ self.min ≤ other.max) ∨
  (self.max ≥ other.min ∧ self.max ≤ other.max) ∨
  (self.max ≥ other.max ∧ self.min ≤ other.min)

instance (p q : Projection) : Decidable (p.overlaps q) := by
  unfold Projection.overlaps
  infer_instance

/-- Projection::get_overlap, with the source's branch order (the case
other strictly inside self falls through every branch and yields 0). -/
def Projection.get_overlap (self other : Projection) : ℝ :=
  if self.min ≥ other.min ∧ self.max ≤ other.max then self.max - self.min
  else if self.max ≥ other.min ∧ self.max ≤ other.max then self.max - other.min
  else if self.min ≥ other.min ∧ self.min ≤ other.max then other.max - self.min
  else 0

/-- The vertex scan of project_shape for polygons: lower min, else raise max. -/
def projFold (axis : Vec2) (pos : Vec2) : List Vec2 → Projection → Projection
  | [], p => p
  | v :: rest, p =>
      let d := axis.dot (v + pos)
      if d < p.min then projFold axis pos rest ⟨d, p.max⟩
      else if d > p.max then projFold axis pos rest ⟨p.min, d⟩
      else projFold axis pos rest p

/-- sat.rs project_shape.  For an empty polygon the source panics on
vertices[0]; the embedding starts from the default vector there (outside
every theorem's domain). -/
def project_shape (shape : CollisionShape) (transform : Transform) (axis : Vec2) :
    Projection :=
  let pos : Vec2 := ⟨transform.x, transform.y⟩
  match shape with
  | .Polygon vertices =>
      let start := axis.dot (vertices.headI + pos)
      projFold axis pos vertices ⟨start, start⟩
  | .Circle r =>
      let n := axis.normalized
      let minv := (-n).smul r + pos
      let maxv := n.smul r + pos
      ⟨axis.dot minv, axis.dot maxv⟩

/-- The axis loop of seperating_axis_test: project both shapes on each
axis, exit on the first non-overlapping axis (outer none), otherwise keep
the smallest overlap with ties going to the later axis.  some none is the
loop finishing with no axis ever processed. -/
def satFold (c1 : CollisionShape) (t1 : Transform) (c2 : CollisionShape)
    (t2 : Transform) : List Vec2 → Option (ℝ × Vec2) → Option (Option (ℝ × Vec2))
  | [], acc => some acc
  | axis :: rest, none =>
      if (project_shape c1 t1 axis).overlaps (project_shape c2 t2 axis) then
        satFold c1 t1 c2 t2 rest
          (some ((project_shape c1 t1 axis).get_overlap (project_shape c2 t2 axis), axis))
      else none
  | axis :: rest, some (lowest, a) =>
      if (project_shape c1 t1 axis).overlaps (project_shape c2 t2 axis) then
        if (project_shape c1 t1 axis).get_overlap (project_shape c2 t2 axis) ≤ lowest then
          satFold c1 t1 c2 t2 rest
            (some ((project_shape c1 t1 axis).get_overlap (project_shape c2 t2 axis), axis))
        else satFold c1 t1 c2 t2 rest (some (lowest, a))
      else none

/-- The final sign correction of seperating_axis_test: flip the mtv if it
points along the center-to-center vector from shape1 to shape2. -/
def satSignFix (t1 t2 : Transform) (mtv : Vec2) : Vec2 :=
  if (⟨t2.x - t1.x, t2.y - t1.y⟩ : Vec2).dot mtv > 0 then -mtv else mtv

/-- The tail of seperating_axis_test after the axes are assembled: run the
loop, then scale the chosen axis by the lowest overlap and sign-correct.
The some none loop outcome (no axes at all) is the source's unwrap panic,
propagated as none. -/
def satFinish (c1 : CollisionShape) (t1 : Transform) (c2 : CollisionShape)
    (t2 : Transform) (axes : List Vec2) : Option (Bool × Option Vec2) :=
  match satFold c1 t1 c2 t2 axes none with
  | none => some (false, none)
  | some none => none
  | some (some (lowest, axis)) =>
      some (true, some (satSignFix t1 t2 (axis.smul lowest)))

/-- sat.rs seperating_axis_test.  Returns (collided, optional mtv); none
models the source's panics (unwrap with no axes, circle-polygon axis on an
empty polygon). -/
def seperating_axis_test (t1 : Transform) (c1 : CollisionShape) (t2 : Transform)
    (c2 : CollisionShape) : Option (Bool × Option Vec2) :=
  match c1, c2 with
  | .Circle r1, .Circle r2 =>
      let x := |t1.x - t2.x|
      let y := |t1.y - t2.y|
      if x * x + y * y ≤ (r1 + r2) * (r1 + r2) then
        satFinish c1 t1 c2 t2 [(⟨t1.x - t2.x, t1.y - t2.y⟩ : Vec2).normalized]
      else some (false, none)
  | .Circle _, .Polygon _ =>
      match get_circle_polygon_axis c1 t1 c2 t2 with
      | none => none
      | some axis => satFinish c1 t1 c2 t2 (axis.normalized :: get_axes c2)
  | .Polygon _, .Circle _ =>
      match get_circle_polygon_axis c2 t2 c1 t1 with
      | none => none
      | some axis => satFinish c1 t1 c2 t2 (axis.normalized :: get_axes c1)
  | .Polygon _, .Polygon _ =>
      satFinish c1 t1 c2 t2 (get_axes c1 ++ get_axes c2)

/-- The list of candidate axes that seperating_axis_test processes, for use
in theorem statements.  On the circle-circle early exit (squared distance
beyond the radii sum) the test never builds axes and the list is empty;
none mirrors the panic cases of seperating_axis_test. -/
def satAxes (t1 : Transform) (c1 : CollisionShape) (t2 : Transform)
    (c2 : CollisionShape) : Option (List Vec2) :=
  match c1, c2 with
  | .Circle r1, .Circle r2 =>
      let x := |t1.x - t2.x|
      let y := |t1.y - t2.y|
      if x * x + y * y ≤ (r1 + r2) * (r1 + r2) then
        some [(⟨t1.x - t2.x, t1.y - t2.y⟩ : Vec2).normalized]
      else some []
  | .Circle _, .Polygon _ =>
      match get_circle_polygon_axis c1 t1 c2 t2 with
      | none => none
      | some axis => some (axis.normalized :: get_axes c2)
  | .Polygon _, .Circle _ =>
      match get_circle_polygon_axis c2 t2 c1 t1 with
      | none => none
      | some axis => some (axis.normalized :: get_axes c1)
  | .Polygon _, .Polygon _ =>
      some (get_axes c1 ++ get_axes c2)

/-!  physics/mod.rs: collision data types.  -/

/-- A Collision record (mod.rs): value snapshot of both sides plus the
opposing handle and the collision normal. -/
structure Collision where
  transform1 : Transform
  shape1 : CollisionShape
  collides_with1 : Nat
  collision_layer1 : Nat
  transform2 : Transform
  shape2 : CollisionShape
  collides_with2 : Nat
  collision_layer2 : Nat
  entity2 : EntityId
  normal : Vec2

/-- A Collider (mod.rs): shape, layer masks and the list of live overlaps. -/
structure Collider where
  shape : CollisionShape
  collision_layer : Nat
  collides_with : Nat
  overlapping : List Collision

/-- Collider::circle. -/
def Collider.circle (radius : ℝ) (collision_layer collides_with : Nat) : Collider :=
  ⟨.Circle radius, collision_layer, collides_with, []⟩

/-- Collider::half_extents: an axis-aligned box centered at the local origin. -/
def Collider.half_extents (width height : ℝ) (collision_layer collides_with : Nat) :
    Collider :=
  ⟨.Polygon [⟨-width, -height⟩, ⟨width, -height⟩, ⟨width, height⟩, ⟨-width, height⟩],
   collision_layer, collides_with, []⟩

/-- The local-space bounding box (mod.rs AABB): offset dx,dy plus extent. -/
structure AABB where
  dx : ℝ
  dy : ℝ
  width : ℝ
  height : ℝ

/-- One polygon vertex step of AABB::from_colliders.  The source updates
ymin before testing ymax, and the ymax test compares the vertex y against
the freshly updated ymin (the source literally reads ymin.unwrap() where
the x branch reads xmax.unwrap()); the embedding reproduces that. -/
def aabbVertexStep (st : Option ℝ × Option ℝ × Option ℝ × Option ℝ) (v : Vec2) :
    Option ℝ × Option ℝ × Option ℝ × Option ℝ :=
  let (xmin, xmax, ymin, ymax) := st
  let xmin := match xmin with
    | none => some v.x
    | some m => if v.x < m then some v.x else some m
  let xmax := match xmax with
    | none => some v.x
    | some m => if v.x > m then some v.x else some m
  let ymin := match ymin with
    | none => some v.y
    | some m => if v.y < m then some v.y else some m
  let ymax := match ymax with
    | none => some v.y
    | some m => if v.y > ymin.getD 0 then some v.y else some m
  (xmin, xmax, ymin, ymax)

/-- The circle case of AABB::from_colliders, with the same ymax-vs-ymin
comparison as the vertex case. -/
def aabbCircleStep (st : Option ℝ × Option ℝ × Option ℝ × Option ℝ) (r : ℝ) :
    Option ℝ × Option ℝ × Option ℝ × Option ℝ :=
  let (xmin, xmax, ymin, ymax) := st
  let xmin := match xmin with
    | none => some (-r)
    | some m => if -r < m then some (-r) else some m
  let xmax := match xmax with
    | none => some r
    | some m => if r > m then some r else some m
  let ymin := match ymin with
    | none => some (-r)
    | some m => if -r < m then some (-r) else some m
  let ymax := match ymax with
    | none => some r
    | some m => if r > ymin.getD 0 then some r else some m
  (xmin, xmax, ymin, ymax)

/-- One collider step of AABB::from_colliders. -/
def aabbColliderStep (st : Option ℝ × Option ℝ × Option ℝ × Option ℝ)
    (c : Collider) : Option ℝ × Option ℝ × Option ℝ × Option ℝ :=
  match c.shape with
  | .Polygon vertices => vertices.foldl aabbVertexStep st
  | .Circle r => aabbCircleStep st r

/-- AABB::from_colliders.  none models the four unwrap panics when no
collider contributed an extent (empty list, or only empty polygons). -/
def AABB.from_colliders (colliders : List Collider) : Option AABB :=
  match colliders.foldl aabbColliderStep (none, none, none, none) with
  | (some xmin, some xmax, some ymin, some ymax) =>
      some ⟨if xmin < 0 then xmin else 0, if ymin < 0 then ymin else 0,
            xmax - xmin, ymax - ymin⟩
  | _ => none

/-- AABB::from_collider delegates to from_colliders on a singleton. -/
def AABB.from_collider (collider : Collider) : Option AABB :=
  AABB.from_colliders [collider]

/-- A CollisionBody (mod.rs): solid colliders, sensors, cached local AABB. -/
structure CollisionBody where
  colliders : List Collider
  sensors : List Collider
  aabb : AABB

/-- CollisionBody::from_collider.  none propagates the AABB construction
panic. -/
def CollisionBody.from_collider (collider : Collider) : Option CollisionBody :=
  (AABB.from_collider collider).map fun aabb => ⟨[collider], [], aabb⟩

/-- CollisionBody::from_colliders. -/
def CollisionBody.from_colliders (colliders : List Collider) : Option CollisionBody :=
  (AABB.from_colliders colliders).map fun aabb => ⟨colliders, [], aabb⟩

/-- CollisionBody::from_sensor. -/
def CollisionBody.from_sensor (sensor : Collider) : Option CollisionBody :=
  (AABB.from_collider sensor).map fun aabb => ⟨[], [sensor], aabb⟩

/-- CollisionBody::from_sensors. -/
def CollisionBody.from_sensors (sensors : List Collider) : Option CollisionBody :=
  (AABB.from_colliders sensors).map fun aabb => ⟨[], sensors, aabb⟩

/-- CollisionBody::from_parts: the AABB is computed over colliders and
sensors joined in that order. -/
def CollisionBody.from_parts (colliders sensors : List Collider) :
    Option CollisionBody :=
  (AABB.from_colliders (colliders ++ sensors)).map fun aabb =>
    ⟨colliders, sensors, aabb⟩

/-- CollisionBody::remove_collision: drop from every collider's and
sensor's overlapping list each record whose opposing handle is the given
entity.  The source's counter loop is a stable in-place filter. -/
def CollisionBody.remove_collision (body : CollisionBody) (entity : EntityId) :
    CollisionBody :=
  { body with
    colliders := body.colliders.map fun c =>
      { c with overlapping := c.overlapping.filter fun col => col.entity2 ≠ entity },
    sensors := body.sensors.map fun c =>
      { c with overlapping := c.overlapping.filter fun col => col.entity2 ≠ entity } }

/-- CollisionBody::remove_all_collisions. -/
def CollisionBody.remove_all_collisions (body : CollisionBody) : CollisionBody :=
  { body with
    colliders := body.colliders.map fun c => { c with overlapping := [] },
    sensors := body.sensors.map fun c => { c with overlapping := [] } }

/-- Membership of a local-shape-space point in the box spanned by an AABB,
the box running from the offset (dx, dy) to (dx + width, dy + height). -/
def AABB.containsPoint (a : AABB) (v : Vec2) : Prop :=
  a.dx ≤ v.x ∧ v.x ≤ a.dx + a.width ∧ a.dy ≤ v.y ∧ v.y ≤ a.dy + a.height

/-- A triangle whose y extents expose the ymax update of
AABB::from_colliders: the scan sees y values 1, 5, 2 in that order. -/
def c1Collider : Collider :=
  ⟨.Polygon [⟨0, 1⟩, ⟨0, 5⟩, ⟨0, 2⟩], 1, 1, []⟩

/-- C1: the stored AABB does not contain every vertex of the constituent
shapes.  For the polygon with vertices (0,1), (0,5), (0,2) the computed
box is dx 0, dy 0, width 0, height 1, and the vertex (0,5) lies outside
it: the ymax scan compares each y against the running ymin instead of the
running ymax (the x branch uses xmax), so ymax ends at 2 instead of 5 and
ymin 1 then collapses the height to 1 with dy clamped to 0. -/
theorem c1_aabb_misses_vertex :
    AABB.from_collider c1Collider = some ⟨0, 0, 0, 1⟩ ∧
    CollisionBody.from_collider c1Collider = some ⟨[c1Collider], [], ⟨0, 0, 0, 1⟩⟩ ∧
    (⟨0, 5⟩ : Vec2) ∈ [(⟨0, 1⟩ : Vec2), ⟨0, 5⟩, ⟨0, 2⟩] ∧
    ¬ (AABB.mk 0 0 0 1).containsPoint ⟨0, 5⟩ := by
  have h : AABB.from_collider c1Collider = some ⟨0, 0, 0, 1⟩ := by
    simp only [AABB.from_collider, AABB.from_colliders, c1Collider,
      aabbColliderStep, aabbVertexStep, List.foldl]
    norm_num
  refine ⟨h, ?_, ?_, ?_⟩
  · simp [CollisionBody.from_collider, h]
  · simp
  · simp only [AABB.containsPoint]
    norm_num

/-- The vertex list of a unit-ish square, for the C7 witness. -/
def squareVerts : List Vec2 := [⟨-1, -1⟩, ⟨1, -1⟩, ⟨1, 1⟩, ⟨-1, 1⟩]

/-- C7: for a polygon with n ≥ 2 vertices get_axes returns exactly n - 1
vectors, the normalized edge normals of the adjacent pairs
(vertices[i], vertices[i+1]) for i below n - 1 — the wrap-around edge
between last and first vertex is omitted — and for a circle it returns
the empty sequence. -/
theorem c7_get_axes_adjacent_normals (vertices : List Vec2)
    (h : 2 ≤ vertices.length) (r : ℝ) :
    (get_axes (.Polygon vertices)).length = vertices.length - 1 ∧
    (∀ i, i < vertices.length - 1 →
      (get_axes (.Polygon vertices)).getD i default =
        (edgeNormal (vertices.getD i default) (vertices.getD (i + 1) default)).normalized) ∧
    get_axes (.Circle r) = [] := by
  refine ⟨by simp [get_axes], ?_, rfl⟩
  intro i hi
  have hlen : i < ((List.range (vertices.length - 1)).map (fun i =>
      (edgeNormal (vertices.getD i default) (vertices.getD (i + 1) default)).normalized)).length := by
    simpa using hi
  rw [get_axes, List.getD_eq_getElem _ _ hlen]
  simp [hi]

/-- Witness for C7 at a concrete quadrilateral: four vertices yield three
axes. -/
theorem c7_witness :
    2 ≤ squareVerts.length ∧
    ((get_axes (.Polygon squareVerts)).length = squareVerts.length - 1 ∧
    (∀ i, i < squareVerts.length - 1 →
      (get_axes (.Polygon squareVerts)).getD i default =
        (edgeNormal (squareVerts.getD i default) (squareVerts.getD (i + 1) default)).normalized) ∧
    get_axes (.Circle (1 : ℝ)) = []) :=
  ⟨by simp [squareVerts], c7_get_axes_adjacent_normals squareVerts (by simp [squareVerts]) 1⟩

/-!  Basic facts about the vector operations.  -/

theorem Vec2.magnitude_squared_nonneg (v : Vec2) : 0 ≤ v.magnitude_squared :=
  add_nonneg (mul_self_nonneg _) (mul_self_nonneg _)

theorem Vec2.magnitude_nonneg (v : Vec2) : 0 ≤ v.magnitude :=
  Real.sqrt_nonneg _

theorem Vec2.magnitude_mul_self (v : Vec2) :
    v.magnitude * v.magnitude = v.magnitude_squared :=
  Real.mul_self_sqrt (Vec2.magnitude_squared_nonneg v)

/-- The normalized vector dotted with the original yields the magnitude;
the real-division convention makes this hold for the zero vector too. -/
theorem Vec2.normalized_dot (v : Vec2) : v.normalized.dot v = v.magnitude := by
  unfold Vec2.normalized Vec2.dot Vec2.magnitude
  rw [div_mul_eq_mul_div, div_mul_eq_mul_div, div_add_div_same]
  unfold Vec2.magnitude_squared
  rw [show v.x * v.x + v.y * v.y = v.x * v.x + v.y * v.y from rfl]
  exact Real.div_sqrt

theorem Vec2.magnitude_eq_zero_iff (v : Vec2) :
    v.magnitude = 0 ↔ v.magnitude_squared = 0 := by
  unfold Vec2.magnitude
  constructor
  · intro h
    have := Vec2.magnitude_squared_nonneg v
    nlinarith [Real.sq_sqrt this, h]
  · intro h
    rw [h, Real.sqrt_zero]

theorem Vec2.magnitude_squared_eq_zero_iff (v : Vec2) :
    v.magnitude_squared = 0 ↔ v.x = 0 ∧ v.y = 0 := by
  unfold Vec2.magnitude_squared
  constructor
  · intro h
    constructor <;> nlinarith
  · rintro ⟨hx, hy⟩
    rw [hx, hy]
    ring

/-- The magnitude of a normalized vector is one, except for the zero
vector where the real embedding yields zero. -/
theorem Vec2.magnitude_normalized (v : Vec2) :
    v.normalized.magnitude = if v.magnitude = 0 then 0 else 1 := by
  by_cases h : v.magnitude = 0
  · rw [if_pos h]
    obtain ⟨hx, hy⟩ :=
      (Vec2.magnitude_squared_eq_zero_iff v).1 ((Vec2.magnitude_eq_zero_iff v).1 h)
    unfold Vec2.normalized Vec2.magnitude Vec2.magnitude_squared
    rw [hx, hy]
    norm_num
  · rw [if_neg h]
    have hmsq : v.normalized.magnitude_squared = 1 := by
      unfold Vec2.normalized Vec2.magnitude_squared
      have hne : v.magnitude ≠ 0 := h
      field_simp
      rw [Vec2.magnitude_mul_self]
      rfl
    unfold Vec2.magnitude
    rw [hmsq, Real.sqrt_one]

theorem Vec2.dot_sub (a u v : Vec2) : a.dot (u - v) = a.dot u - a.dot v := by
  unfold Vec2.dot
  simp only [Vec2.sub_x, Vec2.sub_y]
  ring

/-- The projection of a circle onto any axis, in closed form: the axis
dotted with the world center, widened by the radius times the axis
magnitude. -/
theorem project_shape_circle (r : ℝ) (t : Transform) (axis : Vec2) :
    project_shape (.Circle r) t axis =
      ⟨axis.dot ⟨t.x, t.y⟩ - r * axis.magnitude,
       axis.dot ⟨t.x, t.y⟩ + r * axis.magnitude⟩ := by
  have key : axis.dot axis.normalized = axis.magnitude := by
    have := Vec2.normalized_dot axis
    unfold Vec2.dot at this ⊢
    linarith [this]
  unfold project_shape
  simp only [Projection.mk.injEq]
  constructor
  · show axis.dot ((-axis.normalized).smul r + ⟨t.x, t.y⟩) = _
    have expand : axis.dot ((-axis.normalized).smul r + ⟨t.x, t.y⟩) =
        axis.dot ⟨t.x, t.y⟩ - r * axis.dot axis.normalized := by
      unfold Vec2.dot Vec2.smul
      simp only [Vec2.add_x, Vec2.add_y, Vec2.neg_x, Vec2.neg_y]
      ring
    rw [expand, key]
  · show axis.dot (axis.normalized.smul r + ⟨t.x, t.y⟩) = _
    have expand : axis.dot (axis.normalized.smul r + ⟨t.x, t.y⟩) =
        axis.dot ⟨t.x, t.y⟩ + r * axis.dot axis.normalized := by
      unfold Vec2.dot Vec2.smul
      simp only [Vec2.add_x, Vec2.add_y]
      ring
    rw [expand, key]

/-- Evaluation of the axis loop on a single overlapping axis. -/
theorem satFold_single (c1 : CollisionShape) (t1 : Transform) (c2 : CollisionShape)
    (t2 : Transform) (a : Vec2)
    (hov : (project_shape c1 t1 a).overlaps (project_shape c2 t2 a)) :
    satFold c1 t1 c2 t2 [a] none =
      some (some ((project_shape c1 t1 a).get_overlap (project_shape c2 t2 a), a)) := by
  simp only [satFold]
  rw [if_pos hov]

/-- Evaluation of satFinish on a single overlapping axis. -/
theorem satFinish_single (c1 : CollisionShape) (t1 : Transform) (c2 : CollisionShape)
    (t2 : Transform) (a : Vec2)
    (hov : (project_shape c1 t1 a).overlaps (project_shape c2 t2 a)) :
    satFinish c1 t1 c2 t2 [a] =
      some (true, some (satSignFix t1 t2
        (a.smul ((project_shape c1 t1 a).get_overlap (project_shape c2 t2 a))))) := by
  simp only [satFinish, satFold_single c1 t1 c2 t2 a hov]

/-- C2 (amended): for two circles whose radii sum is nonnegative, the
test reports a collision exactly when the squared center distance is at
most the squared radii sum, including coincident centers. -/
theorem c2_circle_fastpath_iff (r1 r2 : ℝ) (t1 t2 : Transform) (h : 0 ≤ r1 + r2) :
    ∃ p, seperating_axis_test t1 (.Circle r1) t2 (.Circle r2) = some p ∧
      (p.1 = true ↔
        (t1.x - t2.x) ^ 2 + (t1.y - t2.y) ^ 2 ≤ (r1 + r2) ^ 2) := by
  by_cases hg : |t1.x - t2.x| * |t1.x - t2.x| + |t1.y - t2.y| * |t1.y - t2.y| ≤
      (r1 + r2) * (r1 + r2)
  · -- the guard passes: the single center axis is processed and overlaps
    set d : Vec2 := ⟨t1.x - t2.x, t1.y - t2.y⟩ with hdd
    set a : Vec2 := d.normalized with hadef
    have hdist : d.magnitude_squared ≤ (r1 + r2) ^ 2 := by
      have e1 : |t1.x - t2.x| * |t1.x - t2.x| = (t1.x - t2.x) * (t1.x - t2.x) :=
        abs_mul_abs_self _
      have e2 : |t1.y - t2.y| * |t1.y - t2.y| = (t1.y - t2.y) * (t1.y - t2.y) :=
        abs_mul_abs_self _
      have : d.magnitude_squared =
          (t1.x - t2.x) * (t1.x - t2.x) + (t1.y - t2.y) * (t1.y - t2.y) := rfl
      rw [this]
      nlinarith [hg, e1, e2]
    have hs : d.magnitude ≤ r1 + r2 := by
      have h1 : d.magnitude ≤ Real.sqrt ((r1 + r2) ^ 2) := Real.sqrt_le_sqrt hdist
      rwa [Real.sqrt_sq h] at h1
    have hsnn : 0 ≤ d.magnitude := Vec2.magnitude_nonneg d
    have hq : a.dot ⟨t1.x, t1.y⟩ - a.dot ⟨t2.x, t2.y⟩ = d.magnitude := by
      rw [← Vec2.dot_sub]
      have h2 : (⟨t1.x, t1.y⟩ : Vec2) - ⟨t2.x, t2.y⟩ = d := rfl
      rw [h2, hadef]
      exact Vec2.normalized_dot d
    have hM := Vec2.magnitude_normalized d
    have hov : (project_shape (.Circle r1) t1 a).overlaps
        (project_shape (.Circle r2) t2 a) := by
      rw [project_shape_circle, project_shape_circle]
      unfold Projection.overlaps
      simp only
      rw [hadef] at *
      rw [hM]
      by_cases hz : d.magnitude = 0
      · rw [if_pos hz]
        have hq0 : d.normalized.dot ⟨t1.x, t1.y⟩ = d.normalized.dot ⟨t2.x, t2.y⟩ := by
          rw [hz] at hq
          linarith
        left
        constructor <;> simp [hq0]
      · rw [if_neg hz]
        by_cases hcase : r1 - r2 ≤ d.magnitude
        · left
          constructor
          · simp only [ge_iff_le]
            nlinarith [hq, hcase]
          · nlinarith [hq, hs]
        · right; right
          push_neg at hcase
          constructor
          · simp only [ge_iff_le]
            nlinarith [hq, hsnn, hcase]
          · nlinarith [hq, hsnn, hcase]
    have hrhs : (t1.x - t2.x) ^ 2 + (t1.y - t2.y) ^ 2 ≤ (r1 + r2) ^ 2 := by
      have e3 : d.magnitude_squared = (t1.x - t2.x) ^ 2 + (t1.y - t2.y) ^ 2 := by
        have : d.magnitude_squared =
            (t1.x - t2.x) * (t1.x - t2.x) + (t1.y - t2.y) * (t1.y - t2.y) := rfl
        rw [this]
        ring
      linarith [hdist, e3.symm.le, e3.le]
    refine ⟨(true, some (satSignFix t1 t2
        (a.smul ((project_shape (.Circle r1) t1 a).get_overlap
          (project_shape (.Circle r2) t2 a))))), ?_, iff_of_true rfl hrhs⟩
    show seperating_axis_test t1 (.Circle r1) t2 (.Circle r2) = _
    simp only [seperating_axis_test]
    rw [if_pos hg]
    exact satFinish_single _ _ _ _ a hov
  · -- the guard fails: early exit, and the distance really exceeds the sum
    refine ⟨(false, none), ?_, ?_⟩
    · simp only [seperating_axis_test]
      rw [if_neg hg]
    · simp only [Bool.false_eq_true, false_iff, not_le]
      push_neg at hg
      have e1 : |t1.x - t2.x| * |t1.x - t2.x| = (t1.x - t2.x) * (t1.x - t2.x) :=
        abs_mul_abs_self _
      have e2 : |t1.y - t2.y| * |t1.y - t2.y| = (t1.y - t2.y) * (t1.y - t2.y) :=
        abs_mul_abs_self _
      nlinarith [hg, e1, e2]

/-- C2 counterexample: for radius -1 circles at distance 1 the squared
distance is within the squared radii sum (1 le 4), yet the test reports no
collision — the claim quantifies over every circle shape, but a negative
radius inverts the projection intervals and the single-axis overlap test
fails. -/
theorem c2_counterexample :
    seperating_axis_test ⟨0, 0⟩ (.Circle (-1)) ⟨1, 0⟩ (.Circle (-1)) =
      some (false, none) ∧
    ((0 : ℝ) - 1) ^ 2 + ((0 : ℝ) - 0) ^ 2 ≤ ((-1 : ℝ) + -1) ^ 2 := by
  have hmag : (⟨-1, 0⟩ : Vec2).magnitude = 1 := by
    unfold Vec2.magnitude Vec2.magnitude_squared
    rw [show ((-1 : ℝ)) * (-1) + 0 * 0 = 1 by norm_num, Real.sqrt_one]
  have hnorm : (⟨(0 : ℝ) - 1, (0 : ℝ) - 0⟩ : Vec2).normalized = ⟨-1, 0⟩ := by
    have he : (⟨(0 : ℝ) - 1, (0 : ℝ) - 0⟩ : Vec2) = ⟨-1, 0⟩ := by
      simp only [Vec2.mk.injEq]
      norm_num
    rw [he]
    unfold Vec2.normalized
    rw [hmag]
    simp only [Vec2.mk.injEq]
    norm_num
  have hproj1 : project_shape (.Circle (-1)) ⟨0, 0⟩ (⟨-1, 0⟩ : Vec2) =
      ⟨1, -1⟩ := by
    rw [project_shape_circle, hmag]
    unfold Vec2.dot
    simp only [Projection.mk.injEq]
    norm_num
  have hproj2 : project_shape (.Circle (-1)) ⟨1, 0⟩ (⟨-1, 0⟩ : Vec2) =
      ⟨0, -2⟩ := by
    rw [project_shape_circle, hmag]
    unfold Vec2.dot
    simp only [Projection.mk.injEq]
    norm_num
  have hnoov : ¬ (Projection.mk 1 (-1)).overlaps ⟨0, -2⟩ := by
    unfold Projection.overlaps
    norm_num
  have hfold : satFold (.Circle (-1)) ⟨0, 0⟩ (.Circle (-1)) ⟨1, 0⟩
      [(⟨-1, 0⟩ : Vec2)] none = none := by
    simp only [satFold]
    rw [hproj1, hproj2]
    rw [if_neg hnoov]
  constructor
  · simp only [seperating_axis_test]
    rw [if_pos (by norm_num :
      |(0 : ℝ) - 1| * |(0 : ℝ) - 1| + |(0 : ℝ) - 0| * |(0 : ℝ) - 0| ≤
        ((-1 : ℝ) + -1) * ((-1 : ℝ) + -1))]
    rw [hnorm]
    simp only [satFinish]
    rw [hfold]
  · norm_num

/-- Witness for the amended C2 at unit circles one apart. -/
theorem c2_witness :
    (0 : ℝ) ≤ 1 + 1 ∧
    ∃ p, seperating_axis_test ⟨0, 0⟩ (.Circle 1) ⟨1, 0⟩ (.Circle 1) = some p ∧
      (p.1 = true ↔
        ((0 : ℝ) - 1) ^ 2 + ((0 : ℝ) - 0) ^ 2 ≤ ((1 : ℝ) + 1) ^ 2) :=
  ⟨by norm_num, c2_circle_fastpath_iff 1 1 ⟨0, 0⟩ ⟨1, 0⟩ (by norm_num)⟩

/-!  Facts about the axis loop, projections and overlaps, used by the
mtv and symmetry claims.  -/

/-- The projection overlap that the test computes on one axis. -/
def overlapOn (c1 : CollisionShape) (t1 : Transform) (c2 : CollisionShape)
    (t2 : Transform) (a : Vec2) : ℝ :=
  (project_shape c1 t1 a).get_overlap (project_shape c2 t2 a)

/-- Whether the two projections on one axis overlap. -/
def overlapsOn (c1 : CollisionShape) (t1 : Transform) (c2 : CollisionShape)
    (t2 : Transform) (a : Vec2) : Prop :=
  (project_shape c1 t1 a).overlaps (project_shape c2 t2 a)

/-- When the axis loop produces a final lowest/axis pair, that pair is
attained on one of the axes (or was the incoming accumulator) and is a
lower bound of every processed overlap and of the accumulator. -/
theorem satFold_some_spec (c1 : CollisionShape) (t1 : Transform)
    (c2 : CollisionShape) (t2 : Transform) :
    ∀ (axes : List Vec2) (acc : Option (ℝ × Vec2)) (res : ℝ × Vec2),
      satFold c1 t1 c2 t2 axes acc = some (some res) →
      ((res.2 ∈ axes ∧ overlapOn c1 t1 c2 t2 res.2 = res.1) ∨ acc = some res) ∧
      (∀ b ∈ axes, res.1 ≤ overlapOn c1 t1 c2 t2 b) ∧
      (∀ q : ℝ × Vec2, acc = some q → res.1 ≤ q.1) := by
  intro axes
  induction axes with
  | nil =>
      intro acc res hrun
      simp only [satFold, Option.some.injEq] at hrun
      subst hrun
      refine ⟨Or.inr rfl, by simp, ?_⟩
      intro q hq
      rw [Option.some.injEq] at hq
      rw [hq]
  | cons a rest ih =>
      intro acc res hrun
      cases acc with
      | none =>
          simp only [satFold] at hrun
          by_cases hov : (project_shape c1 t1 a).overlaps (project_shape c2 t2 a)
          · rw [if_pos hov] at hrun
            obtain ⟨hfirst, hall, hacc⟩ := ih (some (overlapOn c1 t1 c2 t2 a, a)) res hrun
            have hlea : res.1 ≤ overlapOn c1 t1 c2 t2 a :=
              hacc (overlapOn c1 t1 c2 t2 a, a) rfl
            refine ⟨?_, ?_, ?_⟩
            · rcases hfirst with ⟨hmem, hval⟩ | heq
              · exact Or.inl ⟨List.mem_cons_of_mem _ hmem, hval⟩
              · rw [Option.some.injEq] at heq
                exact Or.inl ⟨by rw [← heq]; exact List.mem_cons_self _ _,
                  by rw [← heq]⟩
            · intro b hb
              rcases List.mem_cons.1 hb with rfl | hb
              · exact hlea
              · exact hall b hb
            · intro q hq
              cases hq
          · rw [if_neg hov] at hrun
            cases hrun
      | some la =>
          obtain ⟨l0, a0⟩ := la
          simp only [satFold] at hrun
          by_cases hov : (project_shape c1 t1 a).overlaps (project_shape c2 t2 a)
          · rw [if_pos hov] at hrun
            by_cases hle : (project_shape c1 t1 a).get_overlap (project_shape c2 t2 a) ≤ l0
            · rw [if_pos hle] at hrun
              obtain ⟨hfirst, hall, hacc⟩ := ih (some (overlapOn c1 t1 c2 t2 a, a)) res hrun
              have hlea : res.1 ≤ overlapOn c1 t1 c2 t2 a :=
                hacc (overlapOn c1 t1 c2 t2 a, a) rfl
              refine ⟨?_, ?_, ?_⟩
              · rcases hfirst with ⟨hmem, hval⟩ | heq
                · exact Or.inl ⟨List.mem_cons_of_mem _ hmem, hval⟩
                · rw [Option.some.injEq] at heq
                  exact Or.inl ⟨by rw [← heq]; exact List.mem_cons_self _ _,
                    by rw [← heq]⟩
              · intro b hb
                rcases List.mem_cons.1 hb with rfl | hb
                · exact hlea
                · exact hall b hb
              · intro q hq
                rw [Option.some.injEq] at hq
                rw [← hq]
                exact le_trans hlea hle
            · rw [if_neg hle] at hrun
              push_neg at hle
              obtain ⟨hfirst, hall, hacc⟩ := ih (some (l0, a0)) res hrun
              have hlel0 : res.1 ≤ l0 := hacc (l0, a0) rfl
              refine ⟨?_, ?_, ?_⟩
              · rcases hfirst with ⟨hmem, hval⟩ | heq
                · exact Or.inl ⟨List.mem_cons_of_mem _ hmem, hval⟩
                · exact Or.inr heq
              · intro b hb
                rcases List.mem_cons.1 hb with rfl | hb
                · exact le_trans hlel0 hle.le
                · exact hall b hb
              · intro q hq
                rw [Option.some.injEq] at hq
                rw [← hq]
                exact hlel0
          · rw [if_neg hov] at hrun
            cases hrun

/-- The loop reaches the end with every axis overlapping when it returns
a final state (no early exit happened). -/
theorem satFold_some_overlaps (c1 : CollisionShape) (t1 : Transform)
    (c2 : CollisionShape) (t2 : Transform) :
    ∀ (axes : List Vec2) (acc : Option (ℝ × Vec2)) (o : Option (ℝ × Vec2)),
      satFold c1 t1 c2 t2 axes acc = some o →
      ∀ b ∈ axes, overlapsOn c1 t1 c2 t2 b := by
  intro axes
  induction axes with
  | nil => intro acc o _ b hb; cases hb
  | cons a rest ih =>
      intro acc o hrun b hb
      cases acc with
      | none =>
          simp only [satFold] at hrun
          by_cases hov : (project_shape c1 t1 a).overlaps (project_shape c2 t2 a)
          · rw [if_pos hov] at hrun
            rcases List.mem_cons.1 hb with rfl | hb
            · exact hov
            · exact ih _ _ hrun b hb
          · rw [if_neg hov] at hrun
            cases hrun
      | some la =>
          obtain ⟨l0, a0⟩ := la
          simp only [satFold] at hrun
          by_cases hov : (project_shape c1 t1 a).overlaps (project_shape c2 t2 a)
          · rw [if_pos hov] at hrun
            rcases List.mem_cons.1 hb with rfl | hb
            · exact hov
            · by_cases hle : (project_shape c1 t1 a).get_overlap
                  (project_shape c2 t2 a) ≤ l0
              · rw [if_pos hle] at hrun
                exact ih _ _ hrun b hb
              · rw [if_neg hle] at hrun
                exact ih _ _ hrun b hb
          · rw [if_neg hov] at hrun
            cases hrun

/-- The polygon projection scan keeps min at most max. -/
theorem projFold_proper (axis pos : Vec2) :
    ∀ (l : List Vec2) (p : Projection), p.min ≤ p.max →
      (projFold axis pos l p).min ≤ (projFold axis pos l p).max := by
  intro l
  induction l with
  | nil => intro p hp; exact hp
  | cons v rest ih =>
      intro p hp
      simp only [projFold]
      by_cases h1 : axis.dot (v + pos) < p.min
      · rw [if_pos h1]
        exact ih _ (le_trans h1.le hp)
      · rw [if_neg h1]
        by_cases h2 : axis.dot (v + pos) > p.max
        · rw [if_pos h2]
          exact ih _ (le_trans hp h2.le)
        · rw [if_neg h2]
          exact ih _ hp

/-- Non-degeneracy used by the SAT claims: circles carry a nonnegative
radius (polygons are unconstrained here). -/
def shapeOK : CollisionShape → Prop
  | .Circle r => 0 ≤ r
  | .Polygon _ => True

/-- Projections of well-formed shapes are proper intervals. -/
theorem project_shape_proper (shape : CollisionShape) (t : Transform) (axis : Vec2)
    (hOK : shapeOK shape) :
    (project_shape shape t axis).min ≤ (project_shape shape t axis).max := by
  cases shape with
  | Polygon vs =>
      simp only [project_shape]
      exact projFold_proper _ _ _ _ le_rfl
  | Circle r =>
      rw [project_shape_circle]
      simp only
      have : 0 ≤ r * axis.magnitude :=
        mul_nonneg hOK (Vec2.magnitude_nonneg axis)
      linarith

/-- get_overlap is nonnegative whenever the first projection is proper. -/
theorem get_overlap_nonneg (p1 p2 : Projection) (h1 : p1.min ≤ p1.max) :
    0 ≤ p1.get_overlap p2 := by
  unfold Projection.get_overlap
  by_cases c1 : p1.min ≥ p2.min ∧ p1.max ≤ p2.max
  · rw [if_pos c1]; linarith
  · rw [if_neg c1]
    by_cases c2 : p1.max ≥ p2.min ∧ p1.max ≤ p2.max
    · rw [if_pos c2]; linarith [c2.1]
    · rw [if_neg c2]
      by_cases c3 : p1.min ≥ p2.min ∧ p1.min ≤ p2.max
      · rw [if_pos c3]; linarith [c3.2]
      · rw [if_neg c3]

/-- Every polygon axis is a normalized vector. -/
theorem get_axes_mem_normalized (s : CollisionShape) (a : Vec2)
    (ha : a ∈ get_axes s) : ∃ w : Vec2, a = w.normalized := by
  cases s with
  | Circle r => cases ha
  | Polygon vs =>
      simp only [get_axes, List.mem_map] at ha
      obtain ⟨i, _, h⟩ := ha
      exact ⟨edgeNormal (vs.getD i default) (vs.getD (i + 1) default), h.symm⟩

theorem Vec2.magnitude_neg (v : Vec2) : (-v).magnitude = v.magnitude := by
  unfold Vec2.magnitude Vec2.magnitude_squared
  simp only [Vec2.neg_x, Vec2.neg_y]
  ring_nf

theorem Vec2.magnitude_smul (v : Vec2) (l : ℝ) :
    (v.smul l).magnitude = |l| * v.magnitude := by
  unfold Vec2.magnitude Vec2.magnitude_squared Vec2.smul
  simp only
  rw [show v.x * l * (v.x * l) + v.y * l * (v.y * l) =
      l ^ 2 * (v.x * v.x + v.y * v.y) by ring]
  rw [Real.sqrt_mul (sq_nonneg l), Real.sqrt_sq_eq_abs]

/-- The zero vector normalizes to itself under the real convention. -/
theorem Vec2.normalized_zero : (⟨0, 0⟩ : Vec2).normalized = ⟨0, 0⟩ := by
  unfold Vec2.normalized
  simp only [Vec2.mk.injEq, zero_div, and_self]

/-- A normalized vector is the zero vector or has magnitude one. -/
theorem Vec2.normalized_cases (w : Vec2) :
    w.normalized = ⟨0, 0⟩ ∨ w.normalized.magnitude = 1 := by
  have hM := Vec2.magnitude_normalized w
  by_cases h : w.magnitude = 0
  · left
    obtain ⟨hx, hy⟩ :=
      (Vec2.magnitude_squared_eq_zero_iff w).1 ((Vec2.magnitude_eq_zero_iff w).1 h)
    have : w = ⟨0, 0⟩ := by
      cases w
      simp only [Vec2.mk.injEq]
      exact ⟨hx, hy⟩
    rw [this]
    exact Vec2.normalized_zero
  · right
    rw [if_neg h] at hM
    exact hM

/-- Projecting any shape onto the zero axis yields the zero interval. -/
theorem project_shape_zero_axis (shape : CollisionShape) (t : Transform) :
    project_shape shape t ⟨0, 0⟩ = ⟨0, 0⟩ := by
  cases shape with
  | Circle r =>
      rw [project_shape_circle]
      have hd : (⟨0, 0⟩ : Vec2).dot ⟨t.x, t.y⟩ = 0 := by
        unfold Vec2.dot
        simp
      have hm : (⟨0, 0⟩ : Vec2).magnitude = 0 := by
        unfold Vec2.magnitude Vec2.magnitude_squared
        simp
      rw [hd, hm]
      simp only [Projection.mk.injEq]
      norm_num
  | Polygon vs =>
      simp only [project_shape]
      have hd : ∀ v : Vec2, (⟨0, 0⟩ : Vec2).dot v = 0 := by
        intro v
        unfold Vec2.dot
        simp
      rw [hd]
      have : ∀ (l : List Vec2), projFold ⟨0, 0⟩ ⟨t.x, t.y⟩ l ⟨0, 0⟩ = ⟨0, 0⟩ := by
        intro l
        induction l with
        | nil => rfl
        | cons v rest ih =>
            simp only [projFold, hd]
            rw [if_neg (by norm_num), if_neg (by norm_num)]
            exact ih
      exact this vs

theorem Vec2.dot_neg (a b : Vec2) : a.dot (-b) = -(a.dot b) := by
  unfold Vec2.dot
  simp only [Vec2.neg_x, Vec2.neg_y]
  ring

/-- After the sign correction, the mtv never points along the
center-to-center vector from shape1 to shape2. -/
theorem satSignFix_dot_nonpos (t1 t2 : Transform) (m : Vec2) :
    (⟨t2.x - t1.x, t2.y - t1.y⟩ : Vec2).dot (satSignFix t1 t2 m) ≤ 0 := by
  unfold satSignFix
  by_cases h : (⟨t2.x - t1.x, t2.y - t1.y⟩ : Vec2).dot m > 0
  · rw [if_pos h, Vec2.dot_neg]
    linarith
  · rw [if_neg h]
    linarith [not_lt.1 h]

/-- Sign correction preserves the magnitude. -/
theorem satSignFix_magnitude (t1 t2 : Transform) (m : Vec2) :
    (satSignFix t1 t2 m).magnitude = m.magnitude := by
  unfold satSignFix
  by_cases h : (⟨t2.x - t1.x, t2.y - t1.y⟩ : Vec2).dot m > 0
  · rw [if_pos h, Vec2.magnitude_neg]
  · rw [if_neg h]

/-- A collided result of satFinish always carries an mtv, obtained from
the loop's final lowest/axis pair by scaling and sign correction. -/
theorem satFinish_true_elim (c1 : CollisionShape) (t1 : Transform)
    (c2 : CollisionShape) (t2 : Transform) (axes : List Vec2) (p : Option Vec2)
    (h : satFinish c1 t1 c2 t2 axes = some (true, p)) :
    ∃ l a, satFold c1 t1 c2 t2 axes none = some (some (l, a)) ∧
      p = some (satSignFix t1 t2 (a.smul l)) := by
  unfold satFinish at h
  cases hfold : satFold c1 t1 c2 t2 axes none with
  | none =>
      rw [hfold] at h
      simp at h
  | some o =>
      cases o with
      | none =>
          rw [hfold] at h
          simp at h
      | some la =>
          obtain ⟨l, a⟩ := la
          rw [hfold] at h
          simp only [Option.some.injEq, Prod.mk.injEq, true_and] at h
          exact ⟨l, a, rfl, h.symm⟩

/-- A collided seperating_axis_test outcome comes from satFinish on the
axes described by satAxes, every one of which is a normalized vector. -/
theorem sat_true_finish (t1 : Transform) (c1 : CollisionShape) (t2 : Transform)
    (c2 : CollisionShape) (p : Option Vec2)
    (hsat : seperating_axis_test t1 c1 t2 c2 = some (true, p)) :
    ∃ axes, satAxes t1 c1 t2 c2 = some axes ∧
      satFinish c1 t1 c2 t2 axes = some (true, p) ∧
      ∀ a ∈ axes, ∃ w : Vec2, a = w.normalized := by
  cases c1 with
  | Circle r1 =>
      cases c2 with
      | Circle r2 =>
          simp only [seperating_axis_test] at hsat
          simp only [satAxes]
          by_cases hg : |t1.x - t2.x| * |t1.x - t2.x| +
              |t1.y - t2.y| * |t1.y - t2.y| ≤ (r1 + r2) * (r1 + r2)
          · rw [if_pos hg] at hsat
            rw [if_pos hg]
            refine ⟨_, rfl, hsat, ?_⟩
            intro a ha
            rcases List.mem_singleton.1 ha with rfl
            exact ⟨⟨t1.x - t2.x, t1.y - t2.y⟩, rfl⟩
          · rw [if_neg hg] at hsat
            simp at hsat
      | Polygon vs2 =>
          simp only [seperating_axis_test] at hsat
          simp only [satAxes]
          cases hcp : get_circle_polygon_axis (.Circle r1) t1 (.Polygon vs2) t2 with
          | none => rw [hcp] at hsat; cases hsat
          | some ax =>
              rw [hcp] at hsat
              refine ⟨_, rfl, hsat, ?_⟩
              intro a ha
              rcases List.mem_cons.1 ha with rfl | ha
              · exact ⟨ax, rfl⟩
              · exact get_axes_mem_normalized _ _ ha
  | Polygon vs1 =>
      cases c2 with
      | Circle r2 =>
          simp only [seperating_axis_test] at hsat
          simp only [satAxes]
          cases hcp : get_circle_polygon_axis (.Circle r2) t2 (.Polygon vs1) t1 with
          | none => rw [hcp] at hsat; cases hsat
          | some ax =>
              rw [hcp] at hsat
              refine ⟨_, rfl, hsat, ?_⟩
              intro a ha
              rcases List.mem_cons.1 ha with rfl | ha
              · exact ⟨ax, rfl⟩
              · exact get_axes_mem_normalized _ _ ha
      | Polygon vs2 =>
          simp only [seperating_axis_test] at hsat
          simp only [satAxes]
          refine ⟨_, rfl, hsat, ?_⟩
          intro a ha
          rcases List.mem_append.1 ha with ha | ha
          · exact get_axes_mem_normalized _ _ ha
          · exact get_axes_mem_normalized _ _ ha

/-- The overlap of the degenerate zero interval with itself is zero. -/
theorem get_overlap_zero_zero : (Projection.mk 0 0).get_overlap ⟨0, 0⟩ = 0 := by
  unfold Projection.get_overlap
  norm_num

/-- C5 (amended): whenever seperating_axis_test returns collided and the
circles among the shapes have nonnegative radius, the mtv option is
present; the mtv magnitude equals the smallest projection overlap computed
over the candidate axes (attained on one of them, with ties resolved
toward the later axis inside the loop); and its dot product with the
center-to-center vector from shape1's transform to shape2's is
nonpositive. -/
theorem c5_mtv_smallest_overlap (t1 t2 : Transform) (c1 c2 : CollisionShape)
    (h1 : shapeOK c1) (h2 : shapeOK c2) :
    (∀ p, seperating_axis_test t1 c1 t2 c2 = some p → p.1 = true →
      ∃ mv, p.2 = some mv) ∧
    (∀ m, seperating_axis_test t1 c1 t2 c2 = some (true, some m) →
      ∃ axes, satAxes t1 c1 t2 c2 = some axes ∧
        ∃ l, m.magnitude = l ∧ 0 ≤ l ∧
          (∃ a ∈ axes, overlapOn c1 t1 c2 t2 a = l) ∧
          (∀ b ∈ axes, l ≤ overlapOn c1 t1 c2 t2 b) ∧
          (⟨t2.x - t1.x, t2.y - t1.y⟩ : Vec2).dot m ≤ 0) := by
  constructor
  · rintro ⟨b, mv⟩ hsat hb
    simp only at hb
    subst hb
    obtain ⟨axes, -, hfin, -⟩ := sat_true_finish t1 c1 t2 c2 mv hsat
    obtain ⟨l, a, -, hmv⟩ := satFinish_true_elim c1 t1 c2 t2 axes mv hfin
    exact ⟨_, hmv⟩
  · intro m hsat
    obtain ⟨axes, haxes, hfin, hforms⟩ := sat_true_finish t1 c1 t2 c2 (some m) hsat
    obtain ⟨l, a, hfold, hmv⟩ := satFinish_true_elim c1 t1 c2 t2 axes (some m) hfin
    rw [Option.some.injEq] at hmv
    obtain ⟨hfirst, hall, -⟩ := satFold_some_spec c1 t1 c2 t2 axes none (l, a) hfold
    rcases hfirst with ⟨hmem, hval⟩ | hbad
    swap
    · cases hbad
    simp only at hmem hval hall
    refine ⟨axes, haxes, l, ?_, ?_, ⟨a, hmem, hval⟩, hall, ?_⟩
    · -- magnitude equals the lowest overlap
      have hl0 : 0 ≤ l := by
        rw [← hval]
        exact get_overlap_nonneg _ _ (project_shape_proper c1 t1 a h1)
      obtain ⟨w, hw⟩ := hforms a hmem
      rw [hmv, satSignFix_magnitude, Vec2.magnitude_smul, abs_of_nonneg hl0]
      rcases Vec2.normalized_cases w with hz | hone
      · -- the chosen axis is the zero vector: the overlap there is zero
        have haz : a = ⟨0, 0⟩ := by rw [hw, hz]
        have : l = 0 := by
          rw [← hval]
          unfold overlapOn
          rw [haz, project_shape_zero_axis, project_shape_zero_axis]
          exact get_overlap_zero_zero
        rw [this]
        ring
      · rw [hw, hone]
        ring
    · rw [← hval]
      exact get_overlap_nonneg _ _ (project_shape_proper c1 t1 a h1)
    · rw [hmv]
      exact satSignFix_dot_nonpos t1 t2 _

/-!  Concrete evaluations of the test on circles, shared by witnesses
and counterexamples.  -/

theorem vec_pm1_mag (s : ℝ) (hs : s * s = 1) :
    (⟨s, 0⟩ : Vec2).magnitude = 1 := by
  unfold Vec2.magnitude Vec2.magnitude_squared
  simp only
  rw [show s * s + 0 * 0 = 1 by rw [hs]; ring, Real.sqrt_one]

theorem vec2_two_mag : (⟨2, 0⟩ : Vec2).magnitude = 2 := by
  unfold Vec2.magnitude Vec2.magnitude_squared
  simp only
  rw [show (2 : ℝ) * 2 + 0 * 0 = 2 ^ 2 by ring, Real.sqrt_sq (by norm_num)]

theorem norm_unitx : (⟨(1 : ℝ) - 0, (0 : ℝ) - 0⟩ : Vec2).normalized = ⟨1, 0⟩ := by
  have he : (⟨(1 : ℝ) - 0, (0 : ℝ) - 0⟩ : Vec2) = ⟨1, 0⟩ := by
    simp only [Vec2.mk.injEq]
    norm_num
  rw [he]
  unfold Vec2.normalized
  rw [vec_pm1_mag 1 (by norm_num)]
  simp only [Vec2.mk.injEq]
  norm_num

theorem norm_negx : (⟨(0 : ℝ) - 1, (0 : ℝ) - 0⟩ : Vec2).normalized = ⟨-1, 0⟩ := by
  have he : (⟨(0 : ℝ) - 1, (0 : ℝ) - 0⟩ : Vec2) = ⟨-1, 0⟩ := by
    simp only [Vec2.mk.injEq]
    norm_num
  rw [he]
  unfold Vec2.normalized
  rw [vec_pm1_mag (-1) (by norm_num)]
  simp only [Vec2.mk.injEq]
  norm_num

/-- Unit circles at distance one collide with mtv (-1, 0). -/
theorem satCircles11 :
    seperating_axis_test ⟨0, 0⟩ (.Circle 1) ⟨1, 0⟩ (.Circle 1) =
      some (true, some ⟨-1, 0⟩) := by
  have hp1 : project_shape (.Circle 1) ⟨0, 0⟩ (⟨-1, 0⟩ : Vec2) = ⟨-1, 1⟩ := by
    rw [project_shape_circle, vec_pm1_mag (-1) (by norm_num)]
    unfold Vec2.dot
    simp only [Projection.mk.injEq]
    norm_num
  have hp2 : project_shape (.Circle 1) ⟨1, 0⟩ (⟨-1, 0⟩ : Vec2) = ⟨-2, 0⟩ := by
    rw [project_shape_circle, vec_pm1_mag (-1) (by norm_num)]
    unfold Vec2.dot
    simp only [Projection.mk.injEq]
    norm_num
  have hov : (Projection.mk (-1) 1).overlaps ⟨-2, 0⟩ := by
    unfold Projection.overlaps
    norm_num
  have hgo : (Projection.mk (-1) 1).get_overlap ⟨-2, 0⟩ = 1 := by
    unfold Projection.get_overlap
    norm_num
  simp only [seperating_axis_test]
  rw [if_pos (by norm_num :
    |(0 : ℝ) - 1| * |(0 : ℝ) - 1| + |(0 : ℝ) - 0| * |(0 : ℝ) - 0| ≤
      ((1 : ℝ) + 1) * ((1 : ℝ) + 1))]
  rw [norm_negx]
  simp only [satFinish, satFold]
  rw [hp1, hp2, if_pos hov, hgo]
  unfold satSignFix Vec2.smul Vec2.dot
  simp only
  rw [if_neg (by norm_num)]
  simp only [Option.some.injEq, Prod.mk.injEq, Vec2.mk.injEq, true_and]
  norm_num

/-- C5 counterexample: a radius -1 circle inside a radius 3 circle.  The
test collides with mtv (2, 0) of magnitude 2, yet the single candidate
axis has projection overlap -2: the mtv magnitude does not equal the
smallest overlap found, because a negative radius inverts the projection
interval and get_overlap goes negative. -/
theorem c5_counterexample :
    seperating_axis_test ⟨1, 0⟩ (.Circle (-1)) ⟨0, 0⟩ (.Circle 3) =
      some (true, some ⟨2, 0⟩) ∧
    satAxes ⟨1, 0⟩ (.Circle (-1)) ⟨0, 0⟩ (.Circle 3) = some [⟨1, 0⟩] ∧
    overlapOn (.Circle (-1)) ⟨1, 0⟩ (.Circle 3) ⟨0, 0⟩ ⟨1, 0⟩ = -2 ∧
    (⟨2, 0⟩ : Vec2).magnitude = 2 ∧ (2 : ℝ) ≠ -2 := by
  have hp1 : project_shape (.Circle (-1)) ⟨1, 0⟩ (⟨1, 0⟩ : Vec2) = ⟨2, 0⟩ := by
    rw [project_shape_circle, vec_pm1_mag 1 (by norm_num)]
    unfold Vec2.dot
    simp only [Projection.mk.injEq]
    norm_num
  have hp2 : project_shape (.Circle 3) ⟨0, 0⟩ (⟨1, 0⟩ : Vec2) = ⟨-3, 3⟩ := by
    rw [project_shape_circle, vec_pm1_mag 1 (by norm_num)]
    unfold Vec2.dot
    simp only [Projection.mk.injEq]
    norm_num
  have hov : (Projection.mk 2 0).overlaps ⟨-3, 3⟩ := by
    unfold Projection.overlaps
    norm_num
  have hgo : (Projection.mk 2 0).get_overlap ⟨-3, 3⟩ = -2 := by
    unfold Projection.get_overlap
    norm_num
  have hguard : |(1 : ℝ) - 0| * |(1 : ℝ) - 0| + |(0 : ℝ) - 0| * |(0 : ℝ) - 0| ≤
      ((-1 : ℝ) + 3) * ((-1 : ℝ) + 3) := by norm_num
  refine ⟨?_, ?_, ?_, vec2_two_mag, by norm_num⟩
  · simp only [seperating_axis_test]
    rw [if_pos hguard]
    rw [norm_unitx]
    simp only [satFinish, satFold]
    rw [hp1, hp2, if_pos hov, hgo]
    unfold satSignFix Vec2.smul Vec2.dot
    simp only
    rw [if_pos (by norm_num)]
    simp only [Option.some.injEq, Prod.mk.injEq, true_and]
    show (⟨-((1 : ℝ) * -2), -((0 : ℝ) * -2)⟩ : Vec2) = ⟨2, 0⟩
    simp only [Vec2.mk.injEq]
    norm_num
  · simp only [satAxes]
    rw [if_pos hguard, norm_unitx]
  · unfold overlapOn
    rw [hp1, hp2, hgo]

/-- Witness for the amended C5 at unit circles one apart. -/
theorem c5_witness :
    shapeOK (.Circle (1 : ℝ)) ∧
    seperating_axis_test ⟨0, 0⟩ (.Circle 1) ⟨1, 0⟩ (.Circle 1) =
      some (true, some ⟨-1, 0⟩) ∧
    (∃ axes, satAxes ⟨0, 0⟩ (.Circle 1) ⟨1, 0⟩ (.Circle 1) = some axes ∧
      ∃ l, (⟨-1, 0⟩ : Vec2).magnitude = l ∧ 0 ≤ l ∧
        (∃ a ∈ axes, overlapOn (.Circle 1) ⟨0, 0⟩ (.Circle 1) ⟨1, 0⟩ a = l) ∧
        (∀ b ∈ axes, l ≤ overlapOn (.Circle 1) ⟨0, 0⟩ (.Circle 1) ⟨1, 0⟩ b) ∧
        (⟨(⟨1, 0⟩ : Transform).x - (⟨0, 0⟩ : Transform).x,
          (⟨1, 0⟩ : Transform).y - (⟨0, 0⟩ : Transform).y⟩ : Vec2).dot ⟨-1, 0⟩ ≤ 0) :=
  ⟨by simp only [shapeOK]; norm_num, satCircles11,
    (c5_mtv_smallest_overlap ⟨0, 0⟩ ⟨1, 0⟩ (.Circle 1) (.Circle 1)
      (by simp only [shapeOK]; norm_num) (by simp only [shapeOK]; norm_num)).2
      ⟨-1, 0⟩ satCircles11⟩

/-!  Symmetry machinery for the SAT claims.  -/

/-- For proper intervals, the three-disjunct overlap test coincides with
the standard interval intersection condition. -/
theorem Projection.overlaps_iff (p q : Projection) (hp : p.min ≤ p.max)
    (hq : q.min ≤ q.max) :
    p.overlaps q ↔ (p.min ≤ q.max ∧ q.min ≤ p.max) := by
  unfold Projection.overlaps
  constructor
  · rintro (⟨h1, h2⟩ | ⟨h1, h2⟩ | ⟨h1, h2⟩) <;> constructor <;> linarith
  · rintro ⟨h1, h2⟩
    by_cases hc1 : p.min ≥ q.min
    · exact Or.inl ⟨hc1, h1⟩
    · push_neg at hc1
      by_cases hc2 : p.max ≤ q.max
      · exact Or.inr (Or.inl ⟨by linarith, hc2⟩)
      · push_neg at hc2
        exact Or.inr (Or.inr ⟨hc2.le, hc1.le⟩)

/-- The overlap test is symmetric on proper intervals. -/
theorem Projection.overlaps_comm (p q : Projection) (hp : p.min ≤ p.max)
    (hq : q.min ≤ q.max) : p.overlaps q ↔ q.overlaps p := by
  rw [Projection.overlaps_iff p q hp hq, Projection.overlaps_iff q p hq hp]
  tauto

/-- The overlap test is invariant under simultaneously negating and
swapping the endpoints of both intervals. -/
theorem Projection.overlaps_negSwap (p q : Projection) :
    (Projection.mk (-p.max) (-p.min)).overlaps ⟨-q.max, -q.min⟩ ↔ p.overlaps q := by
  unfold Projection.overlaps
  simp only
  constructor
  · rintro (⟨h1, h2⟩ | ⟨h1, h2⟩ | ⟨h1, h2⟩)
    · exact Or.inr (Or.inl ⟨by linarith, by linarith⟩)
    · exact Or.inl ⟨by linarith, by linarith⟩
    · exact Or.inr (Or.inr ⟨by linarith, by linarith⟩)
  · rintro (⟨h1, h2⟩ | ⟨h1, h2⟩ | ⟨h1, h2⟩)
    · exact Or.inr (Or.inl ⟨by linarith, by linarith⟩)
    · exact Or.inl ⟨by linarith, by linarith⟩
    · exact Or.inr (Or.inr ⟨by linarith, by linarith⟩)

theorem Vec2.neg_dot (a b : Vec2) : (-a).dot b = -(a.dot b) := by
  unfold Vec2.dot
  simp only [Vec2.neg_x, Vec2.neg_y]
  ring

/-- Negating the axis negates and swaps the polygon scan interval. -/
theorem projFold_neg_axis (a pos : Vec2) :
    ∀ (l : List Vec2) (p : Projection), p.min ≤ p.max →
      projFold (-a) pos l ⟨-p.max, -p.min⟩ =
        ⟨-(projFold a pos l p).max, -(projFold a pos l p).min⟩ := by
  intro l
  induction l with
  | nil => intro p hp; rfl
  | cons v rest ih =>
      intro p hp
      simp only [projFold, Vec2.neg_dot, Projection.min_mk, Projection.max_mk]
      by_cases h1 : a.dot (v + pos) < p.min
      · rw [if_neg (by linarith : ¬ (-(a.dot (v + pos)) < -p.max))]
        rw [if_pos (by linarith : -(a.dot (v + pos)) > -p.min)]
        rw [if_pos h1]
        exact ih ⟨a.dot (v + pos), p.max⟩ (by simpa using by linarith)
      · push_neg at h1
        by_cases h2 : a.dot (v + pos) > p.max
        · rw [if_pos (by linarith : -(a.dot (v + pos)) < -p.max)]
          rw [if_neg (by linarith : ¬ a.dot (v + pos) < p.min), if_pos h2]
          exact ih ⟨p.min, a.dot (v + pos)⟩ (by simpa using by linarith)
        · push_neg at h2
          rw [if_neg (by linarith : ¬ (-(a.dot (v + pos)) < -p.max))]
          rw [if_neg (by linarith : ¬ (-(a.dot (v + pos)) > -p.min))]
          rw [if_neg (by linarith : ¬ a.dot (v + pos) < p.min)]
          rw [if_neg (by linarith : ¬ a.dot (v + pos) > p.max)]
          exact ih p hp

/-- Negating the axis negates and swaps any shape projection. -/
theorem project_shape_neg_axis (shape : CollisionShape) (t : Transform) (a : Vec2) :
    project_shape shape t (-a) =
      ⟨-(project_shape shape t a).max, -(project_shape shape t a).min⟩ := by
  cases shape with
  | Circle r =>
      rw [project_shape_circle, project_shape_circle, Vec2.neg_dot,
        Vec2.magnitude_neg]
      simp only [Projection.mk.injEq]
      constructor <;> ring
  | Polygon vs =>
      simp only [project_shape, Vec2.neg_dot]
      have h0 : (Projection.mk (-(a.dot (vs.headI + ⟨t.x, t.y⟩)))
          (-(a.dot (vs.headI + ⟨t.x, t.y⟩)))) =
          ⟨-(Projection.mk (a.dot (vs.headI + ⟨t.x, t.y⟩))
              (a.dot (vs.headI + ⟨t.x, t.y⟩))).max,
           -(Projection.mk (a.dot (vs.headI + ⟨t.x, t.y⟩))
              (a.dot (vs.headI + ⟨t.x, t.y⟩))).min⟩ := rfl
      rw [h0]
      exact projFold_neg_axis a _ vs _ le_rfl

/-- When some axis in the list fails the overlap test, the loop exits with
the separated outcome regardless of the accumulator. -/
theorem satFold_none_of_fail (c1 : CollisionShape) (t1 : Transform)
    (c2 : CollisionShape) (t2 : Transform) :
    ∀ (axes : List Vec2) (acc : Option (ℝ × Vec2)) (b : Vec2), b ∈ axes →
      ¬ overlapsOn c1 t1 c2 t2 b → satFold c1 t1 c2 t2 axes acc = none := by
  intro axes
  induction axes with
  | nil => intro acc b hb; cases hb
  | cons a rest ih =>
      intro acc b hb hno
      unfold overlapsOn at hno
      rcases List.mem_cons.1 hb with rfl | hb
      · cases acc with
        | none =>
            simp only [satFold]
            rw [if_neg hno]
        | some la =>
            obtain ⟨l0, a0⟩ := la
            simp only [satFold]
            rw [if_neg hno]
      · cases acc with
        | none =>
            simp only [satFold]
            by_cases hov : (project_shape c1 t1 a).overlaps (project_shape c2 t2 a)
            · rw [if_pos hov]
              exact ih _ b hb hno
            · rw [if_neg hov]
        | some la =>
            obtain ⟨l0, a0⟩ := la
            simp only [satFold]
            by_cases hov : (project_shape c1 t1 a).overlaps (project_shape c2 t2 a)
            · rw [if_pos hov]
              by_cases hle : (project_shape c1 t1 a).get_overlap
                  (project_shape c2 t2 a) ≤ l0
              · rw [if_pos hle]
                exact ih _ b hb hno
              · rw [if_neg hle]
                exact ih _ b hb hno
            · rw [if_neg hov]

/-- When every axis overlaps, the loop started from a nonempty accumulator
completes with a final pair. -/
theorem satFold_some_of_all (c1 : CollisionShape) (t1 : Transform)
    (c2 : CollisionShape) (t2 : Transform) :
    ∀ (axes : List Vec2) (acc : ℝ × Vec2),
      (∀ b ∈ axes, overlapsOn c1 t1 c2 t2 b) →
      ∃ res, satFold c1 t1 c2 t2 axes (some acc) = some (some res) := by
  intro axes
  induction axes with
  | nil => intro acc _; exact ⟨acc, rfl⟩
  | cons a rest ih =>
      intro acc hall
      obtain ⟨l0, a0⟩ := acc
      simp only [satFold]
      rw [if_pos (show (project_shape c1 t1 a).overlaps (project_shape c2 t2 a) from
        hall a (List.mem_cons_self _ _))]
      by_cases hle : (project_shape c1 t1 a).get_overlap (project_shape c2 t2 a) ≤ l0
      · rw [if_pos hle]
        exact ih _ (fun b hb => hall b (List.mem_cons_of_mem _ hb))
      · rw [if_neg hle]
        exact ih _ (fun b hb => hall b (List.mem_cons_of_mem _ hb))

/-- When every axis of a nonempty list overlaps, the loop from the empty
accumulator also completes with a final pair. -/
theorem satFold_some_of_all_nonempty (c1 : CollisionShape) (t1 : Transform)
    (c2 : CollisionShape) (t2 : Transform) (a : Vec2) (rest : List Vec2)
    (hall : ∀ b ∈ a :: rest, overlapsOn c1 t1 c2 t2 b) :
    ∃ res, satFold c1 t1 c2 t2 (a :: rest) none = some (some res) := by
  simp only [satFold]
  rw [if_pos (show (project_shape c1 t1 a).overlaps (project_shape c2 t2 a) from
    hall a (List.mem_cons_self _ _))]
  exact satFold_some_of_all c1 t1 c2 t2 rest _
    (fun b hb => hall b (List.mem_cons_of_mem _ hb))

/-- On a nonempty axes list, satFinish always produces an outcome, and its
collided bit is true exactly when every axis overlaps. -/
theorem satFinish_collided_iff (c1 : CollisionShape) (t1 : Transform)
    (c2 : CollisionShape) (t2 : Transform) (a : Vec2) (rest : List Vec2) :
    ∃ p, satFinish c1 t1 c2 t2 (a :: rest) = some p ∧
      (p.1 = true ↔ ∀ b ∈ a :: rest, overlapsOn c1 t1 c2 t2 b) := by
  by_cases hall : ∀ b ∈ a :: rest, overlapsOn c1 t1 c2 t2 b
  · obtain ⟨res, hres⟩ := satFold_some_of_all_nonempty c1 t1 c2 t2 a rest hall
    refine ⟨(true, some (satSignFix t1 t2 (res.2.smul res.1))), ?_, iff_of_true rfl hall⟩
    unfold satFinish
    rw [hres]
  · push_neg at hall
    obtain ⟨b, hb, hno⟩ := hall
    refine ⟨(false, none), ?_, ?_⟩
    · unfold satFinish
      rw [satFold_none_of_fail c1 t1 c2 t2 (a :: rest) none b hb hno]
    · simp only [Bool.false_eq_true, false_iff, not_forall]
      exact ⟨b, hb, hno⟩

/-- Two booleans agreeing on their truth conditions are equal. -/
theorem bool_eq_of_iff (a b : Bool) (h : a = true ↔ b = true) : a = b := by
  cases a <;> cases b <;> simp_all

/-- Non-degeneracy for the symmetry claim: circles have nonnegative radius
and polygons have at least two vertices. -/
def shapeND : CollisionShape → Prop
  | .Circle r => 0 ≤ r
  | .Polygon vs => 2 ≤ vs.length

theorem shapeND_shapeOK (s : CollisionShape) (h : shapeND s) : shapeOK s := by
  cases s with
  | Circle r => exact h
  | Polygon vs => trivial

/-- On a shared axis, the overlap test with the two shapes' roles swapped
agrees with the original, given well-formed shapes. -/
theorem overlapsOn_comm (c1 : CollisionShape) (t1 : Transform)
    (c2 : CollisionShape) (t2 : Transform) (a : Vec2)
    (h1 : shapeOK c1) (h2 : shapeOK c2) :
    overlapsOn c2 t2 c1 t1 a ↔ overlapsOn c1 t1 c2 t2 a := by
  unfold overlapsOn
  exact Projection.overlaps_comm _ _ (project_shape_proper c2 t2 a h2)
    (project_shape_proper c1 t1 a h1)

/-- Negating a shared axis and swapping the two shapes' roles leaves the
overlap test unchanged, given well-formed shapes. -/
theorem overlapsOn_neg_comm (c1 : CollisionShape) (t1 : Transform)
    (c2 : CollisionShape) (t2 : Transform) (a : Vec2)
    (h1 : shapeOK c1) (h2 : shapeOK c2) :
    overlapsOn c2 t2 c1 t1 (-a) ↔ overlapsOn c1 t1 c2 t2 a := by
  unfold overlapsOn
  rw [project_shape_neg_axis, project_shape_neg_axis]
  rw [Projection.overlaps_negSwap]
  exact Projection.overlaps_comm _ _ (project_shape_proper c2 t2 a h2)
    (project_shape_proper c1 t1 a h1)

theorem Vec2.normalized_neg (v : Vec2) : (-v).normalized = -(v.normalized) := by
  unfold Vec2.normalized
  rw [Vec2.magnitude_neg]
  show (⟨-v.x / v.magnitude, -v.y / v.magnitude⟩ : Vec2) =
    ⟨-(v.x / v.magnitude), -(v.y / v.magnitude)⟩
  simp only [Vec2.mk.injEq]
  constructor <;> ring

/-- Two satFinish runs with the shapes' roles swapped on axes lists with
the same members report the same collided bit. -/
theorem satFinish_symm_same_axes (cA : CollisionShape) (tA : Transform)
    (cB : CollisionShape) (tB : Transform) (axesA axesB : List Vec2)
    (haA : axesA ≠ []) (haB : axesB ≠ []) (hOKA : shapeOK cA) (hOKB : shapeOK cB)
    (hsame : ∀ b : Vec2, b ∈ axesA ↔ b ∈ axesB) :
    ∃ b m1 m2, satFinish cA tA cB tB axesA = some (b, m1) ∧
      satFinish cB tB cA tA axesB = some (b, m2) := by
  obtain ⟨a, ra, rfl⟩ : ∃ x xs, axesA = x :: xs := by
    cases axesA with
    | nil => exact absurd rfl haA
    | cons x xs => exact ⟨x, xs, rfl⟩
  obtain ⟨a2, ra2, rfl⟩ : ∃ x xs, axesB = x :: xs := by
    cases axesB with
    | nil => exact absurd rfl haB
    | cons x xs => exact ⟨x, xs, rfl⟩
  obtain ⟨p, hp, hpiff⟩ := satFinish_collided_iff cA tA cB tB a ra
  obtain ⟨q, hq, hqiff⟩ := satFinish_collided_iff cB tB cA tA a2 ra2
  have hbeq : q.1 = p.1 := by
    apply bool_eq_of_iff
    rw [hqiff, hpiff]
    constructor
    · intro hall b hb
      exact (overlapsOn_comm cA tA cB tB b hOKA hOKB).mp (hall b ((hsame b).mp hb))
    · intro hall b hb
      exact (overlapsOn_comm cA tA cB tB b hOKA hOKB).mpr (hall b ((hsame b).mpr hb))
  refine ⟨p.1, p.2, q.2, hp, ?_⟩
  rw [← hbeq]
  exact hq

/-- A polygon with at least two vertices has at least one axis. -/
theorem get_axes_polygon_ne_nil (vs : List Vec2) (h : 2 ≤ vs.length) :
    get_axes (.Polygon vs) ≠ [] := by
  simp only [get_axes]
  intro hc
  have hlen := congrArg List.length hc
  simp only [List.length_map, List.length_range, List.length_nil] at hlen
  omega

/-- C4 (amended): for non-degenerate shapes, seperating_axis_test reports
the same collided boolean with the argument order swapped.  The stronger
original claim that the two mtvs are exact negations fails (see the
counterexample): when one projection strictly contains the other,
get_overlap returns the inner width in one order but falls through to 0
in the other, so the chosen axes and mtvs can disagree beyond a sign. -/
theorem c4_collided_symmetric (t1 t2 : Transform) (c1 c2 : CollisionShape)
    (h1 : shapeND c1) (h2 : shapeND c2) :
    ∃ b m1 m2, seperating_axis_test t1 c1 t2 c2 = some (b, m1) ∧
      seperating_axis_test t2 c2 t1 c1 = some (b, m2) := by
  have hOK1 := shapeND_shapeOK c1 h1
  have hOK2 := shapeND_shapeOK c2 h2
  cases c1 with
  | Circle r1 =>
      cases c2 with
      | Circle r2 =>
          have hgiff : (|t2.x - t1.x| * |t2.x - t1.x| +
              |t2.y - t1.y| * |t2.y - t1.y| ≤ (r2 + r1) * (r2 + r1)) ↔
              (|t1.x - t2.x| * |t1.x - t2.x| +
              |t1.y - t2.y| * |t1.y - t2.y| ≤ (r1 + r2) * (r1 + r2)) := by
            rw [abs_sub_comm t2.x t1.x, abs_sub_comm t2.y t1.y, add_comm r2 r1]
          by_cases hg : |t1.x - t2.x| * |t1.x - t2.x| +
              |t1.y - t2.y| * |t1.y - t2.y| ≤ (r1 + r2) * (r1 + r2)
          · have ha21 : (⟨t2.x - t1.x, t2.y - t1.y⟩ : Vec2).normalized =
                -((⟨t1.x - t2.x, t1.y - t2.y⟩ : Vec2).normalized) := by
              have he : (⟨t2.x - t1.x, t2.y - t1.y⟩ : Vec2) =
                  -(⟨t1.x - t2.x, t1.y - t2.y⟩ : Vec2) := by
                show _ = (⟨-(t1.x - t2.x), -(t1.y - t2.y)⟩ : Vec2)
                simp only [Vec2.mk.injEq]
                constructor <;> ring
              rw [he, Vec2.normalized_neg]
            obtain ⟨p, hp, hpiff⟩ := satFinish_collided_iff (.Circle r1) t1
              (.Circle r2) t2 ((⟨t1.x - t2.x, t1.y - t2.y⟩ : Vec2).normalized) []
            obtain ⟨q, hq, hqiff⟩ := satFinish_collided_iff (.Circle r2) t2
              (.Circle r1) t1 ((⟨t2.x - t1.x, t2.y - t1.y⟩ : Vec2).normalized) []
            have hbeq : q.1 = p.1 := by
              apply bool_eq_of_iff
              rw [hqiff, hpiff]
              simp only [List.mem_singleton, forall_eq]
              rw [ha21]
              exact overlapsOn_neg_comm (.Circle r1) t1 (.Circle r2) t2 _ hOK1 hOK2
            refine ⟨p.1, p.2, q.2, ?_, ?_⟩
            · simp only [seperating_axis_test]
              rw [if_pos hg]
              exact hp
            · simp only [seperating_axis_test]
              rw [if_pos (hgiff.mpr hg)]
              rw [← hbeq]
              exact hq
          · refine ⟨false, none, none, ?_, ?_⟩
            · simp only [seperating_axis_test]
              rw [if_neg hg]
            · simp only [seperating_axis_test]
              rw [if_neg (fun hc => hg (hgiff.mp hc))]
      | Polygon vs2 =>
          cases vs2 with
          | nil => simp only [shapeND, List.length_nil] at h2; omega
          | cons v vrest =>
              simp only [seperating_axis_test, get_circle_polygon_axis]
              obtain ⟨b, m1, m2, hb1, hb2⟩ := satFinish_symm_same_axes
                (.Circle r1) t1 (.Polygon (v :: vrest)) t2
                ((cpFold ⟨t1.x, t1.y⟩ t2 (v :: vrest)
                    ((cpGetAxis ⟨t1.x, t1.y⟩ v t2).magnitude_squared,
                     cpGetAxis ⟨t1.x, t1.y⟩ v t2)).2.normalized.normalized
                  :: get_axes (.Polygon (v :: vrest)))
                ((cpFold ⟨t1.x, t1.y⟩ t2 (v :: vrest)
                    ((cpGetAxis ⟨t1.x, t1.y⟩ v t2).magnitude_squared,
                     cpGetAxis ⟨t1.x, t1.y⟩ v t2)).2.normalized.normalized
                  :: get_axes (.Polygon (v :: vrest)))
                (List.cons_ne_nil _ _) (List.cons_ne_nil _ _) hOK1 hOK2
                (fun b => Iff.rfl)
              exact ⟨b, m1, m2, hb1, hb2⟩
  | Polygon vs1 =>
      cases c2 with
      | Circle r2 =>
          cases vs1 with
          | nil => simp only [shapeND, List.length_nil] at h1; omega
          | cons v vrest =>
              simp only [seperating_axis_test, get_circle_polygon_axis]
              obtain ⟨b, m1, m2, hb1, hb2⟩ := satFinish_symm_same_axes
                (.Polygon (v :: vrest)) t1 (.Circle r2) t2
                ((cpFold ⟨t2.x, t2.y⟩ t1 (v :: vrest)
                    ((cpGetAxis ⟨t2.x, t2.y⟩ v t1).magnitude_squared,
                     cpGetAxis ⟨t2.x, t2.y⟩ v t1)).2.normalized.normalized
                  :: get_axes (.Polygon (v :: vrest)))
                ((cpFold ⟨t2.x, t2.y⟩ t1 (v :: vrest)
                    ((cpGetAxis ⟨t2.x, t2.y⟩ v t1).magnitude_squared,
                     cpGetAxis ⟨t2.x, t2.y⟩ v t1)).2.normalized.normalized
                  :: get_axes (.Polygon (v :: vrest)))
                (List.cons_ne_nil _ _) (List.cons_ne_nil _ _) hOK1 hOK2
                (fun b => Iff.rfl)
              exact ⟨b, m1, m2, hb1, hb2⟩
      | Polygon vs2 =>
          simp only [seperating_axis_test]
          have hne1 := get_axes_polygon_ne_nil vs1 h1
          have hne2 := get_axes_polygon_ne_nil vs2 h2
          obtain ⟨b, m1, m2, hb1, hb2⟩ := satFinish_symm_same_axes
            (.Polygon vs1) t1 (.Polygon vs2) t2
            (get_axes (.Polygon vs1) ++ get_axes (.Polygon vs2))
            (get_axes (.Polygon vs2) ++ get_axes (.Polygon vs1))
            (by
              intro hc
              rcases List.append_eq_nil.1 hc with ⟨hc1, -⟩
              exact hne1 hc1)
            (by
              intro hc
              rcases List.append_eq_nil.1 hc with ⟨-, hc2⟩
              exact hne1 hc2)
            hOK1 hOK2
            (by
              intro x
              simp only [List.mem_append]
              tauto)
          exact ⟨b, m1, m2, hb1, hb2⟩

/-!  The C4 counterexample: congruent-center nested boxes.  -/

/-- An axis-aligned box of half extent e centered at the local origin,
with the vertex order produced by Collider::half_extents. -/
def boxShape (e : ℝ) : CollisionShape :=
  .Polygon [⟨-e, -e⟩, ⟨e, -e⟩, ⟨e, e⟩, ⟨-e, e⟩]

theorem mag_axis (x y m : ℝ) (hm : 0 ≤ m) (h : x * x + y * y = m * m) :
    (⟨x, y⟩ : Vec2).magnitude = m := by
  unfold Vec2.magnitude Vec2.magnitude_squared
  simp only
  rw [h, show m * m = m ^ 2 by ring, Real.sqrt_sq hm]

theorem norm_axis (x y m : ℝ) (hm : 0 < m) (h : x * x + y * y = m * m) :
    (⟨x, y⟩ : Vec2).normalized = ⟨x / m, y / m⟩ := by
  unfold Vec2.normalized
  rw [mag_axis x y m hm.le h]

/-- The three axes of a box: both horizontal edge normals collapse to the
vertical unit vectors and the single processed vertical edge gives the
left normal; the fourth (wrap-around) edge is skipped. -/
theorem get_axes_box (e : ℝ) (he : 0 < e) :
    get_axes (boxShape e) = [⟨0, 1⟩, ⟨-1, 0⟩, ⟨0, -1⟩] := by
  simp only [boxShape, get_axes]
  rw [show (([⟨-e, -e⟩, ⟨e, -e⟩, ⟨e, e⟩, ⟨-e, e⟩] : List Vec2).length - 1) = 3 from by
    simp]
  rw [show List.range 3 = [0, 1, 2] from rfl]
  simp only [List.map_cons, List.map_nil, List.getD_cons_zero, List.getD_cons_succ]
  have e1 : edgeNormal (⟨-e, -e⟩ : Vec2) ⟨e, -e⟩ = ⟨0, 2 * e⟩ := by
    unfold edgeNormal
    simp only [Vec2.sub_x, Vec2.sub_y, Vec2.mk.injEq]
    constructor <;> ring
  have e2 : edgeNormal (⟨e, -e⟩ : Vec2) ⟨e, e⟩ = ⟨-2 * e, 0⟩ := by
    unfold edgeNormal
    simp only [Vec2.sub_x, Vec2.sub_y, Vec2.mk.injEq]
    constructor <;> ring
  have e3 : edgeNormal (⟨e, e⟩ : Vec2) ⟨-e, e⟩ = ⟨0, -(2 * e)⟩ := by
    unfold edgeNormal
    simp only [Vec2.sub_x, Vec2.sub_y, Vec2.mk.injEq]
    constructor <;> ring
  rw [e1, e2, e3]
  rw [norm_axis 0 (2 * e) (2 * e) (by linarith) (by ring)]
  rw [norm_axis (-2 * e) 0 (2 * e) (by linarith) (by ring)]
  rw [norm_axis 0 (-(2 * e)) (2 * e) (by linarith) (by ring)]
  have hne : (2 : ℝ) * e ≠ 0 := by positivity
  have hd1 : (0 : ℝ) / (2 * e) = 0 := zero_div _
  have hd2 : (2 * e) / (2 * e) = 1 := div_self hne
  have hd3 : (-2 * e) / (2 * e) = -1 := by
    rw [show (-2 : ℝ) * e = -(2 * e) by ring, neg_div, hd2]
  have hd4 : (-(2 * e)) / (2 * e) = -1 := by
    rw [neg_div, hd2]
  rw [hd1, hd2, hd3, hd4]

/-- A box projects onto each of its three axes as the symmetric interval
of its half extent. -/
theorem project_box (e : ℝ) (he : 0 < e) (a : Vec2)
    (ha : a = ⟨0, 1⟩ ∨ a = ⟨-1, 0⟩ ∨ a = ⟨0, -1⟩) :
    project_shape (boxShape e) ⟨0, 0⟩ a = ⟨-e, e⟩ := by
  rcases ha with rfl | rfl | rfl <;>
  · simp only [boxShape, project_shape, List.headI, projFold, Vec2.dot, Vec2.add_x,
      Vec2.add_y, Projection.min_mk, Projection.max_mk]
    norm_num
    split_ifs <;>
      first
        | rfl
        | (exfalso; linarith)
        | (simp only [Projection.mk.injEq]; constructor <;> linarith)

/-- One loop step from the empty accumulator, with the projections given. -/
theorem satFold_cons_none (c1 : CollisionShape) (t1 : Transform)
    (c2 : CollisionShape) (t2 : Transform) (a : Vec2) (rest : List Vec2)
    (p1 p2 : Projection) (hp1 : project_shape c1 t1 a = p1)
    (hp2 : project_shape c2 t2 a = p2) (hov : p1.overlaps p2) :
    satFold c1 t1 c2 t2 (a :: rest) none =
      satFold c1 t1 c2 t2 rest (some (p1.get_overlap p2, a)) := by
  simp only [satFold]
  rw [hp1, hp2, if_pos hov]

/-- One loop step that replaces the accumulator on a tie or improvement. -/
theorem satFold_cons_le (c1 : CollisionShape) (t1 : Transform)
    (c2 : CollisionShape) (t2 : Transform) (a : Vec2) (rest : List Vec2)
    (l0 : ℝ) (a0 : Vec2) (p1 p2 : Projection) (hp1 : project_shape c1 t1 a = p1)
    (hp2 : project_shape c2 t2 a = p2) (hov : p1.overlaps p2)
    (hle : p1.get_overlap p2 ≤ l0) :
    satFold c1 t1 c2 t2 (a :: rest) (some (l0, a0)) =
      satFold c1 t1 c2 t2 rest (some (p1.get_overlap p2, a)) := by
  simp only [satFold]
  rw [hp1, hp2, if_pos hov, if_pos hle]

/-- C4 counterexample: a half-extent 1 box centered inside a half-extent
10 box at the same position.  Both argument orders report collided (in
line with the amended claim), but the mtvs are (0,0) and (0,-2): not
negations of each other.  Testing big-vs-small, every axis sees the small
projection strictly inside the big one and get_overlap falls through to
0, so the mtv degenerates to the zero vector; the swapped order measures
the inner width 2 instead. -/
theorem c4_counterexample :
    shapeND (boxShape 10) ∧ shapeND (boxShape 1) ∧
    seperating_axis_test ⟨0, 0⟩ (boxShape 10) ⟨0, 0⟩ (boxShape 1) =
      some (true, some ⟨0, 0⟩) ∧
    seperating_axis_test ⟨0, 0⟩ (boxShape 1) ⟨0, 0⟩ (boxShape 10) =
      some (true, some ⟨0, -2⟩) ∧
    ¬ ((⟨0, 0⟩ : Vec2) = -(⟨0, -2⟩ : Vec2)) := by
  have hax10 := get_axes_box 10 (by norm_num)
  have hax1 := get_axes_box 1 (by norm_num)
  have hb10 : ∀ a : Vec2, a = ⟨0, 1⟩ ∨ a = ⟨-1, 0⟩ ∨ a = ⟨0, -1⟩ →
      project_shape (boxShape 10) ⟨0, 0⟩ a = ⟨-10, 10⟩ :=
    fun a ha => project_box 10 (by norm_num) a ha
  have hb1 : ∀ a : Vec2, a = ⟨0, 1⟩ ∨ a = ⟨-1, 0⟩ ∨ a = ⟨0, -1⟩ →
      project_shape (boxShape 1) ⟨0, 0⟩ a = ⟨-1, 1⟩ :=
    fun a ha => project_box 1 (by norm_num) a ha
  have ovAB : (Projection.mk (-10) 10).overlaps ⟨-1, 1⟩ := by
    unfold Projection.overlaps
    norm_num
  have ovBA : (Projection.mk (-1) 1).overlaps ⟨-10, 10⟩ := by
    unfold Projection.overlaps
    norm_num
  have gAB : (Projection.mk (-10) 10).get_overlap ⟨-1, 1⟩ = 0 := by
    unfold Projection.get_overlap
    norm_num
  have gBA : (Projection.mk (-1) 1).get_overlap ⟨-10, 10⟩ = 2 := by
    unfold Projection.get_overlap
    norm_num
  have hfoldAB : satFold (boxShape 10) ⟨0, 0⟩ (boxShape 1) ⟨0, 0⟩
      [⟨0, 1⟩, ⟨-1, 0⟩, ⟨0, -1⟩, ⟨0, 1⟩, ⟨-1, 0⟩, ⟨0, -1⟩] none =
      some (some (0, ⟨0, -1⟩)) := by
    rw [satFold_cons_none _ _ _ _ _ _ _ _ (hb10 _ (by tauto)) (hb1 _ (by tauto)) ovAB,
      gAB]
    rw [satFold_cons_le _ _ _ _ _ _ _ _ _ _ (hb10 _ (by tauto)) (hb1 _ (by tauto))
      ovAB (by rw [gAB]), gAB]
    rw [satFold_cons_le _ _ _ _ _ _ _ _ _ _ (hb10 _ (by tauto)) (hb1 _ (by tauto))
      ovAB (by rw [gAB]), gAB]
    rw [satFold_cons_le _ _ _ _ _ _ _ _ _ _ (hb10 _ (by tauto)) (hb1 _ (by tauto))
      ovAB (by rw [gAB]), gAB]
    rw [satFold_cons_le _ _ _ _ _ _ _ _ _ _ (hb10 _ (by tauto)) (hb1 _ (by tauto))
      ovAB (by rw [gAB]), gAB]
    rw [satFold_cons_le _ _ _ _ _ _ _ _ _ _ (hb10 _ (by tauto)) (hb1 _ (by tauto))
      ovAB (by rw [gAB]), gAB]
    rfl
  have hfoldBA : satFold (boxShape 1) ⟨0, 0⟩ (boxShape 10) ⟨0, 0⟩
      [⟨0, 1⟩, ⟨-1, 0⟩, ⟨0, -1⟩, ⟨0, 1⟩, ⟨-1, 0⟩, ⟨0, -1⟩] none =
      some (some (2, ⟨0, -1⟩)) := by
    rw [satFold_cons_none _ _ _ _ _ _ _ _ (hb1 _ (by tauto)) (hb10 _ (by tauto)) ovBA,
      gBA]
    rw [satFold_cons_le _ _ _ _ _ _ _ _ _ _ (hb1 _ (by tauto)) (hb10 _ (by tauto))
      ovBA (by rw [gBA]), gBA]
    rw [satFold_cons_le _ _ _ _ _ _ _ _ _ _ (hb1 _ (by tauto)) (hb10 _ (by tauto))
      ovBA (by rw [gBA]), gBA]
    rw [satFold_cons_le _ _ _ _ _ _ _ _ _ _ (hb1 _ (by tauto)) (hb10 _ (by tauto))
      ovBA (by rw [gBA]), gBA]
    rw [satFold_cons_le _ _ _ _ _ _ _ _ _ _ (hb1 _ (by tauto)) (hb10 _ (by tauto))
      ovBA (by rw [gBA]), gBA]
    rw [satFold_cons_le _ _ _ _ _ _ _ _ _ _ (hb1 _ (by tauto)) (hb10 _ (by tauto))
      ovBA (by rw [gBA]), gBA]
    rfl
  refine ⟨by simp [shapeND, boxShape], by simp [shapeND, boxShape], ?_, ?_, ?_⟩
  · rw [show seperating_axis_test ⟨0, 0⟩ (boxShape 10) ⟨0, 0⟩ (boxShape 1) =
      satFinish (boxShape 10) ⟨0, 0⟩ (boxShape 1) ⟨0, 0⟩
        (get_axes (boxShape 10) ++ get_axes (boxShape 1)) from rfl]
    rw [hax10, hax1]
    rw [show ([⟨0, 1⟩, ⟨-1, 0⟩, ⟨0, -1⟩] : List Vec2) ++ [⟨0, 1⟩, ⟨-1, 0⟩, ⟨0, -1⟩] =
      [⟨0, 1⟩, ⟨-1, 0⟩, ⟨0, -1⟩, ⟨0, 1⟩, ⟨-1, 0⟩, ⟨0, -1⟩] from rfl]
    unfold satFinish
    rw [hfoldAB]
    show some (true, some (satSignFix ⟨0, 0⟩ ⟨0, 0⟩ ((⟨0, -1⟩ : Vec2).smul (0 : ℝ)))) = _
    unfold satSignFix Vec2.smul Vec2.dot
    rw [if_neg (by norm_num)]
    simp only [Option.some.injEq, Prod.mk.injEq, Vec2.mk.injEq, true_and]
    norm_num
  · rw [show seperating_axis_test ⟨0, 0⟩ (boxShape 1) ⟨0, 0⟩ (boxShape 10) =
      satFinish (boxShape 1) ⟨0, 0⟩ (boxShape 10) ⟨0, 0⟩
        (get_axes (boxShape 1) ++ get_axes (boxShape 10)) from rfl]
    rw [hax1, hax10]
    rw [show ([⟨0, 1⟩, ⟨-1, 0⟩, ⟨0, -1⟩] : List Vec2) ++ [⟨0, 1⟩, ⟨-1, 0⟩, ⟨0, -1⟩] =
      [⟨0, 1⟩, ⟨-1, 0⟩, ⟨0, -1⟩, ⟨0, 1⟩, ⟨-1, 0⟩, ⟨0, -1⟩] from rfl]
    unfold satFinish
    rw [hfoldBA]
    show some (true, some (satSignFix ⟨0, 0⟩ ⟨0, 0⟩ ((⟨0, -1⟩ : Vec2).smul (2 : ℝ)))) = _
    unfold satSignFix Vec2.smul Vec2.dot
    rw [if_neg (by norm_num)]
    simp only [Option.some.injEq, Prod.mk.injEq, Vec2.mk.injEq, true_and]
    norm_num
  · intro hc
    rw [show -(⟨0, -2⟩ : Vec2) = ⟨-0, -(-2)⟩ from rfl] at hc
    simp only [Vec2.mk.injEq] at hc
    norm_num at hc

/-- Witness for the amended C4 at unit circles one apart. -/
theorem c4_witness :
    shapeND (.Circle (1 : ℝ)) ∧
    ∃ b m1 m2,
      seperating_axis_test ⟨0, 0⟩ (.Circle 1) ⟨1, 0⟩ (.Circle 1) = some (b, m1) ∧
      seperating_axis_test ⟨1, 0⟩ (.Circle 1) ⟨0, 0⟩ (.Circle 1) = some (b, m2) :=
  ⟨by simp only [shapeND]; norm_num,
    c4_collided_symmetric ⟨0, 0⟩ ⟨1, 0⟩ (.Circle 1) (.Circle 1)
      (by simp only [shapeND]; norm_num) (by simp only [shapeND]; norm_num)⟩

/-!  physics/spatialhash.rs: the broad-phase spatial hash.  -/

/-- SpatialBuckets: a width x height grid of handle lists stored row-major,
with fixed cell dimensions. -/
structure SpatialBuckets where
  buckets : List (List EntityId)
  bucket_width : ℝ
  bucket_height : ℝ
  width : Nat
  height : Nat

/-- SpatialBuckets::new.  The constructor call sites pass (height, width)
swapped (PhysicsWorld::new passes bucket_height first); the structure is
symmetric so this only renames the two cell dimensions. -/
def SpatialBuckets.new (bucket_width bucket_height : ℝ) : SpatialBuckets :=
  ⟨[[]], bucket_width, bucket_height, 1, 1⟩

/-- wrap_point: the zig-zag embedding of signed cell coordinates into
nonnegative array coordinates (0, -1, 1, -2, 2, ... map to 0, 1, 2, 3, 4). -/
def wrapPoint (p : Int) : Nat :=
  (if p * 2 < 0 then -(p * 2) - 1 else p * 2).toNat

/-- point_to_cell: floor-divide world coordinates by the cell size. -/
def SpatialBuckets.point_to_cell (s : SpatialBuckets) (x y : ℝ) : Int × Int :=
  (⌊x / s.bucket_width⌋, ⌊y / s.bucket_height⌋)

/-- Insert n empty buckets at a position (Vec::insert repeated n times at
a fixed index).  Out-of-range positions clamp where Rust would panic;
every theorem below stays in range. -/
def insertEmptiesAt (l : List (List EntityId)) (idx n : Nat) : List (List EntityId) :=
  l.take idx ++ List.replicate n [] ++ l.drop idx

/-- The row loop of SpatialBuckets::resize: for each of the given rows,
insert width empty buckets at the running index, then advance it by twice
the width. -/
def resizeRows (w : Nat) : Nat → Nat → List (List EntityId) → List (List EntityId)
  | 0, _, l => l
  | rows + 1, idx, l => resizeRows w rows (idx + w * 2) (insertEmptiesAt l idx w)

/-- SpatialBuckets::resize: interleave an empty half-row after every
existing row, append height fresh empty rows of the doubled width, and
double both dimensions. -/
def SpatialBuckets.resize (s : SpatialBuckets) : SpatialBuckets :=
  { s with
    buckets := (resizeRows s.width s.height s.width s.buckets ++
      List.replicate (s.width * 2 * s.height) []),
    width := s.width * 2,
    height := s.height * 2 }

/-- The while-loop guard of insert/remove/nearby, negated: all four
wrapped corner coordinates are inside a w x h grid. -/
def fitsDims (w h wx1 wx2 wy1 wy2 : Nat) : Prop :=
  wx1 < w ∧ wx2 < w ∧ wy1 < h ∧ wy2 < h

instance (w h wx1 wx2 wy1 wy2 : Nat) : Decidable (fitsDims w h wx1 wx2 wy1 wy2) := by
  unfold fitsDims
  infer_instance

open Classical in
/-- The number of doublings the resize loop performs: the least k for
which the four wrapped corners fit in the 2^k-scaled grid.  For a grid
with a zero dimension the source loops forever; the embedding returns 0
there (no theorem touches that case). -/
def growCount (w h wx1 wx2 wy1 wy2 : Nat) : Nat :=
  if hex : ∃ k, fitsDims (w * 2 ^ k) (h * 2 ^ k) wx1 wx2 wy1 wy2 then
    Nat.find hex
  else 0

/-- The resize loop: double until the four wrapped corners fit. -/
def SpatialBuckets.grow (s : SpatialBuckets) (wx1 wx2 wy1 wy2 : Nat) :
    SpatialBuckets :=
  SpatialBuckets.resize^[growCount s.width s.height wx1 wx2 wy1 wy2] s

/-- The inclusive cell range a..=b. -/
def intRange (a b : Int) : List Int :=
  (List.range (b + 1 - a).toNat).map (fun i : Nat => (a + i : Int))

/-- buckets[y * width + x].push(id), with wrapped coordinates. -/
def bucketPush (s : SpatialBuckets) (id : EntityId) (x y : Int) : SpatialBuckets :=
  { s with buckets := (s.buckets.set (wrapPoint y * s.width + wrapPoint x)
      ((s.buckets.getD (wrapPoint y * s.width + wrapPoint x) []) ++ [id])) }

/-- buckets[y * width + x].retain(v != id), with wrapped coordinates. -/
def bucketRetain (s : SpatialBuckets) (id : EntityId) (x y : Int) : SpatialBuckets :=
  { s with buckets := (s.buckets.set (wrapPoint y * s.width + wrapPoint x)
      ((s.buckets.getD (wrapPoint y * s.width + wrapPoint x) []).filter
        (fun v => v ≠ id))) }

/-- The nested x/y cell loop of insert. -/
def pushCells (s : SpatialBuckets) (id : EntityId) (xs ys : List Int) :
    SpatialBuckets :=
  xs.foldl (fun s1 x => ys.foldl (fun s2 y => bucketPush s2 id x y) s1) s

/-- The nested x/y cell loop of remove. -/
def retainCells (s : SpatialBuckets) (id : EntityId) (xs ys : List Int) :
    SpatialBuckets :=
  xs.foldl (fun s1 x => ys.foldl (fun s2 y => bucketRetain s2 id x y) s1) s

/-- SpatialBuckets::insert.  The world box is transform plus AABB offset
with the AABB extent; its corner cells are computed with the fixed cell
size, the grid grows until both corners fit, and the handle is appended
to every cell of the inclusive range. -/
def SpatialBuckets.insert (s : SpatialBuckets) (id : EntityId)
    (transform : Transform) (aabb : AABB) : SpatialBuckets :=
  let xmin := transform.x + aabb.dx
  let ymin := transform.y + aabb.dy
  let xmax := xmin + aabb.width
  let ymax := ymin + aabb.height
  let c1 := s.point_to_cell xmin ymin
  let c2 := s.point_to_cell xmax ymax
  let s2 := s.grow (wrapPoint c1.1) (wrapPoint c2.1) (wrapPoint c1.2) (wrapPoint c2.2)
  pushCells s2 id (intRange c1.1 c2.1) (intRange c1.2 c2.2)

/-- SpatialBuckets::remove: same cell range, removing every occurrence of
the handle from each cell. -/
def SpatialBuckets.remove (s : SpatialBuckets) (id : EntityId)
    (transform : Transform) (aabb : AABB) : SpatialBuckets :=
  let xmin := transform.x + aabb.dx
  let ymin := transform.y + aabb.dy
  let xmax := xmin + aabb.width
  let ymax := ymin + aabb.height
  let c1 := s.point_to_cell xmin ymin
  let c2 := s.point_to_cell xmax ymax
  let s2 := s.grow (wrapPoint c1.1) (wrapPoint c2.1) (wrapPoint c1.2) (wrapPoint c2.2)
  retainCells s2 id (intRange c1.1 c2.1) (intRange c1.2 c2.2)

/-- The handle-collecting loop of nearby: push each handle of each cell in
range, skipping the queried handle and duplicates. -/
def nearbyCollect (s : SpatialBuckets) (id : EntityId) (xs ys : List Int) :
    List EntityId :=
  xs.foldl (fun acc x => ys.foldl (fun acc2 y =>
    (s.buckets.getD (wrapPoint y * s.width + wrapPoint x) []).foldl
      (fun acc3 e => if e ≠ id ∧ e ∉ acc3 then acc3 ++ [e] else acc3) acc2) acc) []

/-- SpatialBuckets::nearby.  The query takes the hash by mutable borrow:
it grows the grid exactly like insert before reading, so the grown state
is returned alongside the result. -/
def SpatialBuckets.nearby (s : SpatialBuckets) (id : EntityId)
    (transform : Transform) (aabb : AABB) : SpatialBuckets × List EntityId :=
  let xmin := transform.x + aabb.dx
  let ymin := transform.y + aabb.dy
  let xmax := xmin + aabb.width
  let ymax := ymin + aabb.height
  let c1 := s.point_to_cell xmin ymin
  let c2 := s.point_to_cell xmax ymax
  let s2 := s.grow (wrapPoint c1.1) (wrapPoint c2.1) (wrapPoint c1.2) (wrapPoint c2.2)
  (s2, nearbyCollect s2 id (intRange c1.1 c2.1) (intRange c1.2 c2.2))

/-- The contents of the grid cell at wrapped coordinates (cx, cy). -/
def cellAt (s : SpatialBuckets) (cx cy : Nat) : List EntityId :=
  s.buckets.getD (cy * s.width + cx) []

/-- The state invariant of the spatial hash: positive dimensions and a
backing list of exactly width * height buckets. -/
def SpatialBuckets.WellFormed (s : SpatialBuckets) : Prop :=
  1 ≤ s.width ∧ 1 ≤ s.height ∧ s.buckets.length = s.width * s.height

/-!  The effect of resize on the bucket grid.  -/

/-- The row-structured form of the resize insertion loop: every row of the
old grid followed by a fresh empty half row. -/
def rowPad (w : Nat) : Nat → List (List EntityId) → List (List EntityId)
  | 0, _ => []
  | rows + 1, l => (l.take w ++ List.replicate w []) ++ rowPad w rows (l.drop w)

/-- The resize insertion loop equals the row-structured form. -/
theorem resizeRows_eq (w : Nat) :
    ∀ (rows : Nat) (pre l : List (List EntityId)), l.length = w * rows →
      resizeRows w rows (pre.length + w) (pre ++ l) = pre ++ rowPad w rows l := by
  intro rows
  induction rows with
  | zero =>
      intro pre l hl
      have hnil : l = [] := List.eq_nil_of_length_eq_zero (by simpa using hl)
      subst hnil
      simp [resizeRows, rowPad]
  | succ rows ih =>
      intro pre l hl
      have hw : w ≤ l.length := by
        rw [hl]
        calc w = w * 1 := (mul_one w).symm
        _ ≤ w * (rows + 1) := Nat.mul_le_mul_left w (by omega)
      simp only [resizeRows, rowPad]
      have e1 : insertEmptiesAt (pre ++ l) (pre.length + w) w =
          (pre ++ (l.take w ++ List.replicate w [])) ++ l.drop w := by
        unfold insertEmptiesAt
        rw [List.take_append_eq_append_take, List.drop_append_eq_append_drop]
        rw [List.take_of_length_le (by omega), List.drop_eq_nil_of_le (by omega)]
        rw [show pre.length + w - pre.length = w by omega]
        simp only [List.nil_append, List.append_assoc]
      rw [e1]
      have hlen2 : (l.drop w).length = w * rows := by
        rw [List.length_drop, hl, Nat.mul_succ]
        apply Nat.add_sub_cancel
      have hidx : pre.length + w + w * 2 =
          (pre ++ (l.take w ++ List.replicate w [])).length + w := by
        simp only [List.length_append, List.length_take, List.length_replicate]
        rw [min_eq_left hw]
        omega
      rw [hidx, ih (pre ++ (l.take w ++ List.replicate w [])) (l.drop w) hlen2]
      simp only [List.append_assoc]

/-- The row structure has twice the width of buckets per row. -/
theorem rowPad_length (w : Nat) :
    ∀ (rows : Nat) (l : List (List EntityId)), l.length = w * rows →
      (rowPad w rows l).length = w * 2 * rows := by
  intro rows
  induction rows with
  | zero => intro l hl; rfl
  | succ rows ih =>
      intro l hl
      have hw : w ≤ l.length := by
        rw [hl]
        calc w = w * 1 := (mul_one w).symm
        _ ≤ w * (rows + 1) := Nat.mul_le_mul_left w (by omega)
      have hlen2 : (l.drop w).length = w * rows := by
        rw [List.length_drop, hl, Nat.mul_succ]
        apply Nat.add_sub_cancel
      simp only [rowPad, List.length_append, List.length_take, List.length_replicate,
        ih (l.drop w) hlen2]
      rw [min_eq_left hw]
      ring

/-- On a well-formed grid, resize produces the row-padded buckets followed
by the fresh bottom half. -/
theorem resize_buckets_eq (s : SpatialBuckets) (hWF : s.WellFormed) :
    s.resize.buckets = rowPad s.width s.height s.buckets ++
      List.replicate (s.width * 2 * s.height) [] := by
  unfold SpatialBuckets.resize
  simp only
  have h2 := resizeRows_eq s.width s.height ([] : List (List EntityId)) s.buckets
    (by simpa using hWF.2.2)
  simpa using h2

theorem resize_width (s : SpatialBuckets) : s.resize.width = s.width * 2 := rfl

theorem resize_height (s : SpatialBuckets) : s.resize.height = s.height * 2 := rfl

theorem resize_bucket_dims (s : SpatialBuckets) :
    s.resize.bucket_width = s.bucket_width ∧
    s.resize.bucket_height = s.bucket_height := ⟨rfl, rfl⟩

theorem resize_WellFormed (s : SpatialBuckets) (hWF : s.WellFormed) :
    s.resize.WellFormed := by
  obtain ⟨hw1, hh1, hlen⟩ := hWF
  refine ⟨by rw [resize_width]; omega, by rw [resize_height]; omega, ?_⟩
  rw [resize_width, resize_height, resize_buckets_eq s ⟨hw1, hh1, hlen⟩]
  rw [List.length_append, rowPad_length s.width s.height s.buckets hlen,
    List.length_replicate]
  ring

/-- Cells of the old grid keep their contents at the same wrapped
coordinates in the row-padded layout. -/
theorem rowPad_getD_old (w : Nat) :
    ∀ (rows : Nat) (l : List (List EntityId)), l.length = w * rows →
      ∀ cy cx, cy < rows → cx < w →
        (rowPad w rows l).getD (cy * (w * 2) + cx) [] = l.getD (cy * w + cx) [] := by
  intro rows
  induction rows with
  | zero => intro l hl cy cx hcy; omega
  | succ rows ih =>
      intro l hl cy cx hcy hcx
      have hw : w ≤ l.length := by
        rw [hl]
        calc w = w * 1 := (mul_one w).symm
        _ ≤ w * (rows + 1) := Nat.mul_le_mul_left w (by omega)
      have hlen2 : (l.drop w).length = w * rows := by
        rw [List.length_drop, hl, Nat.mul_succ]
        apply Nat.add_sub_cancel
      simp only [rowPad]
      cases cy with
      | zero =>
          simp only [Nat.zero_mul, Nat.zero_add]
          rw [List.getD_eq_getElem?_getD, List.getElem?_append_left (by
            simp only [List.length_append, List.length_take, List.length_replicate]
            rw [min_eq_left hw]
            omega)]
          rw [List.getElem?_append_left (by
            rw [List.length_take, min_eq_left hw]
            exact hcx)]
          rw [List.getElem?_take]
          rw [if_pos hcx]
          rw [← List.getD_eq_getElem?_getD]
      | succ cy =>
          have hge : (l.take w ++ List.replicate w []).length ≤
              (cy + 1) * (w * 2) + cx := by
            simp only [List.length_append, List.length_take, List.length_replicate]
            rw [min_eq_left hw, Nat.succ_mul]
            omega
          rw [List.getD_eq_getElem?_getD, List.getElem?_append_right hge]
          have hidx : (cy + 1) * (w * 2) + cx -
              (l.take w ++ List.replicate w []).length = cy * (w * 2) + cx := by
            simp only [List.length_append, List.length_take, List.length_replicate]
            rw [min_eq_left hw, Nat.succ_mul]
            omega
          rw [hidx, ← List.getD_eq_getElem?_getD,
            ih (l.drop w) hlen2 cy cx (by omega) hcx]
          rw [List.getD_eq_getElem?_getD, List.getElem?_drop,
            ← List.getD_eq_getElem?_getD]
          congr 1
          ring

/-- Cells of the fresh half rows are empty. -/
theorem rowPad_getD_new (w : Nat) :
    ∀ (rows : Nat) (l : List (List EntityId)), l.length = w * rows →
      ∀ cy cx, cy < rows → w ≤ cx → cx < w * 2 →
        (rowPad w rows l).getD (cy * (w * 2) + cx) [] = [] := by
  intro rows
  induction rows with
  | zero => intro l hl cy cx hcy; omega
  | succ rows ih =>
      intro l hl cy cx hcy hcx1 hcx2
      have hw : w ≤ l.length := by
        rw [hl]
        calc w = w * 1 := (mul_one w).symm
        _ ≤ w * (rows + 1) := Nat.mul_le_mul_left w (by omega)
      have hlen2 : (l.drop w).length = w * rows := by
        rw [List.length_drop, hl, Nat.mul_succ]
        apply Nat.add_sub_cancel
      simp only [rowPad]
      cases cy with
      | zero =>
          simp only [Nat.zero_mul, Nat.zero_add]
          rw [List.getD_eq_getElem?_getD, List.getElem?_append_left (by
            simp only [List.length_append, List.length_take, List.length_replicate]
            rw [min_eq_left hw]
            omega)]
          rw [List.getElem?_append_right (by rw [List.length_take, min_eq_left hw]; omega)]
          rw [List.getElem?_replicate]
          rw [if_pos (by rw [List.length_take, min_eq_left hw]; omega)]
          rfl
      | succ cy =>
          have hge : (l.take w ++ List.replicate w []).length ≤
              (cy + 1) * (w * 2) + cx := by
            simp only [List.length_append, List.length_take, List.length_replicate]
            rw [min_eq_left hw, Nat.succ_mul]
            omega
          rw [List.getD_eq_getElem?_getD, List.getElem?_append_right hge]
          have hidx : (cy + 1) * (w * 2) + cx -
              (l.take w ++ List.replicate w []).length = cy * (w * 2) + cx := by
            simp only [List.length_append, List.length_take, List.length_replicate]
            rw [min_eq_left hw, Nat.succ_mul]
            omega
          rw [hidx, ← List.getD_eq_getElem?_getD]
          exact ih (l.drop w) hlen2 cy cx (by omega) hcx1 hcx2

/-- Old cells survive one resize at the same wrapped coordinates. -/
theorem resize_cellAt_old (s : SpatialBuckets) (hWF : s.WellFormed)
    (cx cy : Nat) (hcx : cx < s.width) (hcy : cy < s.height) :
    cellAt s.resize cx cy = cellAt s cx cy := by
  unfold cellAt
  rw [resize_buckets_eq s hWF, resize_width]
  rw [List.getD_eq_getElem?_getD, List.getElem?_append_left (by
    rw [rowPad_length s.width s.height s.buckets hWF.2.2]
    calc cy * (s.width * 2) + cx < cy * (s.width * 2) + s.width * 2 := by omega
    _ = (cy + 1) * (s.width * 2) := by ring
    _ ≤ s.height * (s.width * 2) := Nat.mul_le_mul_right _ (by omega)
    _ = s.width * 2 * s.height := by ring)]
  rw [← List.getD_eq_getElem?_getD]
  exact rowPad_getD_old s.width s.height s.buckets hWF.2.2 cy cx hcy hcx

/-- Cells added by one resize are empty. -/
theorem resize_cellAt_new (s : SpatialBuckets) (hWF : s.WellFormed)
    (cx cy : Nat) (hcx : cx < s.width * 2) (hcy : cy < s.height * 2)
    (hnew : s.width ≤ cx ∨ s.height ≤ cy) :
    cellAt s.resize cx cy = [] := by
  unfold cellAt
  rw [resize_buckets_eq s hWF, resize_width]
  by_cases hcyh : cy < s.height
  · rcases hnew with hx | hy
    · rw [List.getD_eq_getElem?_getD, List.getElem?_append_left (by
        rw [rowPad_length s.width s.height s.buckets hWF.2.2]
        calc cy * (s.width * 2) + cx < cy * (s.width * 2) + s.width * 2 := by omega
        _ = (cy + 1) * (s.width * 2) := by ring
        _ ≤ s.height * (s.width * 2) := Nat.mul_le_mul_right _ (by omega)
        _ = s.width * 2 * s.height := by ring)]
      rw [← List.getD_eq_getElem?_getD]
      exact rowPad_getD_new s.width s.height s.buckets hWF.2.2 cy cx hcyh hx hcx
    · omega
  · push_neg at hcyh
    rw [List.getD_eq_getElem?_getD, List.getElem?_append_right (by
      rw [rowPad_length s.width s.height s.buckets hWF.2.2]
      calc s.width * 2 * s.height = s.height * (s.width * 2) := by ring
      _ ≤ cy * (s.width * 2) := Nat.mul_le_mul_right _ hcyh
      _ ≤ cy * (s.width * 2) + cx := by omega)]
    rw [List.getElem?_replicate]
    by_cases hin : cy * (s.width * 2) + cx -
        (rowPad s.width s.height s.buckets).length < s.width * 2 * s.height
    · rw [if_pos hin]; rfl
    · rw [if_neg hin]; rfl

/-- The repeated-resize state: dimensions scale by 2^k, the cell size is
fixed, old cells keep their contents and every new cell is empty. -/
theorem iterate_resize_spec (s : SpatialBuckets) (hWF : s.WellFormed) :
    ∀ k : Nat,
      (SpatialBuckets.resize^[k] s).WellFormed ∧
      (SpatialBuckets.resize^[k] s).width = s.width * 2 ^ k ∧
      (SpatialBuckets.resize^[k] s).height = s.height * 2 ^ k ∧
      (SpatialBuckets.resize^[k] s).bucket_width = s.bucket_width ∧
      (SpatialBuckets.resize^[k] s).bucket_height = s.bucket_height ∧
      (∀ cx cy, cx < s.width → cy < s.height →
        cellAt (SpatialBuckets.resize^[k] s) cx cy = cellAt s cx cy) ∧
      (∀ cx cy, cx < (SpatialBuckets.resize^[k] s).width →
        cy < (SpatialBuckets.resize^[k] s).height →
        (cx < s.width ∧ cy < s.height) ∨
          cellAt (SpatialBuckets.resize^[k] s) cx cy = []) := by
  intro k
  induction k with
  | zero =>
      refine ⟨hWF, by simp, by simp, rfl, rfl, fun _ _ _ _ => rfl, ?_⟩
      intro cx cy hcx hcy
      exact Or.inl ⟨hcx, hcy⟩
  | succ k ih =>
      obtain ⟨ihWF, ihw, ihh, ihbw, ihbh, ihold, ihnew⟩ := ih
      rw [Function.iterate_succ_apply']
      refine ⟨resize_WellFormed _ ihWF,
        by rw [resize_width, ihw]; ring,
        by rw [resize_height, ihh]; ring,
        by rw [(resize_bucket_dims _).1, ihbw],
        by rw [(resize_bucket_dims _).2, ihbh], ?_, ?_⟩
      · intro cx cy hcx hcy
        rw [resize_cellAt_old _ ihWF cx cy
          (by rw [ihw]; calc cx < s.width := hcx
              _ ≤ s.width * 2 ^ k := Nat.le_mul_of_pos_right _ (Nat.pos_pow_of_pos _ (by omega)))
          (by rw [ihh]; calc cy < s.height := hcy
              _ ≤ s.height * 2 ^ k := Nat.le_mul_of_pos_right _ (Nat.pos_pow_of_pos _ (by omega)))]
        exact ihold cx cy hcx hcy
      · intro cx cy hcx hcy
        rw [resize_width] at hcx
        rw [resize_height] at hcy
        by_cases hin : cx < (SpatialBuckets.resize^[k] s).width ∧
            cy < (SpatialBuckets.resize^[k] s).height
        · rw [resize_cellAt_old _ ihWF cx cy hin.1 hin.2]
          exact ihnew cx cy hin.1 hin.2
        · right
          apply resize_cellAt_new _ ihWF cx cy hcx hcy
          omega

/-- A handle fits after enough doublings (positive dimensions). -/
theorem fits_exists (w h : Nat) (hw : 1 ≤ w) (hh : 1 ≤ h) (a b c d : Nat) :
    ∃ k, fitsDims (w * 2 ^ k) (h * 2 ^ k) a b c d := by
  refine ⟨a + b + c + d, ?_, ?_, ?_, ?_⟩ <;>
  · calc _ ≤ a + b + c + d := by omega
    _ < 2 ^ (a + b + c + d) := Nat.lt_two_pow _
    _ ≤ _ := Nat.le_mul_of_pos_left _ (by omega)

/-- grow reaches a state in which the four wrapped coordinates fit, while
preserving well-formedness, cell size, old cells, and leaving all new
cells empty. -/
theorem grow_spec (s : SpatialBuckets) (hWF : s.WellFormed) (a b c d : Nat) :
    (s.grow a b c d).WellFormed ∧
    fitsDims (s.grow a b c d).width (s.grow a b c d).height a b c d ∧
    (∃ k, (s.grow a b c d).width = s.width * 2 ^ k ∧
      (s.grow a b c d).height = s.height * 2 ^ k) ∧
    (s.grow a b c d).bucket_width = s.bucket_width ∧
    (s.grow a b c d).bucket_height = s.bucket_height ∧
    (∀ cx cy, cx < s.width → cy < s.height →
      cellAt (s.grow a b c d) cx cy = cellAt s cx cy) ∧
    (∀ cx cy, cx < (s.grow a b c d).width → cy < (s.grow a b c d).height →
      (cx < s.width ∧ cy < s.height) ∨ cellAt (s.grow a b c d) cx cy = []) := by
  have hex : ∃ k, fitsDims (s.width * 2 ^ k) (s.height * 2 ^ k) a b c d :=
    fits_exists s.width s.height hWF.1 hWF.2.1 a b c d
  have hcount : growCount s.width s.height a b c d = Nat.find hex := by
    unfold growCount
    rw [dif_pos hex]
  obtain ⟨iWF, iw, ih, ibw, ibh, iold, inew⟩ :=
    iterate_resize_spec s hWF (growCount s.width s.height a b c d)
  refine ⟨iWF, ?_, ⟨growCount s.width s.height a b c d, iw, ih⟩, ibw, ibh, iold, inew⟩
  show fitsDims (SpatialBuckets.resize^[growCount s.width s.height a b c d] s).width
    (SpatialBuckets.resize^[growCount s.width s.height a b c d] s).height a b c d
  rw [iw, ih, hcount]
  exact Nat.find_spec hex

/-- When the four wrapped coordinates already fit, grow is the identity. -/
theorem grow_eq_self_of_fits (s : SpatialBuckets) (a b c d : Nat)
    (hfit : fitsDims s.width s.height a b c d) : s.grow a b c d = s := by
  have hex : ∃ k, fitsDims (s.width * 2 ^ k) (s.height * 2 ^ k) a b c d :=
    ⟨0, by simpa using hfit⟩
  have hcount : growCount s.width s.height a b c d = 0 := by
    unfold growCount
    rw [dif_pos hex]
    exact (Nat.find_eq_zero hex).mpr (by simpa using hfit)
  unfold SpatialBuckets.grow
  rw [hcount]
  rfl

/-- wrap_point is injective: distinct cell coordinates occupy distinct
array coordinates. -/
theorem wrapPoint_inj (p q : Int) (h : wrapPoint p = wrapPoint q) : p = q := by
  unfold wrapPoint at h
  split_ifs at h <;> omega

/-- The zig-zag coordinate of a cell between two others is bounded by
their zig-zag coordinates: the walked cell range stays inside the grown
grid. -/
theorem wrapPoint_lt_of_between (a b x : Int) (W : Nat) (hax : a ≤ x) (hxb : x ≤ b)
    (ha : wrapPoint a < W) (hb : wrapPoint b < W) : wrapPoint x < W := by
  unfold wrapPoint at *
  split_ifs at * <;> omega

theorem mem_intRange (a b x : Int) : x ∈ intRange a b ↔ a ≤ x ∧ x ≤ b := by
  unfold intRange
  simp only [List.mem_map, List.mem_range]
  constructor
  · rintro ⟨i, hi, rfl⟩
    omega
  · rintro ⟨h1, h2⟩
    exact ⟨(x - a).toNat, by omega, by omega⟩

theorem intRange_map_wrap_nodup (a b : Int) : ((intRange a b).map wrapPoint).Nodup := by
  unfold intRange
  rw [List.map_map]
  refine List.Nodup.map ?_ (List.nodup_range _)
  intro i j hij
  have h2 : (a + i : Int) = (a + j : Int) := wrapPoint_inj _ _ hij
  omega

/-- The unified cell mutation of insert and remove: replace the bucket at
the wrapped flat index by a function of its contents. -/
def bucketApply (g : List EntityId → List EntityId) (s : SpatialBuckets)
    (x y : Int) : SpatialBuckets :=
  { s with buckets := (s.buckets.set (wrapPoint y * s.width + wrapPoint x)
      (g (s.buckets.getD (wrapPoint y * s.width + wrapPoint x) []))) }

/-- The nested cell loop of insert and remove in terms of bucketApply. -/
def applyCells (g : List EntityId → List EntityId) (s : SpatialBuckets)
    (xs ys : List Int) : SpatialBuckets :=
  xs.foldl (fun s1 x => ys.foldl (fun s2 y => bucketApply g s2 x y) s1) s

theorem bucketPush_eq_apply (s : SpatialBuckets) (id : EntityId) (x y : Int) :
    bucketPush s id x y = bucketApply (fun l => l ++ [id]) s x y := rfl

theorem bucketRetain_eq_apply (s : SpatialBuckets) (id : EntityId) (x y : Int) :
    bucketRetain s id x y = bucketApply (fun l => l.filter (fun v => v ≠ id)) s x y := rfl

theorem pushCells_eq_apply (s : SpatialBuckets) (id : EntityId) (xs ys : List Int) :
    pushCells s id xs ys = applyCells (fun l => l ++ [id]) s xs ys := rfl

theorem retainCells_eq_apply (s : SpatialBuckets) (id : EntityId) (xs ys : List Int) :
    retainCells s id xs ys = applyCells (fun l => l.filter (fun v => v ≠ id)) s xs ys := rfl

/-- getD after set at the written index. -/
theorem getD_set_eq {α : Type} (l : List α) (i : Nat) (a d : α) (h : i < l.length) :
    (l.set i a).getD i d = a := by
  rw [List.getD_eq_getElem?_getD, List.getElem?_set_self]
  · rfl
  · exact h

/-- getD after set at a different index. -/
theorem getD_set_ne {α : Type} (l : List α) (i j : Nat) (a d : α) (h : i ≠ j) :
    (l.set i a).getD j d = l.getD j d := by
  rw [List.getD_eq_getElem?_getD, List.getElem?_set_ne h, ← List.getD_eq_getElem?_getD]

/-- Row-major flat indices are injective while the column is in range. -/
theorem flatIndex_inj (w cx1 cy1 cx2 cy2 : Nat) (h1 : cx1 < w) (h2 : cx2 < w)
    (h : cy1 * w + cx1 = cy2 * w + cx2) : cx1 = cx2 ∧ cy1 = cy2 := by
  have hw : 0 < w := Nat.lt_of_le_of_lt (Nat.zero_le _) h1
  have e1 : (cy1 * w + cx1) % w = cx1 := by
    rw [Nat.add_comm, Nat.add_mul_mod_self_right]; exact Nat.mod_eq_of_lt h1
  have e2 : (cy2 * w + cx2) % w = cx2 := by
    rw [Nat.add_comm, Nat.add_mul_mod_self_right]; exact Nat.mod_eq_of_lt h2
  have hx : cx1 = cx2 := by rw [← e1, ← e2, h]
  refine ⟨hx, ?_⟩
  have hmul : cy1 * w = cy2 * w := by omega
  exact Nat.eq_of_mul_eq_mul_right hw hmul

/-- An in-range row-major flat index is below the bucket count. -/
theorem flatIndex_lt (w h cx cy : Nat) (hcx : cx < w) (hcy : cy < h) :
    cy * w + cx < w * h := by
  calc cy * w + cx < cy * w + w := by omega
  _ = (cy + 1) * w := by ring
  _ ≤ h * w := Nat.mul_le_mul_right _ (by omega)
  _ = w * h := Nat.mul_comm _ _

theorem bucketApply_length (g : List EntityId → List EntityId) (s : SpatialBuckets)
    (x y : Int) : (bucketApply g s x y).buckets.length = s.buckets.length := by
  simp [bucketApply]

/-- A state with the same dimensions and bucket count as a well-formed one
is well-formed. -/
theorem WellFormed_of_eq (s s2 : SpatialBuckets) (hWF : s.WellFormed)
    (hw : s2.width = s.width) (hh : s2.height = s.height)
    (hl : s2.buckets.length = s.buckets.length) : s2.WellFormed := by
  obtain ⟨h1, h2, h3⟩ := hWF
  exact ⟨by rw [hw]; exact h1, by rw [hh]; exact h2, by rw [hl, h3, hw, hh]⟩

/-- The single-cell mutation: the addressed cell gets g applied, every
other in-range cell is untouched. -/
theorem bucketApply_cellAt (g : List EntityId → List EntityId) (s : SpatialBuckets)
    (hWF : s.WellFormed) (x y : Int) (hx : wrapPoint x < s.width)
    (hy : wrapPoint y < s.height) (cx cy : Nat) (hcx : cx < s.width)
    (hcy : cy < s.height) :
    cellAt (bucketApply g s x y) cx cy =
      if wrapPoint x = cx ∧ wrapPoint y = cy then g (cellAt s cx cy)
      else cellAt s cx cy := by
  obtain ⟨hw1, hh1, hlen⟩ := hWF
  by_cases heq : wrapPoint x = cx ∧ wrapPoint y = cy
  · obtain ⟨hex, hey⟩ := heq
    rw [if_pos ⟨hex, hey⟩]
    show (s.buckets.set (wrapPoint y * s.width + wrapPoint x) _).getD
      (cy * s.width + cx) [] = _
    rw [← hex, ← hey]
    exact getD_set_eq _ _ _ _ (by rw [hlen]; exact flatIndex_lt _ _ _ _ hx hy)
  · rw [if_neg heq]
    show (s.buckets.set (wrapPoint y * s.width + wrapPoint x) _).getD
      (cy * s.width + cx) [] = _
    refine getD_set_ne _ _ _ _ _ ?_
    intro hidx
    exact heq (flatIndex_inj s.width _ _ _ _ hx hcx hidx)

/-- Folding the cell mutation down one row keeps every dimension and the
bucket count. -/
theorem foldRow_dims (g : List EntityId → List EntityId) (x : Int) (ys : List Int)
    (s : SpatialBuckets) :
    (ys.foldl (fun s2 y => bucketApply g s2 x y) s).width = s.width ∧
    (ys.foldl (fun s2 y => bucketApply g s2 x y) s).height = s.height ∧
    (ys.foldl (fun s2 y => bucketApply g s2 x y) s).bucket_width = s.bucket_width ∧
    (ys.foldl (fun s2 y => bucketApply g s2 x y) s).bucket_height = s.bucket_height ∧
    (ys.foldl (fun s2 y => bucketApply g s2 x y) s).buckets.length = s.buckets.length := by
  induction ys generalizing s with
  | nil => exact ⟨rfl, rfl, rfl, rfl, rfl⟩
  | cons y ys ih =>
      simp only [List.foldl_cons]
      obtain ⟨i1, i2, i3, i4, i5⟩ := ih (bucketApply g s x y)
      exact ⟨i1, i2, i3, i4, i5.trans (bucketApply_length g s x y)⟩

/-- The effect of one row of the cell loop on a single in-range cell:
g is applied once exactly when the cell's column is the walked column and
its row is one of the walked rows. -/
theorem foldRow_cellAt (g : List EntityId → List EntityId) (s : SpatialBuckets)
    (hWF : s.WellFormed) (x : Int) (ys : List Int)
    (hx : wrapPoint x < s.width)
    (hys : ∀ y ∈ ys, wrapPoint y < s.height)
    (hnd : (ys.map wrapPoint).Nodup)
    (cx cy : Nat) (hcx : cx < s.width) (hcy : cy < s.height) :
    cellAt (ys.foldl (fun s2 y => bucketApply g s2 x y) s) cx cy =
      if wrapPoint x = cx ∧ cy ∈ ys.map wrapPoint then g (cellAt s cx cy)
      else cellAt s cx cy := by
  induction ys generalizing s with
  | nil => simp
  | cons y ys ih =>
      simp only [List.map_cons, List.nodup_cons] at hnd
      obtain ⟨hndy, hndt⟩ := hnd
      have hWF2 : (bucketApply g s x y).WellFormed :=
        WellFormed_of_eq s _ hWF rfl rfl (bucketApply_length g s x y)
      simp only [List.foldl_cons]
      rw [ih (bucketApply g s x y) hWF2 hx (fun z hz => hys z (List.mem_cons_of_mem _ hz))
        hndt hcx hcy]
      rw [bucketApply_cellAt g s ⟨hWF.1, hWF.2.1, hWF.2.2⟩ x y hx
        (hys y (List.mem_cons_self _ _)) cx cy hcx hcy]
      rw [List.map_cons]
      by_cases hC : cy ∈ ys.map wrapPoint
      · have hB : ¬ wrapPoint y = cy := by
          intro hB
          exact hndy (hB ▸ hC)
        by_cases hA : wrapPoint x = cx
        · rw [if_pos ⟨hA, hC⟩, if_neg (fun hab => hB hab.2),
            if_pos ⟨hA, List.mem_cons_of_mem _ hC⟩]
        · rw [if_neg (fun hab => hA hab.1), if_neg (fun hab => hA hab.1),
            if_neg (fun hab => hA hab.1)]
      · by_cases hA : wrapPoint x = cx
        · by_cases hB : wrapPoint y = cy
          · rw [if_neg (fun hab => hC hab.2), if_pos ⟨hA, hB⟩,
              if_pos ⟨hA, by rw [List.mem_cons]; exact Or.inl hB.symm⟩]
          · rw [if_neg (fun hab => hC hab.2), if_neg (fun hab => hB hab.2), if_neg ?_]
            rintro ⟨-, hmem⟩
            rw [List.mem_cons] at hmem
            rcases hmem with hmem | hmem
            · exact hB hmem.symm
            · exact hC hmem
        · rw [if_neg (fun hab => hA hab.1), if_neg (fun hab => hA hab.1),
            if_neg (fun hab => hA hab.1)]

/-- The full nested cell loop keeps every dimension and the bucket count. -/
theorem applyCells_dims (g : List EntityId → List EntityId) (s : SpatialBuckets)
    (xs ys : List Int) :
    (applyCells g s xs ys).width = s.width ∧
    (applyCells g s xs ys).height = s.height ∧
    (applyCells g s xs ys).bucket_width = s.bucket_width ∧
    (applyCells g s xs ys).bucket_height = s.bucket_height ∧
    (applyCells g s xs ys).buckets.length = s.buckets.length := by
  induction xs generalizing s with
  | nil => exact ⟨rfl, rfl, rfl, rfl, rfl⟩
  | cons x xs ih =>
      unfold applyCells at *
      simp only [List.foldl_cons]
      obtain ⟨i1, i2, i3, i4, i5⟩ :=
        ih (ys.foldl (fun s2 y => bucketApply g s2 x y) s)
      obtain ⟨j1, j2, j3, j4, j5⟩ := foldRow_dims g x ys s
      exact ⟨i1.trans j1, i2.trans j2, i3.trans j3, i4.trans j4, i5.trans j5⟩

/-- The effect of the nested cell loop on a single in-range cell: g is
applied once exactly when the cell is in the wrapped walked rectangle. -/
theorem applyCells_cellAt (g : List EntityId → List EntityId) (s : SpatialBuckets)
    (hWF : s.WellFormed) (xs ys : List Int)
    (hxs : ∀ x ∈ xs, wrapPoint x < s.width)
    (hys : ∀ y ∈ ys, wrapPoint y < s.height)
    (hndx : (xs.map wrapPoint).Nodup)
    (hndy : (ys.map wrapPoint).Nodup)
    (cx cy : Nat) (hcx : cx < s.width) (hcy : cy < s.height) :
    cellAt (applyCells g s xs ys) cx cy =
      if cx ∈ xs.map wrapPoint ∧ cy ∈ ys.map wrapPoint then g (cellAt s cx cy)
      else cellAt s cx cy := by
  induction xs generalizing s with
  | nil => simp [applyCells]
  | cons x xs ih =>
      simp only [List.map_cons, List.nodup_cons] at hndx
      obtain ⟨hndh, hndt⟩ := hndx
      unfold applyCells
      simp only [List.foldl_cons]
      obtain ⟨j1, j2, j3, j4, j5⟩ := foldRow_dims g x ys s
      have hWF2 : (ys.foldl (fun s2 y => bucketApply g s2 x y) s).WellFormed :=
        WellFormed_of_eq s _ hWF j1 j2 j5
      have hrow := foldRow_cellAt g s hWF x ys (hxs x (List.mem_cons_self _ _)) hys hndy
        cx cy hcx hcy
      have hrest := ih (ys.foldl (fun s2 y => bucketApply g s2 x y) s) hWF2
        (fun z hz => j1 ▸ hxs z (List.mem_cons_of_mem _ hz)) (fun z hz => j2 ▸ hys z hz)
        hndt (j1 ▸ hcx) (j2 ▸ hcy)
      rw [show applyCells g (ys.foldl (fun s2 y => bucketApply g s2 x y) s) xs ys =
        xs.foldl (fun s1 x2 => ys.foldl (fun s2 y => bucketApply g s2 x2 y) s1)
          (ys.foldl (fun s2 y => bucketApply g s2 x y) s) from rfl] at hrest
      rw [hrest, hrow]
      rw [List.map_cons]
      by_cases hC : cx ∈ xs.map wrapPoint
      · have hA : ¬ wrapPoint x = cx := by
          intro hA
          exact hndh (hA ▸ hC)
        by_cases hY : cy ∈ ys.map wrapPoint
        · rw [if_pos ⟨hC, hY⟩, if_neg (fun hab => hA hab.1),
            if_pos ⟨List.mem_cons_of_mem _ hC, hY⟩]
        · rw [if_neg (fun hab => hY hab.2), if_neg (fun hab => hA hab.1),
            if_neg (fun hab => hY hab.2)]
      · by_cases hA : wrapPoint x = cx
        · by_cases hY : cy ∈ ys.map wrapPoint
          · rw [if_neg (fun hab => hC hab.1), if_pos ⟨hA, hY⟩,
              if_pos ⟨by rw [List.mem_cons]; exact Or.inl hA.symm, hY⟩]
          · rw [if_neg (fun hab => hY hab.2), if_neg (fun hab => hY hab.2),
              if_neg (fun hab => hY hab.2)]
        · rw [if_neg (fun hab => hC hab.1), if_neg (fun hab => hA hab.1), if_neg ?_]
          rintro ⟨hmem, -⟩
          rw [List.mem_cons] at hmem
          rcases hmem with hmem | hmem
          · exact hA hmem.symm
          · exact hC hmem

/-- A handle absent from every bucket is absent from every cell read. -/
theorem cellAt_not_mem (s : SpatialBuckets) (id : EntityId)
    (habs : ∀ b ∈ s.buckets, id ∉ b) (cx cy : Nat) : id ∉ cellAt s cx cy := by
  unfold cellAt
  rw [List.getD_eq_getElem?_getD]
  cases hget : s.buckets[cy * s.width + cx]? with
  | none => simp
  | some b =>
      simp only [Option.getD_some]
      exact habs b (List.getElem?_mem hget)

/-- C10: the broad-phase query nearby mutates the spatial hash only by
growing it before reading: the state it hands back is well-formed, its
grid dimensions are the old ones scaled by a common power of two, the
fixed cell size is unchanged, every pre-existing cell keeps exactly its
old contents at the same cell coordinates, and every cell that did not
exist before is empty — so no bucket's handle list is otherwise changed
by the query. -/
theorem c10_nearby_growth_frame (s : SpatialBuckets) (hWF : s.WellFormed)
    (id : EntityId) (t : Transform) (a : AABB) :
    ((s.nearby id t a).1).WellFormed ∧
    (∃ k, ((s.nearby id t a).1).width = s.width * 2 ^ k ∧
      ((s.nearby id t a).1).height = s.height * 2 ^ k) ∧
    ((s.nearby id t a).1).bucket_width = s.bucket_width ∧
    ((s.nearby id t a).1).bucket_height = s.bucket_height ∧
    (∀ cx cy, cx < s.width → cy < s.height →
      cellAt ((s.nearby id t a).1) cx cy = cellAt s cx cy) ∧
    (∀ cx cy, cx < ((s.nearby id t a).1).width →
      cy < ((s.nearby id t a).1).height →
      (cx < s.width ∧ cy < s.height) ∨ cellAt ((s.nearby id t a).1) cx cy = []) := by
  have hg : (s.nearby id t a).1 =
      s.grow (wrapPoint (s.point_to_cell (t.x + a.dx) (t.y + a.dy)).1)
        (wrapPoint (s.point_to_cell (t.x + a.dx + a.width) (t.y + a.dy + a.height)).1)
        (wrapPoint (s.point_to_cell (t.x + a.dx) (t.y + a.dy)).2)
        (wrapPoint (s.point_to_cell (t.x + a.dx + a.width) (t.y + a.dy + a.height)).2) :=
    rfl
  rw [hg]
  obtain ⟨h1, _, hk, h4, h5, h6, h7⟩ := grow_spec s hWF _ _ _ _
  exact ⟨h1, hk, h4, h5, h6, h7⟩

theorem c10_witness :
    (SpatialBuckets.new 1 1).WellFormed ∧
    ((((SpatialBuckets.new 1 1).nearby ⟨0, 0⟩ ⟨0, 0⟩ ⟨0, 0, 0, 0⟩).1).WellFormed ∧
    (∃ k, (((SpatialBuckets.new 1 1).nearby ⟨0, 0⟩ ⟨0, 0⟩ ⟨0, 0, 0, 0⟩).1).width =
        (SpatialBuckets.new 1 1).width * 2 ^ k ∧
      (((SpatialBuckets.new 1 1).nearby ⟨0, 0⟩ ⟨0, 0⟩ ⟨0, 0, 0, 0⟩).1).height =
        (SpatialBuckets.new 1 1).height * 2 ^ k) ∧
    (((SpatialBuckets.new 1 1).nearby ⟨0, 0⟩ ⟨0, 0⟩ ⟨0, 0, 0, 0⟩).1).bucket_width =
      (SpatialBuckets.new 1 1).bucket_width ∧
    (((SpatialBuckets.new 1 1).nearby ⟨0, 0⟩ ⟨0, 0⟩ ⟨0, 0, 0, 0⟩).1).bucket_height =
      (SpatialBuckets.new 1 1).bucket_height ∧
    (∀ cx cy, cx < (SpatialBuckets.new 1 1).width →
      cy < (SpatialBuckets.new 1 1).height →
      cellAt (((SpatialBuckets.new 1 1).nearby ⟨0, 0⟩ ⟨0, 0⟩ ⟨0, 0, 0, 0⟩).1) cx cy =
        cellAt (SpatialBuckets.new 1 1) cx cy) ∧
    (∀ cx cy, cx < (((SpatialBuckets.new 1 1).nearby ⟨0, 0⟩ ⟨0, 0⟩ ⟨0, 0, 0, 0⟩).1).width →
      cy < (((SpatialBuckets.new 1 1).nearby ⟨0, 0⟩ ⟨0, 0⟩ ⟨0, 0, 0, 0⟩).1).height →
      (cx < (SpatialBuckets.new 1 1).width ∧ cy < (SpatialBuckets.new 1 1).height) ∨
        cellAt (((SpatialBuckets.new 1 1).nearby ⟨0, 0⟩ ⟨0, 0⟩ ⟨0, 0, 0, 0⟩).1) cx cy =
          [])) :=
  ⟨⟨by decide, by decide, by decide⟩,
    c10_nearby_growth_frame (SpatialBuckets.new 1 1) ⟨by decide, by decide, by decide⟩
      ⟨0, 0⟩ ⟨0, 0⟩ ⟨0, 0, 0, 0⟩⟩

/-- C6 (amended): on a well-formed hash in which the handle occurs in no
bucket, insert followed by remove restores every pre-existing cell, and a
lone remove of the absent handle changes no pre-existing cell.  The
absence precondition is needed: remove strips every occurrence of the
handle, so a prior occurrence in a touched bucket is lost (see the
counterexample). -/
theorem c6_insert_remove_roundtrip (s : SpatialBuckets) (hWF : s.WellFormed)
    (id : EntityId) (t : Transform) (a : AABB)
    (habs : ∀ b ∈ s.buckets, id ∉ b) :
    (∀ cx cy, cx < s.width → cy < s.height →
      cellAt ((s.insert id t a).remove id t a) cx cy = cellAt s cx cy) ∧
    (∀ cx cy, cx < s.width → cy < s.height →
      cellAt (s.remove id t a) cx cy = cellAt s cx cy) := by
  obtain ⟨gWF, gfit, ⟨k, hkw, hkh⟩, gbw, gbh, gold, gnew⟩ :=
    grow_spec s hWF
      (wrapPoint (s.point_to_cell (t.x + a.dx) (t.y + a.dy)).1)
      (wrapPoint (s.point_to_cell (t.x + a.dx + a.width) (t.y + a.dy + a.height)).1)
      (wrapPoint (s.point_to_cell (t.x + a.dx) (t.y + a.dy)).2)
      (wrapPoint (s.point_to_cell (t.x + a.dx + a.width) (t.y + a.dy + a.height)).2)
  set c1x : Int := (s.point_to_cell (t.x + a.dx) (t.y + a.dy)).1 with hc1x
  set c2x : Int := (s.point_to_cell (t.x + a.dx + a.width) (t.y + a.dy + a.height)).1
    with hc2x
  set c1y : Int := (s.point_to_cell (t.x + a.dx) (t.y + a.dy)).2 with hc1y
  set c2y : Int := (s.point_to_cell (t.x + a.dx + a.width) (t.y + a.dy + a.height)).2
    with hc2y
  set sg : SpatialBuckets :=
    s.grow (wrapPoint c1x) (wrapPoint c2x) (wrapPoint c1y) (wrapPoint c2y) with hsg
  have hins : s.insert id t a =
      applyCells (fun l => l ++ [id]) sg (intRange c1x c2x) (intRange c1y c2y) := rfl
  have hswidth : s.width ≤ sg.width := by
    rw [hkw]
    exact Nat.le_mul_of_pos_right _ (Nat.pos_pow_of_pos _ (by omega))
  have hsheight : s.height ≤ sg.height := by
    rw [hkh]
    exact Nat.le_mul_of_pos_right _ (Nat.pos_pow_of_pos _ (by omega))
  have hxs : ∀ x ∈ intRange c1x c2x, wrapPoint x < sg.width := by
    intro x hx
    rw [mem_intRange] at hx
    exact wrapPoint_lt_of_between c1x c2x x _ hx.1 hx.2 gfit.1 gfit.2.1
  have hys : ∀ y ∈ intRange c1y c2y, wrapPoint y < sg.height := by
    intro y hy
    rw [mem_intRange] at hy
    exact wrapPoint_lt_of_between c1y c2y y _ hy.1 hy.2 gfit.2.2.1 gfit.2.2.2
  have hfilter : ∀ cx cy, cx < s.width → cy < s.height →
      (cellAt s cx cy).filter (fun v => v ≠ id) = cellAt s cx cy := by
    intro cx cy hcx hcy
    refine List.filter_eq_self.mpr (fun e he => ?_)
    exact decide_eq_true (fun heq => cellAt_not_mem s id habs cx cy (heq ▸ he))
  refine ⟨?_, ?_⟩
  · -- insert then remove
    set si : SpatialBuckets :=
      applyCells (fun l => l ++ [id]) sg (intRange c1x c2x) (intRange c1y c2y) with hsi
    obtain ⟨dw, dh, dbw, dbh, dl⟩ :=
      applyCells_dims (fun l => l ++ [id]) sg (intRange c1x c2x) (intRange c1y c2y)
    have hiWF : si.WellFormed := WellFormed_of_eq sg si gWF dw dh dl
    have hpc1 : si.point_to_cell (t.x + a.dx) (t.y + a.dy) =
        s.point_to_cell (t.x + a.dx) (t.y + a.dy) := by
      unfold SpatialBuckets.point_to_cell
      rw [dbw, dbh, gbw, gbh]
    have hpc2 : si.point_to_cell (t.x + a.dx + a.width) (t.y + a.dy + a.height) =
        s.point_to_cell (t.x + a.dx + a.width) (t.y + a.dy + a.height) := by
      unfold SpatialBuckets.point_to_cell
      rw [dbw, dbh, gbw, gbh]
    have hrem : si.remove id t a =
        retainCells (si.grow (wrapPoint (si.point_to_cell (t.x + a.dx) (t.y + a.dy)).1)
          (wrapPoint (si.point_to_cell (t.x + a.dx + a.width) (t.y + a.dy + a.height)).1)
          (wrapPoint (si.point_to_cell (t.x + a.dx) (t.y + a.dy)).2)
          (wrapPoint (si.point_to_cell (t.x + a.dx + a.width) (t.y + a.dy + a.height)).2))
          id
          (intRange (si.point_to_cell (t.x + a.dx) (t.y + a.dy)).1
            (si.point_to_cell (t.x + a.dx + a.width) (t.y + a.dy + a.height)).1)
          (intRange (si.point_to_cell (t.x + a.dx) (t.y + a.dy)).2
            (si.point_to_cell (t.x + a.dx + a.width) (t.y + a.dy + a.height)).2) := rfl
    rw [hpc1, hpc2, ← hc1x, ← hc2x, ← hc1y, ← hc2y] at hrem
    have hfits : fitsDims si.width si.height (wrapPoint c1x) (wrapPoint c2x)
        (wrapPoint c1y) (wrapPoint c2y) := by
      rw [dw, dh]
      exact gfit
    rw [grow_eq_self_of_fits si _ _ _ _ hfits] at hrem
    intro cx cy hcx hcy
    have hcxg : cx < sg.width := Nat.lt_of_lt_of_le hcx hswidth
    have hcyg : cy < sg.height := Nat.lt_of_lt_of_le hcy hsheight
    have hpushed := applyCells_cellAt (fun l => l ++ [id]) sg gWF
      (intRange c1x c2x) (intRange c1y c2y) hxs hys
      (intRange_map_wrap_nodup c1x c2x) (intRange_map_wrap_nodup c1y c2y)
      cx cy hcxg hcyg
    have hretained := applyCells_cellAt (fun l => l.filter (fun v => v ≠ id)) si hiWF
      (intRange c1x c2x) (intRange c1y c2y)
      (fun x hx => dw ▸ hxs x hx) (fun y hy => dh ▸ hys y hy)
      (intRange_map_wrap_nodup c1x c2x) (intRange_map_wrap_nodup c1y c2y)
      cx cy (dw ▸ hcxg) (dh ▸ hcyg)
    show cellAt (si.remove id t a) cx cy = cellAt s cx cy
    rw [hrem, retainCells_eq_apply, hretained, hpushed, gold cx cy hcx hcy]
    split_ifs with hcond
    · show (cellAt s cx cy ++ [id]).filter (fun v => v ≠ id) = cellAt s cx cy
      rw [List.filter_append]
      rw [hfilter cx cy hcx hcy]
      have hid : ([id].filter (fun v => v ≠ id)) = [] := by
        simp
      rw [hid, List.append_nil]
    · rfl
  · -- a lone remove of the absent handle
    have hrem : s.remove id t a =
        retainCells sg id (intRange c1x c2x) (intRange c1y c2y) := rfl
    intro cx cy hcx hcy
    have hcxg : cx < sg.width := Nat.lt_of_lt_of_le hcx hswidth
    have hcyg : cy < sg.height := Nat.lt_of_lt_of_le hcy hsheight
    have hretained := applyCells_cellAt (fun l => l.filter (fun v => v ≠ id)) sg gWF
      (intRange c1x c2x) (intRange c1y c2y) hxs hys
      (intRange_map_wrap_nodup c1x c2x) (intRange_map_wrap_nodup c1y c2y)
      cx cy hcxg hcyg
    rw [hrem, retainCells_eq_apply, hretained, gold cx cy hcx hcy]
    split_ifs with hcond
    · exact hfilter cx cy hcx hcy
    · rfl

/-- The concrete handle, transform and box of the C6 counterexample. -/
def c6id : EntityId := ⟨0, 0⟩

def originT : Transform := ⟨0, 0⟩

def zeroAABB : AABB := ⟨0, 0, 0, 0⟩

/-- On a unit-cell hash whose origin cell already fits, insert with the
C6 data is exactly one push into cell (0, 0). -/
theorem insert_origin_eval (s3 : SpatialBuckets) (id3 : EntityId) (hbw : s3.bucket_width = 1)
    (hbh : s3.bucket_height = 1) (hfit : fitsDims s3.width s3.height 0 0 0 0) :
    s3.insert id3 originT zeroAABB = pushCells s3 id3 [0] [0] := by
  have e3 : originT.x + zeroAABB.dx + zeroAABB.width = (0 : ℝ) := by simp [originT, zeroAABB]
  have e4 : originT.y + zeroAABB.dy + zeroAABB.height = (0 : ℝ) := by simp [originT, zeroAABB]
  have e1 : originT.x + zeroAABB.dx = (0 : ℝ) := by simp [originT, zeroAABB]
  have e2 : originT.y + zeroAABB.dy = (0 : ℝ) := by simp [originT, zeroAABB]
  have hpt : s3.point_to_cell (0 : ℝ) (0 : ℝ) = ((0 : Int), (0 : Int)) := by
    unfold SpatialBuckets.point_to_cell
    rw [hbw, hbh]
    norm_num
  have hw0 : wrapPoint 0 = 0 := by decide
  have hir : intRange 0 0 = [0] := by decide
  show pushCells
    (s3.grow (wrapPoint (s3.point_to_cell (originT.x + zeroAABB.dx) (originT.y + zeroAABB.dy)).1)
      (wrapPoint (s3.point_to_cell (originT.x + zeroAABB.dx + zeroAABB.width)
        (originT.y + zeroAABB.dy + zeroAABB.height)).1)
      (wrapPoint (s3.point_to_cell (originT.x + zeroAABB.dx) (originT.y + zeroAABB.dy)).2)
      (wrapPoint (s3.point_to_cell (originT.x + zeroAABB.dx + zeroAABB.width)
        (originT.y + zeroAABB.dy + zeroAABB.height)).2))
    id3
    (intRange (s3.point_to_cell (originT.x + zeroAABB.dx) (originT.y + zeroAABB.dy)).1
      (s3.point_to_cell (originT.x + zeroAABB.dx + zeroAABB.width) (originT.y + zeroAABB.dy + zeroAABB.height)).1)
    (intRange (s3.point_to_cell (originT.x + zeroAABB.dx) (originT.y + zeroAABB.dy)).2
      (s3.point_to_cell (originT.x + zeroAABB.dx + zeroAABB.width) (originT.y + zeroAABB.dy + zeroAABB.height)).2) =
    pushCells s3 id3 [0] [0]
  rw [e3, e4, e1, e2, hpt]
  show pushCells (s3.grow (wrapPoint 0) (wrapPoint 0) (wrapPoint 0) (wrapPoint 0))
    id3 (intRange 0 0) (intRange 0 0) = pushCells s3 id3 [0] [0]
  rw [hw0, hir, grow_eq_self_of_fits s3 0 0 0 0 hfit]

/-- On a unit-cell hash whose origin cell already fits, remove with the
C6 data is exactly one retain pass over cell (0, 0). -/
theorem remove_origin_eval (s3 : SpatialBuckets) (id3 : EntityId) (hbw : s3.bucket_width = 1)
    (hbh : s3.bucket_height = 1) (hfit : fitsDims s3.width s3.height 0 0 0 0) :
    s3.remove id3 originT zeroAABB = retainCells s3 id3 [0] [0] := by
  have e3 : originT.x + zeroAABB.dx + zeroAABB.width = (0 : ℝ) := by simp [originT, zeroAABB]
  have e4 : originT.y + zeroAABB.dy + zeroAABB.height = (0 : ℝ) := by simp [originT, zeroAABB]
  have e1 : originT.x + zeroAABB.dx = (0 : ℝ) := by simp [originT, zeroAABB]
  have e2 : originT.y + zeroAABB.dy = (0 : ℝ) := by simp [originT, zeroAABB]
  have hpt : s3.point_to_cell (0 : ℝ) (0 : ℝ) = ((0 : Int), (0 : Int)) := by
    unfold SpatialBuckets.point_to_cell
    rw [hbw, hbh]
    norm_num
  have hw0 : wrapPoint 0 = 0 := by decide
  have hir : intRange 0 0 = [0] := by decide
  show retainCells
    (s3.grow (wrapPoint (s3.point_to_cell (originT.x + zeroAABB.dx) (originT.y + zeroAABB.dy)).1)
      (wrapPoint (s3.point_to_cell (originT.x + zeroAABB.dx + zeroAABB.width)
        (originT.y + zeroAABB.dy + zeroAABB.height)).1)
      (wrapPoint (s3.point_to_cell (originT.x + zeroAABB.dx) (originT.y + zeroAABB.dy)).2)
      (wrapPoint (s3.point_to_cell (originT.x + zeroAABB.dx + zeroAABB.width)
        (originT.y + zeroAABB.dy + zeroAABB.height)).2))
    id3
    (intRange (s3.point_to_cell (originT.x + zeroAABB.dx) (originT.y + zeroAABB.dy)).1
      (s3.point_to_cell (originT.x + zeroAABB.dx + zeroAABB.width) (originT.y + zeroAABB.dy + zeroAABB.height)).1)
    (intRange (s3.point_to_cell (originT.x + zeroAABB.dx) (originT.y + zeroAABB.dy)).2
      (s3.point_to_cell (originT.x + zeroAABB.dx + zeroAABB.width) (originT.y + zeroAABB.dy + zeroAABB.height)).2) =
    retainCells s3 id3 [0] [0]
  rw [e3, e4, e1, e2, hpt]
  show retainCells (s3.grow (wrapPoint 0) (wrapPoint 0) (wrapPoint 0) (wrapPoint 0))
    id3 (intRange 0 0) (intRange 0 0) = retainCells s3 id3 [0] [0]
  rw [hw0, hir, grow_eq_self_of_fits s3 0 0 0 0 hfit]

/-- On a unit-cell hash whose origin cell already fits, nearby with the
origin data reads cell (0, 0) without growing. -/
theorem nearby_origin_eval (s3 : SpatialBuckets) (id3 : EntityId)
    (hbw : s3.bucket_width = 1) (hbh : s3.bucket_height = 1)
    (hfit : fitsDims s3.width s3.height 0 0 0 0) :
    s3.nearby id3 originT zeroAABB = (s3, nearbyCollect s3 id3 [0] [0]) := by
  have e3 : originT.x + zeroAABB.dx + zeroAABB.width = (0 : ℝ) := by
    simp [originT, zeroAABB]
  have e4 : originT.y + zeroAABB.dy + zeroAABB.height = (0 : ℝ) := by
    simp [originT, zeroAABB]
  have e1 : originT.x + zeroAABB.dx = (0 : ℝ) := by simp [originT, zeroAABB]
  have e2 : originT.y + zeroAABB.dy = (0 : ℝ) := by simp [originT, zeroAABB]
  have hpt : s3.point_to_cell (0 : ℝ) (0 : ℝ) = ((0 : Int), (0 : Int)) := by
    unfold SpatialBuckets.point_to_cell
    rw [hbw, hbh]
    norm_num
  have hw0 : wrapPoint 0 = 0 := by decide
  have hir : intRange 0 0 = [0] := by decide
  show ((s3.grow (wrapPoint (s3.point_to_cell (originT.x + zeroAABB.dx)
        (originT.y + zeroAABB.dy)).1)
      (wrapPoint (s3.point_to_cell (originT.x + zeroAABB.dx + zeroAABB.width)
        (originT.y + zeroAABB.dy + zeroAABB.height)).1)
      (wrapPoint (s3.point_to_cell (originT.x + zeroAABB.dx) (originT.y + zeroAABB.dy)).2)
      (wrapPoint (s3.point_to_cell (originT.x + zeroAABB.dx + zeroAABB.width)
        (originT.y + zeroAABB.dy + zeroAABB.height)).2)),
    nearbyCollect (s3.grow (wrapPoint (s3.point_to_cell (originT.x + zeroAABB.dx)
        (originT.y + zeroAABB.dy)).1)
      (wrapPoint (s3.point_to_cell (originT.x + zeroAABB.dx + zeroAABB.width)
        (originT.y + zeroAABB.dy + zeroAABB.height)).1)
      (wrapPoint (s3.point_to_cell (originT.x + zeroAABB.dx) (originT.y + zeroAABB.dy)).2)
      (wrapPoint (s3.point_to_cell (originT.x + zeroAABB.dx + zeroAABB.width)
        (originT.y + zeroAABB.dy + zeroAABB.height)).2)) id3
      (intRange (s3.point_to_cell (originT.x + zeroAABB.dx) (originT.y + zeroAABB.dy)).1
        (s3.point_to_cell (originT.x + zeroAABB.dx + zeroAABB.width)
          (originT.y + zeroAABB.dy + zeroAABB.height)).1)
      (intRange (s3.point_to_cell (originT.x + zeroAABB.dx) (originT.y + zeroAABB.dy)).2
        (s3.point_to_cell (originT.x + zeroAABB.dx + zeroAABB.width)
          (originT.y + zeroAABB.dy + zeroAABB.height)).2)) =
    (s3, nearbyCollect s3 id3 [0] [0])
  rw [e3, e4, e1, e2, hpt]
  show ((s3.grow (wrapPoint 0) (wrapPoint 0) (wrapPoint 0) (wrapPoint 0)),
    nearbyCollect (s3.grow (wrapPoint 0) (wrapPoint 0) (wrapPoint 0) (wrapPoint 0)) id3
      (intRange 0 0) (intRange 0 0)) = (s3, nearbyCollect s3 id3 [0] [0])
  rw [hw0, hir, grow_eq_self_of_fits s3 0 0 0 0 hfit]

/-- C6 counterexample: start from a state in which the handle already
occurs in the origin bucket (one prior insert).  A further insert
followed by the matching remove empties the bucket instead of restoring
its prior one-element contents, because remove strips every occurrence. -/
theorem c6_counterexample :
    cellAt ((((SpatialBuckets.new 1 1).insert c6id originT zeroAABB).insert c6id originT zeroAABB).remove
      c6id originT zeroAABB) 0 0 = [] ∧
    cellAt ((SpatialBuckets.new 1 1).insert c6id originT zeroAABB) 0 0 = [c6id] ∧
    cellAt ((((SpatialBuckets.new 1 1).insert c6id originT zeroAABB).insert c6id originT zeroAABB).remove
      c6id originT zeroAABB) 0 0 ≠
      cellAt ((SpatialBuckets.new 1 1).insert c6id originT zeroAABB) 0 0 := by
  have h1 : (SpatialBuckets.new 1 1).insert c6id originT zeroAABB =
      pushCells (SpatialBuckets.new 1 1) c6id [0] [0] :=
    insert_origin_eval _ _ rfl rfl (by decide)
  have h2 : (pushCells (SpatialBuckets.new 1 1) c6id [0] [0]).insert c6id originT zeroAABB =
      pushCells (pushCells (SpatialBuckets.new 1 1) c6id [0] [0]) c6id [0] [0] :=
    insert_origin_eval _ _ rfl rfl (by decide)
  have h3 : (pushCells (pushCells (SpatialBuckets.new 1 1) c6id [0] [0]) c6id
        [0] [0]).remove c6id originT zeroAABB =
      retainCells (pushCells (pushCells (SpatialBuckets.new 1 1) c6id [0] [0]) c6id
        [0] [0]) c6id [0] [0] :=
    remove_origin_eval _ _ rfl rfl (by decide)
  rw [h1, h2, h3]
  refine ⟨by decide, by decide, by decide⟩

theorem c6_witness :
    ((SpatialBuckets.new 1 1).WellFormed ∧
      (∀ b ∈ (SpatialBuckets.new 1 1).buckets, c6id ∉ b)) ∧
    ((∀ cx cy, cx < (SpatialBuckets.new 1 1).width →
      cy < (SpatialBuckets.new 1 1).height →
      cellAt (((SpatialBuckets.new 1 1).insert c6id originT zeroAABB).remove c6id originT zeroAABB) cx cy =
        cellAt (SpatialBuckets.new 1 1) cx cy) ∧
    (∀ cx cy, cx < (SpatialBuckets.new 1 1).width →
      cy < (SpatialBuckets.new 1 1).height →
      cellAt ((SpatialBuckets.new 1 1).remove c6id originT zeroAABB) cx cy =
        cellAt (SpatialBuckets.new 1 1) cx cy)) :=
  ⟨⟨⟨by decide, by decide, by decide⟩, by decide⟩,
    c6_insert_remove_roundtrip (SpatialBuckets.new 1 1)
      ⟨by decide, by decide, by decide⟩ c6id originT zeroAABB (by decide)⟩

/-!  The physics world (world.rs): dense body storage, a sparse handle
index, and the broad-phase hash.  Rust indexing panics and unwraps are
modeled with Option where a claim depends on them and with getD reads
(which the claims keep in bounds) where they cannot fire without a
corrupted world.  -/

structure PhysicsWorld where
  transforms : List Transform
  colliders : List CollisionBody
  owners : List EntityId
  sparse : List (Option Nat)
  broadphase : SpatialBuckets

/-- PhysicsWorld::new.  The constructor passes (bucket_height,
bucket_width) to SpatialBuckets::new in that swapped order. -/
def PhysicsWorld.new (bucket_width bucket_height : ℝ) : PhysicsWorld :=
  ⟨[], [], [], [], SpatialBuckets.new bucket_height bucket_width⟩

/-- The sparse lookup self.sparse[id.uindex()].unwrap(): none models both
the out-of-range index panic and the unwrap of an empty slot. -/
def PhysicsWorld.bodyIndex (w : PhysicsWorld) (id : EntityId) : Option Nat :=
  match w.sparse[id.uindex]? with
  | none => none
  | some o => o

/-- PhysicsWorld::transform. -/
def PhysicsWorld.transformOf (w : PhysicsWorld) (id : EntityId) : Option Transform :=
  (w.bodyIndex id).bind fun i => w.transforms[i]?

/-- PhysicsWorld::collider. -/
def PhysicsWorld.colliderOf (w : PhysicsWorld) (id : EntityId) : Option CollisionBody :=
  (w.bodyIndex id).bind fun i => w.colliders[i]?

/-- One step of the loop of remove_overlapping: look the nearby handle up
and strip every record referencing to_remove from its body. -/
def removeCollisionsStep (to_remove : EntityId) (acc : Option PhysicsWorld)
    (id2 : EntityId) : Option PhysicsWorld :=
  match acc with
  | none => none
  | some w =>
      match w.bodyIndex id2 with
      | none => none
      | some i =>
          match w.colliders[i]? with
          | none => none
          | some cb =>
              some { w with colliders := w.colliders.set i (cb.remove_collision to_remove) }

/-- The loop of remove_overlapping over the nearby handles. -/
def removeCollisionsPass (to_remove : EntityId) (w : PhysicsWorld)
    (ids : List EntityId) : Option PhysicsWorld :=
  ids.foldl (removeCollisionsStep to_remove) (some w)

/-- PhysicsWorld::remove_overlapping: query the broad phase around the
body (which may grow the hash), strip records referencing the body from
every nearby body, then clear the body's own lists. -/
def PhysicsWorld.remove_overlapping (w : PhysicsWorld) (to_remove : EntityId) :
    Option PhysicsWorld :=
  match w.transformOf to_remove with
  | none => none
  | some transform =>
      match w.colliderOf to_remove with
      | none => none
      | some cbody =>
          let nb := w.broadphase.nearby to_remove transform cbody.aabb
          match removeCollisionsPass to_remove { w with broadphase := nb.1 } nb.2 with
          | none => none
          | some w2 =>
              match w2.bodyIndex to_remove with
              | none => none
              | some i =>
                  match w2.colliders[i]? with
                  | none => none
                  | some cb =>
                      some { w2 with
                        colliders := w2.colliders.set i cb.remove_all_collisions }

/-- PhysicsWorld::remove_body: clear overlap records, remove the handle
from the broad phase, then — only if the stored owner matches exactly —
release the slot, popping the last body or swapping it into the hole. -/
def PhysicsWorld.remove_body (w : PhysicsWorld) (id : EntityId) :
    Option PhysicsWorld :=
  match w.remove_overlapping id with
  | none => none
  | some w1 =>
      match w1.transformOf id with
      | none => none
      | some transform =>
          match w1.colliderOf id with
          | none => none
          | some cbody =>
              let w2 := { w1 with
                broadphase := w1.broadphase.remove id transform cbody.aabb }
              match w2.sparse[id.uindex]? with
              | none => none
              | some none => none
              | some (some body) =>
                  if id ≠ w2.owners.getD body default then some w2
                  else if body = w2.transforms.length - 1 then
                    some { w2 with
                      transforms := w2.transforms.dropLast,
                      colliders := w2.colliders.dropLast,
                      owners := w2.owners.dropLast,
                      sparse := w2.sparse.set id.uindex none }
                  else
                    match w2.transforms.getLast? with
                    | none => none
                    | some tl =>
                        match w2.colliders.getLast? with
                        | none => none
                        | some cl =>
                            match w2.owners.getLast? with
                            | none => none
                            | some ol =>
                                some { w2 with
                                  transforms := w2.transforms.dropLast.set body tl,
                                  colliders := w2.colliders.dropLast.set body cl,
                                  owners := w2.owners.dropLast.set body ol,
                                  sparse := (w2.sparse.set id.uindex none).set
                                    ol.uindex (some body) }

/-- PhysicsWorld::create_body (the ECS component registration aside).
The broad-phase insert happens before the generation check, so it is
performed even for a stale handle. -/
def PhysicsWorld.create_body (w : PhysicsWorld) (id : EntityId)
    (transform : Transform) (collider : CollisionBody) : PhysicsWorld :=
  let sparse_index := id.uindex
  let broad := w.broadphase.insert id transform collider.aabb
  let sparse1 := if sparse_index ≥ w.sparse.length then
      w.sparse ++ List.replicate (sparse_index - w.sparse.length + 1) none
    else w.sparse
  match sparse1.getD sparse_index none with
  | some body =>
      if (w.owners.getD body default).gen > id.gen then
        { w with broadphase := broad, sparse := sparse1 }
      else
        { w with
          broadphase := broad,
          sparse := sparse1,
          owners := w.owners.set body id,
          transforms := w.transforms.set body transform,
          colliders := w.colliders.set body collider }
  | none =>
      let body := w.transforms.length
      { w with
        broadphase := broad,
        sparse := sparse1.set sparse_index (some body),
        owners := w.owners ++ [id],
        transforms := w.transforms ++ [transform],
        colliders := w.colliders ++ [collider] }

/-- PhysicsWorld::handle_collision: build the record from the pre-shift
transform, append it to c1's list, and shift t1 by the mtv only when
resolving.  none models the unwrap panic on an absent mtv. -/
def handle_collision (t1 : Transform) (c1 : Collider) (t2 : Transform) (c2 : Collider)
    (e2 : EntityId) (mtv : Option Vec2) (resolve_collisions : Bool) :
    Option (Transform × Collider × Collision) :=
  match mtv with
  | none => none
  | some m =>
      let collision_data : Collision :=
        ⟨t1, c1.shape, c1.collides_with, c1.collision_layer,
         t2, c2.shape, c2.collides_with, c2.collision_layer, e2, m.normalized⟩
      let c1a := { c1 with overlapping := c1.overlapping ++ [collision_data] }
      let t1a := if resolve_collisions then (⟨t1.x + m.x, t1.y + m.y⟩ : Transform)
        else t1
      some (t1a, c1a, collision_data)

/-- The first if-block of PhysicsWorld::update_overlapping_single: when
the first mask matches, run SAT and (on a hit) record and resolve on c1.
Returns the cached SAT result, the possibly shifted t1, the possibly
extended c1 and the collision to hand back. -/
def singleStep1 (t1 : Transform) (c1 : Collider) (t2 : Transform) (c2 : Collider)
    (e2 : EntityId) (resolve_collisions : Bool) :
    Option (Option (Bool × Option Vec2) × Transform × Collider × Option Collision) :=
  if c1.collides_with &&& c2.collision_layer > 0 then
    match seperating_axis_test t1 c1.shape t2 c2.shape with
    | none => none
    | some (collided, mtv) =>
        if collided then
          match handle_collision t1 c1 t2 c2 e2 mtv resolve_collisions with
          | none => none
          | some (t1a, c1a, col) => some (some (collided, mtv), t1a, c1a, some col)
        else some (some (collided, mtv), t1, c1, none)
  else some (none, t1, c1, none)

/-- The second if-block of PhysicsWorld::update_overlapping_single: when
the reverse mask matches and both sides are checked, reuse the cached SAT
result (recomputing it only if the first block never ran), and on a hit
record on c2 with the negated mtv, never resolving. -/
def singleStep2 (t1a : Transform) (c1a : Collider) (e1 : EntityId) (t2 : Transform)
    (c2 : Collider) (check_both : Bool) (result : Option (Bool × Option Vec2))
    (collision : Option Collision) :
    Option (Transform × Collider × Transform × Collider × Option Collision) :=
  if c2.collides_with &&& c1a.collision_layer > 0 ∧ check_both = true then
    match (match result with
           | some r => some r
           | none => seperating_axis_test t1a c1a.shape t2 c2.shape) with
    | none => none
    | some (collided, mtv) =>
        if collided then
          match mtv with
          | none => none
          | some m =>
              match handle_collision t2 c2 t1a c1a e1 (some (-m)) false with
              | none => none
              | some (t2a, c2a, _) => some (t1a, c1a, t2a, c2a, collision)
        else some (t1a, c1a, t2, c2, collision)
  else some (t1a, c1a, t2, c2, collision)

/-- PhysicsWorld::update_overlapping_single: the two if-blocks in
sequence.  The reverse mask reads c1's collision_layer, unchanged by the
first block. -/
def update_overlapping_single (t1 : Transform) (c1 : Collider) (e1 : EntityId)
    (t2 : Transform) (c2 : Collider) (e2 : EntityId)
    (check_both resolve_collisions : Bool) :
    Option (Transform × Collider × Transform × Collider × Option Collision) :=
  match singleStep1 t1 c1 t2 c2 e2 resolve_collisions with
  | none => none
  | some (result, t1a, c1a, collision) =>
      singleStep2 t1a c1a e1 t2 c2 check_both result collision

/-- The inner loop of update_overlapping_partial: one collider of body 1
against every collider of a list from body 2, threading both transforms
and the mutated lists and collecting returned collisions in order. -/
def innerLoop (e1 e2 : EntityId) (check_both resolve : Bool) :
    Transform → Collider → Transform → List Collider →
    Option (Transform × Collider × Transform × List Collider × List Collision)
  | t1, c1, t2, [] => some (t1, c1, t2, [], [])
  | t1, c1, t2, c2 :: rest =>
      match update_overlapping_single t1 c1 e1 t2 c2 e2 check_both resolve with
      | none => none
      | some (t1a, c1a, t2a, c2a, col) =>
          match innerLoop e1 e2 check_both resolve t1a c1a t2a rest with
          | none => none
          | some (t1b, c1b, t2b, restb, cols) =>
              some (t1b, c1b, t2b, c2a :: restb, col.toList ++ cols)

/-- The outer loop of update_overlapping_partial over body 1's list. -/
def outerLoop (e1 e2 : EntityId) (check_both resolve : Bool) :
    Transform → List Collider → Transform → List Collider →
    Option (Transform × List Collider × Transform × List Collider × List Collision)
  | t1, [], t2, cs2 => some (t1, [], t2, cs2, [])
  | t1, c1 :: rest, t2, cs2 =>
      match innerLoop e1 e2 check_both resolve t1 c1 t2 cs2 with
      | none => none
      | some (t1a, c1a, t2a, cs2a, cols1) =>
          match outerLoop e1 e2 check_both resolve t1a rest t2a cs2a with
          | none => none
          | some (t1b, restb, t2b, cs2b, cols2) =>
              some (t1b, c1a :: restb, t2b, cs2b, cols1 ++ cols2)

/-- PhysicsWorld::update_overlapping_partial (named pairs here): the four
passes sensor x sensor, sensor1 x collider2, sensor2 x collider1 (roles
swapped) and collider x collider, sharing the two transforms and lists
throughout; only the last pass resolves and collects collisions. -/
def update_overlapping_pairs (t1 : Transform) (b1 : CollisionBody) (e1 : EntityId)
    (t2 : Transform) (b2 : CollisionBody) (e2 : EntityId) (resolve : Bool) :
    Option (Transform × CollisionBody × Transform × CollisionBody × List Collision) :=
  match outerLoop e1 e2 true false t1 b1.sensors t2 b2.sensors with
  | none => none
  | some (t1a, s1a, t2a, s2a, _) =>
      match outerLoop e1 e2 false false t1a s1a t2a b2.colliders with
      | none => none
      | some (t1b, s1b, t2b, col2b, _) =>
          match outerLoop e2 e1 false false t2b s2a t1b b1.colliders with
          | none => none
          | some (t2c, s2c, t1c, col1c, _) =>
              match outerLoop e1 e2 true resolve t1c col1c t2c col2b with
              | none => none
              | some (t1d, col1d, t2d, col2d, cols) =>
                  some (t1d, { b1 with colliders := col1d, sensors := s1b },
                    t2d, { b2 with colliders := col2d, sensors := s2c }, cols)

/-!  Frame lemmas for remove_overlapping and the stale-generation paths.  -/

/-- A fold of the record-stripping step over a dead accumulator stays
dead. -/
theorem removeCollisionsPass_none (to_remove : EntityId) (ids : List EntityId) :
    ids.foldl (removeCollisionsStep to_remove) none = none := by
  induction ids with
  | nil => rfl
  | cons a l ih => rw [List.foldl_cons]; exact ih

theorem removeCollisionsPass_eq (r : EntityId) (w : PhysicsWorld)
    (ids : List EntityId) :
    removeCollisionsPass r w ids = ids.foldl (removeCollisionsStep r) (some w) := rfl

/-- The record-stripping pass touches only the colliders column. -/
theorem removeCollisionsPass_frame (to_remove : EntityId) (ids : List EntityId) :
    ∀ w w2 : PhysicsWorld, removeCollisionsPass to_remove w ids = some w2 →
    w2.transforms = w.transforms ∧ w2.owners = w.owners ∧ w2.sparse = w.sparse ∧
    w2.broadphase = w.broadphase := by
  induction ids with
  | nil =>
      intro w w2 h
      cases h
      exact ⟨rfl, rfl, rfl, rfl⟩
  | cons a l ih =>
      intro w w2 h
      unfold removeCollisionsPass at h
      rw [List.foldl_cons] at h
      cases hstep : removeCollisionsStep to_remove (some w) a with
      | none =>
          rw [hstep, removeCollisionsPass_none] at h
          cases h
      | some w3 =>
          rw [hstep] at h
          obtain ⟨i1, i2, i3, i4⟩ := ih w3 w2 h
          cases hbi : w.bodyIndex a with
          | none =>
              simp only [removeCollisionsStep, hbi] at hstep
              cases hstep
          | some i =>
              cases hci : w.colliders[i]? with
              | none =>
                  simp only [removeCollisionsStep, hbi, hci] at hstep
                  cases hstep
              | some cb =>
                  simp only [removeCollisionsStep, hbi, hci] at hstep
                  cases hstep
                  exact ⟨i1, i2, i3, i4⟩

/-- Clearing overlap data changes neither the dense columns but the
colliders, nor the sparse index. -/
theorem remove_overlapping_frame (w : PhysicsWorld) (id : EntityId)
    (w1 : PhysicsWorld) (h : w.remove_overlapping id = some w1) :
    w1.transforms = w.transforms ∧ w1.owners = w.owners ∧ w1.sparse = w.sparse := by
  cases het : w.transformOf id with
  | none =>
      simp only [PhysicsWorld.remove_overlapping, het] at h
      cases h
  | some transform =>
  cases hec : w.colliderOf id with
  | none =>
      simp only [PhysicsWorld.remove_overlapping, het, hec] at h
      cases h
  | some cbody =>
  cases hpass : removeCollisionsPass id
      { w with broadphase :=
        (w.broadphase.nearby id transform cbody.aabb).1 }
      (w.broadphase.nearby id transform cbody.aabb).2 with
  | none =>
      simp only [PhysicsWorld.remove_overlapping, het, hec, hpass] at h
      cases h
  | some w2 =>
  obtain ⟨p1, p2, p3, p4⟩ := removeCollisionsPass_frame _ _ _ _ hpass
  cases hbi : w2.bodyIndex id with
  | none =>
      simp only [PhysicsWorld.remove_overlapping, het, hec, hpass, hbi] at h
      cases h
  | some i =>
  cases hci : w2.colliders[i]? with
  | none =>
      simp only [PhysicsWorld.remove_overlapping, het, hec, hpass, hbi, hci] at h
      cases h
  | some cb =>
  simp only [PhysicsWorld.remove_overlapping, het, hec, hpass, hbi, hci] at h
  cases h
  exact ⟨p1, p2, p3⟩

/-- C3 (amended): the stale-generation guards protect the body columns
and the sparse index but not the whole world.  A create_body call whose
handle is strictly older than the stored owner leaves the transforms,
colliders, owners and sparse columns unchanged (the broad-phase insert
has already happened); a remove_body call whose handle does not match
the stored owner leaves the transforms, owners and sparse columns
unchanged (the overlap-record clearing and the broad-phase removal have
already happened). -/
theorem c3_stale_guard_partial_frame :
    (∀ (w : PhysicsWorld) (id : EntityId) (t : Transform) (c : CollisionBody)
      (body : Nat),
      w.sparse.getD id.uindex none = some body →
      (w.owners.getD body default).gen > id.gen →
      (w.create_body id t c).transforms = w.transforms ∧
      (w.create_body id t c).colliders = w.colliders ∧
      (w.create_body id t c).owners = w.owners ∧
      (w.create_body id t c).sparse = w.sparse) ∧
    (∀ (w : PhysicsWorld) (id : EntityId) (w2 : PhysicsWorld) (body : Nat),
      w.sparse[id.uindex]? = some (some body) →
      id ≠ w.owners.getD body default →
      w.remove_body id = some w2 →
      w2.transforms = w.transforms ∧ w2.owners = w.owners ∧
      w2.sparse = w.sparse) := by
  constructor
  · intro w id t c body hb hgen
    have hlen : id.uindex < w.sparse.length := by
      by_contra hcon
      rw [List.getD_eq_default _ _ (by omega)] at hb
      cases hb
    have hpad : ¬ id.uindex ≥ w.sparse.length := by omega
    have hkey : w.create_body id t c =
        { w with broadphase := w.broadphase.insert id t c.aabb } := by
      simp only [PhysicsWorld.create_body, if_neg hpad, hb, if_pos hgen]
    rw [hkey]
    exact ⟨rfl, rfl, rfl, rfl⟩
  · intro w id w2 body hb hgen hrem
    cases heq : w.remove_overlapping id with
    | none =>
        simp only [PhysicsWorld.remove_body, heq] at hrem
        cases hrem
    | some w1 =>
    obtain ⟨f1, f2, f3⟩ := remove_overlapping_frame w id w1 heq
    cases het : w1.transformOf id with
    | none =>
        simp only [PhysicsWorld.remove_body, heq, het] at hrem
        cases hrem
    | some t =>
    cases hec : w1.colliderOf id with
    | none =>
        simp only [PhysicsWorld.remove_body, heq, het, hec] at hrem
        cases hrem
    | some cb =>
    have hsp : w1.sparse[id.uindex]? = some (some body) := by
      rw [f3]
      exact hb
    have hcond : id ≠ w1.owners.getD body default := by
      rw [f2]
      exact hgen
    simp only [PhysicsWorld.remove_body, heq, het, hec, hsp, if_pos hcond] at hrem
    cases hrem
    exact ⟨f1, f2, f3⟩

/-- The live and stale handles of the C3 scenario: same slot index,
different generations. -/
def c3live : EntityId := ⟨0, 1⟩

def c3stale : EntityId := ⟨0, 0⟩

/-- A collision body with no parts and a zero box (create_body accepts
any caller-built CollisionBody). -/
def emptyBody : CollisionBody := ⟨[], [], zeroAABB⟩

/-- The world after registering the live handle in a fresh world. -/
def c3w0val : PhysicsWorld :=
  ⟨[originT], [emptyBody], [c3live], [some 0],
   pushCells (SpatialBuckets.new 1 1) c3live [0] [0]⟩

theorem c3w0_eval :
    (PhysicsWorld.new 1 1).create_body c3live originT emptyBody = c3w0val := by
  have h1 : (PhysicsWorld.new 1 1).create_body c3live originT emptyBody =
      { PhysicsWorld.new 1 1 with
        broadphase := (SpatialBuckets.new 1 1).insert c3live originT zeroAABB,
        sparse := [some 0],
        owners := [c3live],
        transforms := [originT],
        colliders := [emptyBody] } := rfl
  rw [h1, insert_origin_eval _ _ rfl rfl (by decide)]
  rfl

/-- C3 counterexample: a create_body call with a stale handle passes the
generation guard (so the body columns stay), but the broad-phase insert
has already run, so the origin bucket gains the stale handle and the
world is not left unchanged. -/
theorem c3_counterexample :
    c3w0val.sparse.getD c3stale.uindex none = some 0 ∧
    (c3w0val.owners.getD 0 default).gen > c3stale.gen ∧
    cellAt (c3w0val.create_body c3stale originT emptyBody).broadphase 0 0 =
      [c3live, c3stale] ∧
    cellAt c3w0val.broadphase 0 0 = [c3live] ∧
    cellAt (c3w0val.create_body c3stale originT emptyBody).broadphase 0 0 ≠
      cellAt c3w0val.broadphase 0 0 := by
  have hb : (c3w0val.create_body c3stale originT emptyBody).broadphase =
      (pushCells (SpatialBuckets.new 1 1) c3live [0] [0]).insert c3stale originT
        zeroAABB := rfl
  have hins : (pushCells (SpatialBuckets.new 1 1) c3live [0] [0]).insert c3stale
      originT zeroAABB =
      pushCells (pushCells (SpatialBuckets.new 1 1) c3live [0] [0]) c3stale [0] [0] :=
    insert_origin_eval _ _ rfl rfl (by decide)
  refine ⟨by decide, by decide, ?_, by decide, ?_⟩
  · rw [hb, hins]
    decide
  · rw [hb, hins]
    decide

/-- The stale remove leaves the body columns but runs the broad-phase
removal. -/
def c3wRemoved : PhysicsWorld :=
  { c3w0val with
    broadphase := c3w0val.broadphase.remove c3stale originT emptyBody.aabb }

theorem c3_stale_remove_eval : c3w0val.remove_body c3stale = some c3wRemoved := by
  have ht : c3w0val.transformOf c3stale = some originT := rfl
  have hc : c3w0val.colliderOf c3stale = some emptyBody := rfl
  have hcoll : nearbyCollect c3w0val.broadphase c3stale [0] [0] = [c3live] := by
    decide
  have hnb : c3w0val.broadphase.nearby c3stale originT emptyBody.aabb =
      (c3w0val.broadphase, [c3live]) := by
    have h0 : c3w0val.broadphase.nearby c3stale originT zeroAABB =
        (c3w0val.broadphase, nearbyCollect c3w0val.broadphase c3stale [0] [0]) :=
      nearby_origin_eval _ _ rfl rfl (by decide)
    rw [hcoll] at h0
    exact h0
  have hro : c3w0val.remove_overlapping c3stale = some c3w0val := by
    simp only [PhysicsWorld.remove_overlapping, ht, hc, hnb]
    rfl
  have hsp : c3w0val.sparse[c3stale.uindex]? = some (some 0) := rfl
  have hcond : c3stale ≠ c3w0val.owners.getD 0 default := by decide
  simp only [PhysicsWorld.remove_body, hro, ht, hc, hsp, if_pos hcond]
  rfl

theorem c3_witness :
    (c3w0val.sparse.getD c3stale.uindex none = some 0 ∧
     (c3w0val.owners.getD 0 default).gen > c3stale.gen ∧
     c3w0val.sparse[c3stale.uindex]? = some (some 0) ∧
     c3stale ≠ c3w0val.owners.getD 0 default ∧
     c3w0val.remove_body c3stale = some c3wRemoved) ∧
    ((c3w0val.create_body c3stale originT emptyBody).transforms = c3w0val.transforms ∧
     (c3w0val.create_body c3stale originT emptyBody).colliders = c3w0val.colliders ∧
     (c3w0val.create_body c3stale originT emptyBody).owners = c3w0val.owners ∧
     (c3w0val.create_body c3stale originT emptyBody).sparse = c3w0val.sparse) ∧
    (c3wRemoved.transforms = c3w0val.transforms ∧
     c3wRemoved.owners = c3w0val.owners ∧
     c3wRemoved.sparse = c3w0val.sparse) :=
  ⟨⟨by decide, by decide, rfl, by decide, c3_stale_remove_eval⟩,
   c3_stale_guard_partial_frame.1 c3w0val c3stale originT emptyBody 0 (by decide)
     (by decide),
   c3_stale_guard_partial_frame.2 c3w0val c3stale c3wRemoved 0 rfl (by decide)
     c3_stale_remove_eval⟩

/-!  Collision-list consistency under removal (C8).  -/

/-- No collider or sensor of a body holds a record whose opposing handle
is H. -/
def noRecordsOf (cb : CollisionBody) (H : EntityId) : Prop :=
  (∀ c ∈ cb.colliders, ∀ r ∈ c.overlapping, r.entity2 ≠ H) ∧
  (∀ c ∈ cb.sensors, ∀ r ∈ c.overlapping, r.entity2 ≠ H)

/-- The body slot j of the world holds no record referencing H. -/
def cleanAt (w : PhysicsWorld) (H : EntityId) (j : Nat) : Prop :=
  ∀ cbody, w.colliders[j]? = some cbody → noRecordsOf cbody H

theorem remove_collision_clean (cb : CollisionBody) (H : EntityId) :
    noRecordsOf (cb.remove_collision H) H := by
  constructor <;>
  · intro c hc r hr
    rw [CollisionBody.remove_collision] at hc
    simp only [List.mem_map] at hc
    obtain ⟨c0, -, rfl⟩ := hc
    simp only [List.mem_filter] at hr
    exact of_decide_eq_true hr.2

theorem remove_all_clean (cb : CollisionBody) (H : EntityId) :
    noRecordsOf cb.remove_all_collisions H := by
  constructor <;>
  · intro c hc r hr
    rw [CollisionBody.remove_all_collisions] at hc
    simp only [List.mem_map] at hc
    obtain ⟨c0, -, rfl⟩ := hc
    cases hr

/-- The one-step characterization of the record-stripping loop body. -/
theorem removeCollisionsStep_cases (r : EntityId) (w w3 : PhysicsWorld)
    (a : EntityId) (h : removeCollisionsStep r (some w) a = some w3) :
    ∃ i cb, w.bodyIndex a = some i ∧ w.colliders[i]? = some cb ∧
      w3 = { w with colliders := w.colliders.set i (cb.remove_collision r) } := by
  cases hbi : w.bodyIndex a with
  | none =>
      simp only [removeCollisionsStep, hbi] at h
      cases h
  | some i =>
      cases hci : w.colliders[i]? with
      | none =>
          simp only [removeCollisionsStep, hbi, hci] at h
          cases h
      | some cb =>
          simp only [removeCollisionsStep, hbi, hci] at h
          cases h
          exact ⟨i, cb, rfl, hci, rfl⟩


/-- Setting a slot to a record-stripped or cleared body keeps every clean
slot clean. -/
theorem cleanAt_set (w : PhysicsWorld) (H : EntityId) (j i : Nat)
    (cb2 : CollisionBody) (hclean2 : noRecordsOf cb2 H)
    (hj : cleanAt w H j) :
    cleanAt { w with colliders := w.colliders.set i cb2 } H j := by
  intro cbody hcb
  by_cases hij : i = j
  · subst hij
    by_cases hlt : i < w.colliders.length
    · rw [show ({ w with colliders := w.colliders.set i cb2 } :
          PhysicsWorld).colliders[i]? = (w.colliders.set i cb2)[i]? from rfl,
        List.getElem?_set_self hlt] at hcb
      cases hcb
      exact hclean2
    · rw [show ({ w with colliders := w.colliders.set i cb2 } :
          PhysicsWorld).colliders[i]? = (w.colliders.set i cb2)[i]? from rfl,
        List.set_eq_of_length_le (by omega)] at hcb
      exact hj cbody hcb
  · rw [show ({ w with colliders := w.colliders.set i cb2 } :
        PhysicsWorld).colliders[j]? = (w.colliders.set i cb2)[j]? from rfl,
      List.getElem?_set_ne hij] at hcb
    exact hj cbody hcb

/-- The record-stripping pass keeps clean slots clean. -/
theorem pass_clean_preserved (r : EntityId) (j : Nat) (ids : List EntityId) :
    ∀ w w3, cleanAt w r j → removeCollisionsPass r w ids = some w3 →
    cleanAt w3 r j := by
  induction ids with
  | nil =>
      intro w w3 hcl h
      cases h
      exact hcl
  | cons a l ih =>
      intro w w3 hcl h
      unfold removeCollisionsPass at h
      rw [List.foldl_cons] at h
      cases hstep : removeCollisionsStep r (some w) a with
      | none =>
          rw [hstep, removeCollisionsPass_none] at h
          cases h
      | some w4 =>
          rw [hstep] at h
          rw [← removeCollisionsPass_eq] at h
          obtain ⟨i, cb, hbi, hci, rfl⟩ := removeCollisionsStep_cases r w w4 a hstep
          exact ih _ w3 (cleanAt_set w r j i _ (remove_collision_clean cb r) hcl) h

/-- Every slot reached through a handle in the processed list ends the
pass with no record referencing the stripped handle. -/
theorem pass_clean (r : EntityId) (j : Nat) (ids : List EntityId) :
    ∀ w w3 (id2 : EntityId), id2 ∈ ids → w.bodyIndex id2 = some j →
    removeCollisionsPass r w ids = some w3 → cleanAt w3 r j := by
  induction ids with
  | nil =>
      intro w w3 id2 hmem
      cases hmem
  | cons a l ih =>
      intro w w3 id2 hmem hbi2 h
      unfold removeCollisionsPass at h
      rw [List.foldl_cons] at h
      cases hstep : removeCollisionsStep r (some w) a with
      | none =>
          rw [hstep, removeCollisionsPass_none] at h
          cases h
      | some w4 =>
          rw [hstep] at h
          rw [← removeCollisionsPass_eq] at h
          obtain ⟨i, cb, hbi, hci, rfl⟩ := removeCollisionsStep_cases r w w4 a hstep
          rw [List.mem_cons] at hmem
          rcases hmem with rfl | hmem
          · rw [hbi2] at hbi
            injection hbi with hbi
            subst hbi
            refine pass_clean_preserved r j l _ w3 ?_ h
            intro cbody hcb
            have hlt : j < w.colliders.length :=
              (List.getElem?_eq_some.mp hci).1
            rw [show ({ w with colliders :=
                w.colliders.set j (cb.remove_collision r) } :
                PhysicsWorld).colliders[j]? =
                (w.colliders.set j (cb.remove_collision r))[j]? from rfl,
              List.getElem?_set_self hlt] at hcb
            cases hcb
            exact remove_collision_clean cb r
          · exact ih { w with colliders := w.colliders.set i (cb.remove_collision r) }
              w3 id2 hmem hbi2 h

/-- Slots reached by no processed handle keep their exact body. -/
theorem pass_untouched (r : EntityId) (j : Nat) (ids : List EntityId) :
    ∀ w w3, (∀ id2 ∈ ids, w.bodyIndex id2 ≠ some j) →
    removeCollisionsPass r w ids = some w3 →
    w3.colliders[j]? = w.colliders[j]? := by
  induction ids with
  | nil =>
      intro w w3 hno h
      cases h
      rfl
  | cons a l ih =>
      intro w w3 hno h
      unfold removeCollisionsPass at h
      rw [List.foldl_cons] at h
      cases hstep : removeCollisionsStep r (some w) a with
      | none =>
          rw [hstep, removeCollisionsPass_none] at h
          cases h
      | some w4 =>
          rw [hstep] at h
          rw [← removeCollisionsPass_eq] at h
          obtain ⟨i, cb, hbi, hci, rfl⟩ := removeCollisionsStep_cases r w w4 a hstep
          have hij : i ≠ j := by
            intro hij
            exact hno a (List.mem_cons_self _ _) (hij ▸ hbi)
          have hrest := ih
            { w with colliders := w.colliders.set i (cb.remove_collision r) } w3
            (fun id2 hid2 => hno id2 (List.mem_cons_of_mem _ hid2)) h
          rw [hrest]
          exact List.getElem?_set_ne hij

/-- Lookups through an unchanged sparse index agree. -/
theorem bodyIndex_congr (w w2 : PhysicsWorld) (hs : w2.sparse = w.sparse)
    (id : EntityId) : w2.bodyIndex id = w.bodyIndex id := by
  unfold PhysicsWorld.bodyIndex
  rw [hs]

/-- C8 (amended): remove_overlapping clears every record referencing the
removed handle from its own body and from every body the broad-phase
query returns, and leaves every other body slot untouched — so records
referencing the handle survive exactly on bodies the broad phase does not
consider nearby.  The transforms, owners and sparse columns are
unchanged. -/
theorem c8_remove_clears_nearby (w : PhysicsWorld) (H : EntityId)
    (t : Transform) (cb : CollisionBody) (b2 : SpatialBuckets)
    (ids : List EntityId) (w1 : PhysicsWorld)
    (ht : w.transformOf H = some t) (hc : w.colliderOf H = some cb)
    (hnb : w.broadphase.nearby H t cb.aabb = (b2, ids))
    (hro : w.remove_overlapping H = some w1) :
    (∀ i, w.bodyIndex H = some i → cleanAt w1 H i) ∧
    (∀ id2 ∈ ids, ∀ j, w.bodyIndex id2 = some j → cleanAt w1 H j) ∧
    (∀ j, (∀ id2 ∈ ids, w.bodyIndex id2 ≠ some j) → w.bodyIndex H ≠ some j →
      w1.colliders[j]? = w.colliders[j]?) ∧
    w1.transforms = w.transforms ∧ w1.owners = w.owners ∧
    w1.sparse = w.sparse := by
  simp only [PhysicsWorld.remove_overlapping, ht, hc, hnb] at hro
  cases hpass : removeCollisionsPass H { w with broadphase := b2 } ids with
  | none =>
      simp only [hpass] at hro
      cases hro
  | some w2 =>
      simp only [hpass] at hro
      obtain ⟨p1, p2, p3, p4⟩ := removeCollisionsPass_frame _ _ _ _ hpass
      have hbieq : ∀ id2, w2.bodyIndex id2 = w.bodyIndex id2 := fun id2 =>
        bodyIndex_congr _ _ p3 id2
      cases hbi : w2.bodyIndex H with
      | none =>
          simp only [hbi] at hro
          cases hro
      | some i =>
          simp only [hbi] at hro
          cases hci : w2.colliders[i]? with
          | none =>
              simp only [hci] at hro
              cases hro
          | some cbi =>
              simp only [hci] at hro
              cases hro
              have hlt : i < w2.colliders.length :=
                (List.getElem?_eq_some.mp hci).1
              refine ⟨?_, ?_, ?_, p1, p2, p3⟩
              · intro i2 hbi2
                rw [← hbieq, hbi] at hbi2
                injection hbi2 with hbi2
                rw [← hbi2]
                intro cbody hcb
                rw [show ({ w2 with colliders :=
                    w2.colliders.set i cbi.remove_all_collisions } :
                    PhysicsWorld).colliders[i]? =
                    (w2.colliders.set i cbi.remove_all_collisions)[i]? from rfl,
                  List.getElem?_set_self hlt] at hcb
                cases hcb
                exact remove_all_clean cbi H
              · intro id2 hid2 j hbj
                have hbj2 : ({ w with broadphase := b2 } :
                    PhysicsWorld).bodyIndex id2 = some j := hbj
                have hcl2 : cleanAt w2 H j :=
                  pass_clean H j ids _ w2 id2 hid2 hbj2 hpass
                exact cleanAt_set w2 H j i _ (remove_all_clean cbi H) hcl2
              · intro j hno hHj
                have hij : i ≠ j := by
                  intro hij
                  subst hij
                  exact hHj ((hbieq H).symm.trans hbi)
                rw [show ({ w2 with colliders :=
                    w2.colliders.set i cbi.remove_all_collisions } :
                    PhysicsWorld).colliders[j]? =
                    (w2.colliders.set i cbi.remove_all_collisions)[j]? from rfl,
                  List.getElem?_set_ne hij]
                have hno2 : ∀ id2 ∈ ids, ({ w with broadphase := b2 } :
                    PhysicsWorld).bodyIndex id2 ≠ some j := fun id2 hid2 => hno id2 hid2
                rw [pass_untouched H j ids _ w2 hno2 hpass]

/-- The removed handle and the distant body of the C8 scenario. -/
def c8H : EntityId := ⟨0, 0⟩

def c8B : EntityId := ⟨1, 0⟩

def c8tB : Transform := ⟨1, 0⟩

/-- A record held by body B whose opposing handle is H. -/
def c8rec : Collision :=
  ⟨originT, .Circle 1, 1, 1, originT, .Circle 1, 1, 1, c8H, ⟨1, 0⟩⟩

def c8colB : Collider := ⟨.Circle 1, 1, 1, [c8rec]⟩

def c8bodyB : CollisionBody := ⟨[c8colB], [], zeroAABB⟩

/-- A 4 x 1 unit-cell grid with H in cell (0,0) and B in cell (1,0)
(wrapped column 2): different buckets. -/
def c8spatial4 : SpatialBuckets := ⟨[[c8H], [], [c8B], []], 1, 1, 4, 1⟩

def c8w : PhysicsWorld :=
  ⟨[originT, c8tB], [emptyBody, c8bodyB], [c8H, c8B], [some 0, some 1], c8spatial4⟩

/-- The world after removing H: B was swapped into slot 0, record intact. -/
def c8w2val : PhysicsWorld :=
  ⟨[c8tB], [c8bodyB], [c8B], [none, some 0], retainCells c8spatial4 c8H [0] [0]⟩

theorem c8_remove_body_eval : c8w.remove_body c8H = some c8w2val := by
  have ht : c8w.transformOf c8H = some originT := rfl
  have hc : c8w.colliderOf c8H = some emptyBody := rfl
  have hcoll : nearbyCollect c8spatial4 c8H [0] [0] = [] := by decide
  have hnb : c8w.broadphase.nearby c8H originT emptyBody.aabb =
      (c8spatial4, []) := by
    have h0 : c8spatial4.nearby c8H originT zeroAABB =
        (c8spatial4, nearbyCollect c8spatial4 c8H [0] [0]) :=
      nearby_origin_eval _ _ rfl rfl (by decide)
    rw [hcoll] at h0
    exact h0
  have hro : c8w.remove_overlapping c8H = some c8w := by
    simp only [PhysicsWorld.remove_overlapping, ht, hc, hnb]
    rfl
  have hrm : c8w.broadphase.remove c8H originT emptyBody.aabb =
      retainCells c8spatial4 c8H [0] [0] :=
    remove_origin_eval _ _ rfl rfl (by decide)
  have hsp : c8w.sparse[c8H.uindex]? = some (some 0) := rfl
  have hcond1 : ¬ c8H ≠ c8w.owners.getD 0 default := by decide
  have hcond2 : ¬ (0 = c8w.transforms.length - 1) := by decide
  have hgl1 : c8w.transforms.getLast? = some c8tB := rfl
  have hgl2 : c8w.colliders.getLast? = some c8bodyB := rfl
  have hgl3 : c8w.owners.getLast? = some c8B := rfl
  simp only [PhysicsWorld.remove_body, hro, ht, hc, hrm, hsp, if_neg hcond1,
    if_neg hcond2, hgl1, hgl2, hgl3]
  rfl

/-- C8 counterexample: H's removal is processed with a matching
generation (its slot is reclaimed and B swapped down), yet the live body
B — whose bucket the broad-phase query around H does not visit — still
holds a Collision record whose opposing handle is H. -/
theorem c8_counterexample :
    c8w.remove_body c8H = some c8w2val ∧
    c8w2val.owners = [c8B] ∧
    ((c8w2val.colliders.getD 0 emptyBody).colliders.getD 0
      ⟨.Circle 0, 0, 0, []⟩).overlapping.map (fun r => r.entity2) = [c8H] :=
  ⟨c8_remove_body_eval, by decide, by decide⟩

/-- The single-body world of the C8 witness. -/
def c8spatial1 : SpatialBuckets := ⟨[[c8H]], 1, 1, 1, 1⟩

def c8w1 : PhysicsWorld := ⟨[originT], [emptyBody], [c8H], [some 0], c8spatial1⟩

theorem c8_nearby_w1_eval : c8w1.broadphase.nearby c8H originT emptyBody.aabb =
    (c8spatial1, []) := by
  have h0 : c8spatial1.nearby c8H originT zeroAABB =
      (c8spatial1, nearbyCollect c8spatial1 c8H [0] [0]) :=
    nearby_origin_eval _ _ rfl rfl (by decide)
  have hcoll : nearbyCollect c8spatial1 c8H [0] [0] = [] := by decide
  rw [hcoll] at h0
  exact h0

theorem c8_remove_overlapping_w1_eval :
    c8w1.remove_overlapping c8H = some c8w1 := by
  simp only [PhysicsWorld.remove_overlapping,
    show c8w1.transformOf c8H = some originT from rfl,
    show c8w1.colliderOf c8H = some emptyBody from rfl, c8_nearby_w1_eval]
  rfl

theorem c8_witness :
    (c8w1.transformOf c8H = some originT ∧
     c8w1.colliderOf c8H = some emptyBody ∧
     c8w1.broadphase.nearby c8H originT emptyBody.aabb = (c8spatial1, []) ∧
     c8w1.remove_overlapping c8H = some c8w1) ∧
    ((∀ i, c8w1.bodyIndex c8H = some i → cleanAt c8w1 c8H i) ∧
     (∀ id2 ∈ ([] : List EntityId), ∀ j, c8w1.bodyIndex id2 = some j →
       cleanAt c8w1 c8H j) ∧
     (∀ j, (∀ id2 ∈ ([] : List EntityId), c8w1.bodyIndex id2 ≠ some j) →
       c8w1.bodyIndex c8H ≠ some j → c8w1.colliders[j]? = c8w1.colliders[j]?) ∧
     c8w1.transforms = c8w1.transforms ∧ c8w1.owners = c8w1.owners ∧
     c8w1.sparse = c8w1.sparse) :=
  ⟨⟨rfl, rfl, c8_nearby_w1_eval, c8_remove_overlapping_w1_eval⟩,
   c8_remove_clears_nearby c8w1 c8H originT emptyBody c8spatial1 [] c8w1
     rfl rfl c8_nearby_w1_eval c8_remove_overlapping_w1_eval⟩

/-!  One-sided resolution (C9).  -/

theorem handle_collision_some (t1 : Transform) (c1 : Collider) (t2 : Transform)
    (c2 : Collider) (e2 : EntityId) (m : Vec2) (rs : Bool) :
    handle_collision t1 c1 t2 c2 e2 (some m) rs =
      some ((if rs = true then (⟨t1.x + m.x, t1.y + m.y⟩ : Transform) else t1),
        { c1 with overlapping := c1.overlapping ++ [⟨t1, c1.shape, c1.collides_with,
          c1.collision_layer, t2, c2.shape, c2.collides_with, c2.collision_layer,
          e2, m.normalized⟩] },
        (⟨t1, c1.shape, c1.collides_with, c1.collision_layer, t2, c2.shape,
          c2.collides_with, c2.collision_layer, e2, m.normalized⟩ : Collision)) := rfl

theorem handle_collision_none (t1 : Transform) (c1 : Collider) (t2 : Transform)
    (c2 : Collider) (e2 : EntityId) (rs : Bool) :
    handle_collision t1 c1 t2 c2 e2 none rs = none := rfl

/-- The reverse block keeps the first body's transform and collider, the
second body's transform, and the returned collision. -/
theorem singleStep2_spec (t1a : Transform) (c1a : Collider) (e1 : EntityId)
    (t2 : Transform) (c2 : Collider) (cb : Bool)
    (result : Option (Bool × Option Vec2)) (collision : Option Collision)
    (out : Transform × Collider × Transform × Collider × Option Collision)
    (h : singleStep2 t1a c1a e1 t2 c2 cb result collision = some out) :
    out.1 = t1a ∧ out.2.1 = c1a ∧ out.2.2.1 = t2 ∧ out.2.2.2.2 = collision := by
  unfold singleStep2 at h
  split_ifs at h with hcond
  · cases hres : (match result with
        | some r => some r
        | none => seperating_axis_test t1a c1a.shape t2 c2.shape) with
    | none =>
        simp only [hres] at h
        exact Option.noConfusion h
    | some p =>
        obtain ⟨collided, mtv⟩ := p
        simp only [hres] at h
        cases collided with
        | false =>
            rw [if_neg (by decide)] at h
            cases h
            exact ⟨rfl, rfl, rfl, rfl⟩
        | true =>
            rw [if_pos rfl] at h
            cases mtv with
            | none => exact Option.noConfusion h
            | some m =>
                simp only [handle_collision_some] at h
                cases h
                exact ⟨rfl, rfl, by rw [if_neg (by decide)], rfl⟩
  · cases h
    exact ⟨rfl, rfl, rfl, rfl⟩

/-- Without resolution the first block never moves the transform. -/
theorem singleStep1_rs_false (t1 : Transform) (c1 : Collider) (t2 : Transform)
    (c2 : Collider) (e2 : EntityId)
    (s : Option (Bool × Option Vec2) × Transform × Collider × Option Collision)
    (h : singleStep1 t1 c1 t2 c2 e2 false = some s) : s.2.1 = t1 := by
  unfold singleStep1 at h
  split_ifs at h with hm
  · cases hsat : seperating_axis_test t1 c1.shape t2 c2.shape with
    | none =>
        simp only [hsat] at h
        exact Option.noConfusion h
    | some p =>
        obtain ⟨collided, mtv⟩ := p
        simp only [hsat] at h
        cases collided with
        | false =>
            rw [if_neg (by decide)] at h
            cases h
            rfl
        | true =>
            rw [if_pos rfl] at h
            cases mtv with
            | none =>
                rw [handle_collision_none] at h
                exact Option.noConfusion h
            | some m =>
                simp only [handle_collision_some] at h
                cases h
                show (if false = true then (⟨t1.x + m.x, t1.y + m.y⟩ : Transform)
                  else t1) = t1
                rw [if_neg (by decide)]
  · cases h
    rfl

/-- C9 support: the single check never modifies the second transform. -/
theorem update_overlapping_single_t2 (t1 : Transform) (c1 : Collider)
    (e1 : EntityId) (t2 : Transform) (c2 : Collider) (e2 : EntityId) (cb rs : Bool)
    (out : Transform × Collider × Transform × Collider × Option Collision)
    (h : update_overlapping_single t1 c1 e1 t2 c2 e2 cb rs = some out) :
    out.2.2.1 = t2 := by
  unfold update_overlapping_single at h
  cases hs1 : singleStep1 t1 c1 t2 c2 e2 rs with
  | none =>
      simp only [hs1] at h
      exact Option.noConfusion h
  | some s =>
      obtain ⟨result, t1a, c1a, collision⟩ := s
      simp only [hs1] at h
      exact (singleStep2_spec _ _ _ _ _ _ _ _ _ h).2.2.1

/-- C9 support: without resolution the single check never modifies the
first transform either. -/
theorem update_overlapping_single_rs_false (t1 : Transform) (c1 : Collider)
    (e1 : EntityId) (t2 : Transform) (c2 : Collider) (e2 : EntityId) (cb : Bool)
    (out : Transform × Collider × Transform × Collider × Option Collision)
    (h : update_overlapping_single t1 c1 e1 t2 c2 e2 cb false = some out) :
    out.1 = t1 := by
  unfold update_overlapping_single at h
  cases hs1 : singleStep1 t1 c1 t2 c2 e2 false with
  | none =>
      simp only [hs1] at h
      exact Option.noConfusion h
  | some s =>
      obtain ⟨result, t1a, c1a, collision⟩ := s
      simp only [hs1] at h
      have h1 := singleStep1_rs_false _ _ _ _ _ _ hs1
      have h2 := (singleStep2_spec _ _ _ _ _ _ _ _ _ h).1
      rw [h2]
      exact h1

theorem innerLoop_t2 (e1 e2 : EntityId) (cb rs : Bool) (cs2 : List Collider) :
    ∀ t1 c1 t2 out, innerLoop e1 e2 cb rs t1 c1 t2 cs2 = some out →
    out.2.2.1 = t2 := by
  induction cs2 with
  | nil =>
      intro t1 c1 t2 out h
      cases h
      rfl
  | cons c2 rest ih =>
      intro t1 c1 t2 out h
      unfold innerLoop at h
      cases hs : update_overlapping_single t1 c1 e1 t2 c2 e2 cb rs with
      | none =>
          simp only [hs] at h
          exact Option.noConfusion h
      | some s =>
          obtain ⟨t1a, c1a, t2a, c2a, col⟩ := s
          simp only [hs] at h
          cases hr : innerLoop e1 e2 cb rs t1a c1a t2a rest with
          | none =>
              simp only [hr] at h
              exact Option.noConfusion h
          | some s2 =>
              obtain ⟨t1b, c1b, t2b, restb, cols⟩ := s2
              simp only [hr] at h
              cases h
              have e2a : t2a = t2 :=
                update_overlapping_single_t2 _ _ _ _ _ _ _ _ _ hs
              have eb : t2b = t2a := ih t1a c1a t2a _ hr
              exact eb.trans e2a

theorem innerLoop_false (e1 e2 : EntityId) (cb : Bool) (cs2 : List Collider) :
    ∀ t1 c1 t2 out, innerLoop e1 e2 cb false t1 c1 t2 cs2 = some out →
    out.1 = t1 ∧ out.2.2.1 = t2 := by
  induction cs2 with
  | nil =>
      intro t1 c1 t2 out h
      cases h
      exact ⟨rfl, rfl⟩
  | cons c2 rest ih =>
      intro t1 c1 t2 out h
      unfold innerLoop at h
      cases hs : update_overlapping_single t1 c1 e1 t2 c2 e2 cb false with
      | none =>
          simp only [hs] at h
          exact Option.noConfusion h
      | some s =>
          obtain ⟨t1a, c1a, t2a, c2a, col⟩ := s
          simp only [hs] at h
          cases hr : innerLoop e1 e2 cb false t1a c1a t2a rest with
          | none =>
              simp only [hr] at h
              exact Option.noConfusion h
          | some s2 =>
              obtain ⟨t1b, c1b, t2b, restb, cols⟩ := s2
              simp only [hr] at h
              cases h
              have e1a : t1a = t1 :=
                update_overlapping_single_rs_false _ _ _ _ _ _ _ _ hs
              have e2a : t2a = t2 :=
                update_overlapping_single_t2 _ _ _ _ _ _ _ _ _ hs
              obtain ⟨f1, f2⟩ := ih t1a c1a t2a _ hr
              exact ⟨f1.trans e1a, f2.trans e2a⟩

theorem outerLoop_t2 (e1 e2 : EntityId) (cb rs : Bool) (cs1 : List Collider) :
    ∀ t1 t2 cs2 out, outerLoop e1 e2 cb rs t1 cs1 t2 cs2 = some out →
    out.2.2.1 = t2 := by
  induction cs1 with
  | nil =>
      intro t1 t2 cs2 out h
      cases h
      rfl
  | cons c1 rest ih =>
      intro t1 t2 cs2 out h
      unfold outerLoop at h
      cases hs : innerLoop e1 e2 cb rs t1 c1 t2 cs2 with
      | none =>
          simp only [hs] at h
          exact Option.noConfusion h
      | some s =>
          obtain ⟨t1a, c1a, t2a, cs2a, cols1⟩ := s
          simp only [hs] at h
          cases hr : outerLoop e1 e2 cb rs t1a rest t2a cs2a with
          | none =>
              simp only [hr] at h
              exact Option.noConfusion h
          | some s2 =>
              obtain ⟨t1b, restb, t2b, cs2b, cols2⟩ := s2
              simp only [hr] at h
              cases h
              have e2a : t2a = t2 := innerLoop_t2 _ _ _ _ _ _ _ _ _ hs
              have eb : t2b = t2a := ih t1a t2a cs2a _ hr
              exact eb.trans e2a

theorem outerLoop_false (e1 e2 : EntityId) (cb : Bool) (cs1 : List Collider) :
    ∀ t1 t2 cs2 out, outerLoop e1 e2 cb false t1 cs1 t2 cs2 = some out →
    out.1 = t1 ∧ out.2.2.1 = t2 := by
  induction cs1 with
  | nil =>
      intro t1 t2 cs2 out h
      cases h
      exact ⟨rfl, rfl⟩
  | cons c1 rest ih =>
      intro t1 t2 cs2 out h
      unfold outerLoop at h
      cases hs : innerLoop e1 e2 cb false t1 c1 t2 cs2 with
      | none =>
          simp only [hs] at h
          exact Option.noConfusion h
      | some s =>
          obtain ⟨t1a, c1a, t2a, cs2a, cols1⟩ := s
          simp only [hs] at h
          cases hr : outerLoop e1 e2 cb false t1a rest t2a cs2a with
          | none =>
              simp only [hr] at h
              exact Option.noConfusion h
          | some s2 =>
              obtain ⟨t1b, restb, t2b, cs2b, cols2⟩ := s2
              simp only [hr] at h
              cases h
              obtain ⟨g1, g2⟩ := innerLoop_false _ _ _ _ _ _ _ _ hs
              obtain ⟨f1, f2⟩ := ih t1a t2a cs2a _ hr
              exact ⟨f1.trans g1, f2.trans g2⟩

theorem outerLoop_nil_left (e1 e2 : EntityId) (cb rs : Bool) (t1 t2 : Transform)
    (cs2 : List Collider) :
    outerLoop e1 e2 cb rs t1 [] t2 cs2 = some (t1, [], t2, cs2, []) := rfl

/-- The inner loop leaves an empty opposite list empty. -/
theorem innerLoop_cs2_nil (e1 e2 : EntityId) (cb rs : Bool) (t1 : Transform)
    (c1 : Collider) (t2 : Transform) :
    innerLoop e1 e2 cb rs t1 c1 t2 [] = some (t1, c1, t2, [], []) := rfl

/-- The outer loop keeps the length-zero shape of the opposite list. -/
theorem outerLoop_cs2_nil (e1 e2 : EntityId) (cb rs : Bool) (cs1 : List Collider) :
    ∀ t1 t2 out, outerLoop e1 e2 cb rs t1 cs1 t2 [] = some out →
    out.2.2.2.1 = [] := by
  induction cs1 with
  | nil =>
      intro t1 t2 out h
      cases h
      rfl
  | cons c1 rest ih =>
      intro t1 t2 out h
      unfold outerLoop at h
      rw [innerLoop_cs2_nil] at h
      simp only [] at h
      cases hr : outerLoop e1 e2 cb rs t1 rest t2 [] with
      | none =>
          simp only [hr] at h
          exact Option.noConfusion h
      | some s2 =>
          obtain ⟨t1b, restb, t2b, cs2b, cols2⟩ := s2
          simp only [hr] at h
          cases h
          exact ih t1 t2 (t1b, restb, t2b, cs2b, cols2) hr

/-- The reverse block on a cached hit: records on c2 with the negated
mtv exactly when the reverse mask matches and both sides are checked,
and never moves a transform. -/
theorem singleStep2_cached_hit (t1a : Transform) (c1a : Collider) (e1 : EntityId)
    (t2 : Transform) (c2 : Collider) (cb : Bool) (m : Vec2)
    (col : Option Collision) :
    singleStep2 t1a c1a e1 t2 c2 cb (some (true, some m)) col =
      (if c2.collides_with &&& c1a.collision_layer > 0 ∧ cb = true then
        some (t1a, c1a, t2,
          { c2 with overlapping := c2.overlapping ++ [⟨t2, c2.shape,
            c2.collides_with, c2.collision_layer, t1a, c1a.shape,
            c1a.collides_with, c1a.collision_layer, e1, (-m).normalized⟩] }, col)
      else some (t1a, c1a, t2, c2, col)) := by
  unfold singleStep2
  split_ifs with hc
  · simp only [handle_collision_some, eq_self_iff_true, if_true]
    rw [if_neg (show ¬ (false = true) by decide)]
  · rfl

/-- The masked hit path of the single check: shift t1 along the mtv,
record on c1, record the reverse side on c2 when its mask matches, and
hand the c1-side record back. -/
theorem single_resolves (t1 : Transform) (c1 : Collider) (e1 : EntityId)
    (t2 : Transform) (c2 : Collider) (e2 : EntityId) (cb : Bool) (m : Vec2)
    (hm1 : c1.collides_with &&& c2.collision_layer > 0)
    (hsat : seperating_axis_test t1 c1.shape t2 c2.shape = some (true, some m)) :
    update_overlapping_single t1 c1 e1 t2 c2 e2 cb true =
      some ((⟨t1.x + m.x, t1.y + m.y⟩ : Transform),
        { c1 with overlapping := c1.overlapping ++ [⟨t1, c1.shape, c1.collides_with,
          c1.collision_layer, t2, c2.shape, c2.collides_with, c2.collision_layer,
          e2, m.normalized⟩] },
        t2,
        (if c2.collides_with &&& c1.collision_layer > 0 ∧ cb = true then
          { c2 with overlapping := c2.overlapping ++ [⟨t2, c2.shape,
            c2.collides_with, c2.collision_layer,
            (⟨t1.x + m.x, t1.y + m.y⟩ : Transform), c1.shape, c1.collides_with,
            c1.collision_layer, e1, (-m).normalized⟩] }
        else c2),
        some ⟨t1, c1.shape, c1.collides_with, c1.collision_layer, t2, c2.shape,
          c2.collides_with, c2.collision_layer, e2, m.normalized⟩) := by
  have hs1 : singleStep1 t1 c1 t2 c2 e2 true =
      some (some (true, some m), (⟨t1.x + m.x, t1.y + m.y⟩ : Transform),
        { c1 with overlapping := c1.overlapping ++ [⟨t1, c1.shape, c1.collides_with,
          c1.collision_layer, t2, c2.shape, c2.collides_with, c2.collision_layer,
          e2, m.normalized⟩] },
        some ⟨t1, c1.shape, c1.collides_with, c1.collision_layer, t2, c2.shape,
          c2.collides_with, c2.collision_layer, e2, m.normalized⟩) := by
    unfold singleStep1
    rw [if_pos hm1]
    simp only [hsat, handle_collision_some, eq_self_iff_true, if_true]
  unfold update_overlapping_single
  simp only [hs1]
  rw [singleStep2_cached_hit]
  split_ifs with hc
  · rfl
  · rfl

/-- C9: resolution is one-sided and sensors never shift a transform.
The single check never modifies the second body's transform; at the pass
level the moving body is the only one whose transform can change, and it
changes only when resolving an actual collider-collider hit: without
resolution, or when the moving body has no solid colliders (only
sensors), its transform is returned unchanged; on a masked hit with
resolution the transform is shifted by exactly the mtv and the record is
appended on each side whose mask matches. -/
theorem c9_resolution_one_sided :
    (∀ (t1 : Transform) (c1 : Collider) (e1 : EntityId) (t2 : Transform)
      (c2 : Collider) (e2 : EntityId) (cb rs : Bool)
      (out : Transform × Collider × Transform × Collider × Option Collision),
      update_overlapping_single t1 c1 e1 t2 c2 e2 cb rs = some out →
      out.2.2.1 = t2) ∧
    (∀ (t1 : Transform) (b1 : CollisionBody) (e1 : EntityId) (t2 : Transform)
      (b2 : CollisionBody) (e2 : EntityId) (rs : Bool)
      (out : Transform × CollisionBody × Transform × CollisionBody × List Collision),
      update_overlapping_pairs t1 b1 e1 t2 b2 e2 rs = some out →
      out.2.2.1 = t2) ∧
    (∀ (t1 : Transform) (b1 : CollisionBody) (e1 : EntityId) (t2 : Transform)
      (b2 : CollisionBody) (e2 : EntityId)
      (out : Transform × CollisionBody × Transform × CollisionBody × List Collision),
      update_overlapping_pairs t1 b1 e1 t2 b2 e2 false = some out →
      out.1 = t1) ∧
    (∀ (t1 : Transform) (b1 : CollisionBody) (e1 : EntityId) (t2 : Transform)
      (b2 : CollisionBody) (e2 : EntityId) (rs : Bool)
      (out : Transform × CollisionBody × Transform × CollisionBody × List Collision),
      b1.colliders = [] →
      update_overlapping_pairs t1 b1 e1 t2 b2 e2 rs = some out →
      out.1 = t1) ∧
    (∀ (t1 : Transform) (c1 : Collider) (e1 : EntityId) (t2 : Transform)
      (c2 : Collider) (e2 : EntityId) (cb : Bool) (m : Vec2),
      c1.collides_with &&& c2.collision_layer > 0 →
      seperating_axis_test t1 c1.shape t2 c2.shape = some (true, some m) →
      update_overlapping_single t1 c1 e1 t2 c2 e2 cb true =
        some ((⟨t1.x + m.x, t1.y + m.y⟩ : Transform),
          { c1 with overlapping := c1.overlapping ++ [⟨t1, c1.shape,
            c1.collides_with, c1.collision_layer, t2, c2.shape, c2.collides_with,
            c2.collision_layer, e2, m.normalized⟩] },
          t2,
          (if c2.collides_with &&& c1.collision_layer > 0 ∧ cb = true then
            { c2 with overlapping := c2.overlapping ++ [⟨t2, c2.shape,
              c2.collides_with, c2.collision_layer,
              (⟨t1.x + m.x, t1.y + m.y⟩ : Transform), c1.shape, c1.collides_with,
              c1.collision_layer, e1, (-m).normalized⟩] }
          else c2),
          some ⟨t1, c1.shape, c1.collides_with, c1.collision_layer, t2, c2.shape,
            c2.collides_with, c2.collision_layer, e2, m.normalized⟩)) := by
  refine ⟨fun t1 c1 e1 t2 c2 e2 cb rs out h =>
    update_overlapping_single_t2 t1 c1 e1 t2 c2 e2 cb rs out h, ?_, ?_, ?_,
    fun t1 c1 e1 t2 c2 e2 cb m hm hsat =>
      single_resolves t1 c1 e1 t2 c2 e2 cb m hm hsat⟩
  · intro t1 b1 e1 t2 b2 e2 rs out h
    unfold update_overlapping_pairs at h
    cases hp1 : outerLoop e1 e2 true false t1 b1.sensors t2 b2.sensors with
    | none =>
        simp only [hp1] at h
        exact Option.noConfusion h
    | some s1 =>
    obtain ⟨t1a, s1a, t2a, s2a, cols1⟩ := s1
    simp only [hp1] at h
    cases hp2 : outerLoop e1 e2 false false t1a s1a t2a b2.colliders with
    | none =>
        simp only [hp2] at h
        exact Option.noConfusion h
    | some s2 =>
    obtain ⟨t1b, s1b, t2b, col2b, cols2⟩ := s2
    simp only [hp2] at h
    cases hp3 : outerLoop e2 e1 false false t2b s2a t1b b1.colliders with
    | none =>
        simp only [hp3] at h
        exact Option.noConfusion h
    | some s3 =>
    obtain ⟨t2c, s2c, t1c, col1c, cols3⟩ := s3
    simp only [hp3] at h
    cases hp4 : outerLoop e1 e2 true rs t1c col1c t2c col2b with
    | none =>
        simp only [hp4] at h
        exact Option.noConfusion h
    | some s4 =>
    obtain ⟨t1d, col1d, t2d, col2d, cols4⟩ := s4
    simp only [hp4] at h
    cases h
    have h1 : t2a = t2 :=
      (outerLoop_false e1 e2 true b1.sensors t1 t2 b2.sensors _ hp1).2
    have h2 : t2b = t2a :=
      (outerLoop_false e1 e2 false s1a t1a t2a b2.colliders _ hp2).2
    have h3 : t2c = t2b :=
      (outerLoop_false e2 e1 false s2a t2b t1b b1.colliders _ hp3).1
    have h4 : t2d = t2c := outerLoop_t2 e1 e2 true rs col1c t1c t2c col2b _ hp4
    show t2d = t2
    rw [h4, h3, h2, h1]
  · intro t1 b1 e1 t2 b2 e2 out h
    unfold update_overlapping_pairs at h
    cases hp1 : outerLoop e1 e2 true false t1 b1.sensors t2 b2.sensors with
    | none =>
        simp only [hp1] at h
        exact Option.noConfusion h
    | some s1 =>
    obtain ⟨t1a, s1a, t2a, s2a, cols1⟩ := s1
    simp only [hp1] at h
    cases hp2 : outerLoop e1 e2 false false t1a s1a t2a b2.colliders with
    | none =>
        simp only [hp2] at h
        exact Option.noConfusion h
    | some s2 =>
    obtain ⟨t1b, s1b, t2b, col2b, cols2⟩ := s2
    simp only [hp2] at h
    cases hp3 : outerLoop e2 e1 false false t2b s2a t1b b1.colliders with
    | none =>
        simp only [hp3] at h
        exact Option.noConfusion h
    | some s3 =>
    obtain ⟨t2c, s2c, t1c, col1c, cols3⟩ := s3
    simp only [hp3] at h
    cases hp4 : outerLoop e1 e2 true false t1c col1c t2c col2b with
    | none =>
        simp only [hp4] at h
        exact Option.noConfusion h
    | some s4 =>
    obtain ⟨t1d, col1d, t2d, col2d, cols4⟩ := s4
    simp only [hp4] at h
    cases h
    have h1 : t1a = t1 :=
      (outerLoop_false e1 e2 true b1.sensors t1 t2 b2.sensors _ hp1).1
    have h2 : t1b = t1a :=
      (outerLoop_false e1 e2 false s1a t1a t2a b2.colliders _ hp2).1
    have h3 : t1c = t1b :=
      (outerLoop_false e2 e1 false s2a t2b t1b b1.colliders _ hp3).2
    have h4 : t1d = t1c :=
      (outerLoop_false e1 e2 true col1c t1c t2c col2b _ hp4).1
    show t1d = t1
    rw [h4, h3, h2, h1]
  · intro t1 b1 e1 t2 b2 e2 rs out hb1 h
    unfold update_overlapping_pairs at h
    cases hp1 : outerLoop e1 e2 true false t1 b1.sensors t2 b2.sensors with
    | none =>
        simp only [hp1] at h
        exact Option.noConfusion h
    | some s1 =>
    obtain ⟨t1a, s1a, t2a, s2a, cols1⟩ := s1
    simp only [hp1] at h
    cases hp2 : outerLoop e1 e2 false false t1a s1a t2a b2.colliders with
    | none =>
        simp only [hp2] at h
        exact Option.noConfusion h
    | some s2 =>
    obtain ⟨t1b, s1b, t2b, col2b, cols2⟩ := s2
    simp only [hp2] at h
    cases hp3 : outerLoop e2 e1 false false t2b s2a t1b b1.colliders with
    | none =>
        simp only [hp3] at h
        exact Option.noConfusion h
    | some s3 =>
    obtain ⟨t2c, s2c, t1c, col1c, cols3⟩ := s3
    simp only [hp3] at h
    cases hp4 : outerLoop e1 e2 true rs t1c col1c t2c col2b with
    | none =>
        simp only [hp4] at h
        exact Option.noConfusion h
    | some s4 =>
    obtain ⟨t1d, col1d, t2d, col2d, cols4⟩ := s4
    simp only [hp4] at h
    cases h
    have h1 : t1a = t1 :=
      (outerLoop_false e1 e2 true b1.sensors t1 t2 b2.sensors _ hp1).1
    have h2 : t1b = t1a :=
      (outerLoop_false e1 e2 false s1a t1a t2a b2.colliders _ hp2).1
    have h3 : t1c = t1b :=
      (outerLoop_false e2 e1 false s2a t2b t1b b1.colliders _ hp3).2
    rw [hb1] at hp3
    have hcol1c : col1c = [] :=
      outerLoop_cs2_nil e2 e1 false false s2a t2b t1b (t2c, s2c, t1c, col1c, cols3) hp3
    rw [hcol1c, outerLoop_nil_left] at hp4
    injection hp4 with hp4
    have ht1d : t1d = t1c := congrArg Prod.fst hp4.symm
    show t1d = t1
    rw [ht1d, h3, h2, h1]

theorem c9_witness :
    ((Collider.circle 1 1 1).collides_with &&&
       (Collider.circle 1 1 1).collision_layer > 0 ∧
     seperating_axis_test ⟨0, 0⟩ (Collider.circle 1 1 1).shape ⟨1, 0⟩
       (Collider.circle 1 1 1).shape = some (true, some ⟨-1, 0⟩)) ∧
    update_overlapping_single ⟨0, 0⟩ (Collider.circle 1 1 1) ⟨0, 0⟩ ⟨1, 0⟩
      (Collider.circle 1 1 1) ⟨1, 0⟩ true true =
      some ((⟨(0 : ℝ) + (-1), (0 : ℝ) + 0⟩ : Transform),
        (⟨.Circle 1, 1, 1,
          [⟨⟨0, 0⟩, .Circle 1, 1, 1, ⟨1, 0⟩, .Circle 1, 1, 1, ⟨1, 0⟩,
            (⟨-1, 0⟩ : Vec2).normalized⟩]⟩ : Collider),
        (⟨1, 0⟩ : Transform),
        (⟨.Circle 1, 1, 1,
          [⟨⟨1, 0⟩, .Circle 1, 1, 1, ⟨(0 : ℝ) + (-1), (0 : ℝ) + 0⟩, .Circle 1, 1, 1,
            ⟨0, 0⟩, (-(⟨-1, 0⟩ : Vec2)).normalized⟩]⟩ : Collider),
        some ⟨⟨0, 0⟩, .Circle 1, 1, 1, ⟨1, 0⟩, .Circle 1, 1, 1, ⟨1, 0⟩,
          (⟨-1, 0⟩ : Vec2).normalized⟩) :=
  ⟨⟨by decide, satCircles11⟩,
   c9_resolution_one_sided.2.2.2.2 ⟨0, 0⟩ (Collider.circle 1 1 1) ⟨0, 0⟩ ⟨1, 0⟩
     (Collider.circle 1 1 1) ⟨1, 0⟩ true ⟨-1, 0⟩ (by decide) satCircles11⟩

end Vermarine
